import Mathlib

/-! # Lead Conversation Intelligence Engine (`src/components/InboxManager.js`)

A shallow embedding of the conversation parser, the text extraction, the
scoring code, the urgency classifier, the stage detector, the filter engine
with its handlers, the analytics aggregator and the storage of the API keys of
`InboxManager.js`, with the properties of the specification stated and proved
over it.

Conventions of the embedding.

* A value obtained from `JSON.parse` is a `JSON`; `undefined` is `none` in
  `Option JSON`.
* A JavaScript number is a rational, `NaN` or `+Infinity` (`JSNum`). The
  rounding of an arithmetic operation to the nearest IEEE double is
  `roundDouble`, and `Double` adds the two infinities and `NaN`. The scores of
  the lead transform are given twice: `avgResponseTime` and `engagementScore`
  compute in exact arithmetic, `avgResponseTimeDouble` and
  `engagementScoreDouble` round after every operation as the runtime does. The
  averages of the analytics aggregator are rounded. Sums and counts of
  integers are exact (they stay below `2 ^ 53`).
* A string is a Lean `String`, read as its list of characters.
* Built-in functions whose result cannot be computed here (`JSON.parse`, the
  `Date` constructor, `ToNumber`, `ToString`, `toLowerCase`, the local time
  zone) are the fields of `Builtins`; every theorem holds for all of them.
  The functions `btoa` and `atob` are defined.
* An object used as a map is the list of its entries in the order of their
  creation; a stable `sort` is an insertion sort.
* A thrown exception is the `error` of `Except JSError`.
-/

namespace InboxManager

/-! ## JavaScript values -/

/-- A value produced by `JSON.parse`. An object is the list of its entries; a
key has the value of its first entry in the list. -/
inductive JSON where
  | null
  | bool (b : Bool)
  | num (q : ℚ)
  | str (s : String)
  | arr (xs : List JSON)
  | obj (kvs : List (String × JSON))

/-- A JavaScript number: `NaN`, `+Infinity`, or a finite value. -/
inductive JSNum where
  | nan
  | inf
  | fin (q : ℚ)
  deriving DecidableEq

/-- The exceptions the code can raise. -/
inductive JSError where
  | syntaxError
  | typeError
  deriving DecidableEq

/-- Built-in functions of the JavaScript runtime that the code calls. -/
structure Builtins where
  /-- The call `JSON.parse(s)`; `none` when it throws a `SyntaxError`. -/
  jsonParse : String → Option JSON
  /-- The value `new Date(v).getTime()` in milliseconds; `none` for an invalid date. -/
  dateOf : JSON → Option ℤ
  /-- The operation `ToNumber(v)`, the coercion applied by `>`. -/
  toNumber : JSON → JSNum
  /-- The method `String.prototype.toLowerCase`. -/
  toLowerCase : String → String
  /-- The operation `ToString(v)`, applied by `toString()` and by a property
  access `o[v]`. -/
  toStr : JSON → String
  /-- The offset in milliseconds of local time from UTC at the time value `t`:
  `LocalTime(t) = t + localOffset t`. -/
  localOffset : ℤ → ℤ
  /-- The abstract operation `UTC(t)`: the time value of the local time `t`. -/
  utcOfLocal : ℤ → ℤ

namespace JSNum

/-- The sum `x + y` on JavaScript numbers. -/
def add : JSNum → JSNum → JSNum
  | fin a, fin b => fin (a + b)
  | nan, _ => nan
  | _, nan => nan
  | _, _ => inf

/-- The quotient `x / n` for a positive count `n`. -/
def divNat : JSNum → Nat → JSNum
  | fin a, n => fin (a / n)
  | nan, _ => nan
  | inf, _ => inf

/-- The comparison `x < c`; false for `NaN`. -/
def lt : JSNum → ℚ → Bool
  | fin a, c => decide (a < c)
  | _, _ => false

/-- The comparison `x > c`; false for `NaN`. -/
def gt : JSNum → ℚ → Bool
  | fin a, c => decide (c < a)
  | inf, _ => true
  | nan, _ => false

/-- The comparison `x >= c`; false for `NaN`. -/
def ge : JSNum → ℚ → Bool
  | fin a, c => decide (c ≤ a)
  | inf, _ => true
  | nan, _ => false

/-- The comparison `x <= c`; false for `NaN`. -/
def le : JSNum → ℚ → Bool
  | fin a, c => decide (a ≤ c)
  | _, _ => false

/-- The function `Math.floor(x)`. -/
def floor : JSNum → JSNum
  | fin a => fin (⌊a⌋ : ℤ)
  | nan => nan
  | inf => inf

end JSNum

/-- The function `Math.round(x)`: the nearest integer, halves going up. -/
def mathRound (x : ℚ) : ℤ := ⌊x + 1 / 2⌋

/-- The power `2 ^ k` of an integer exponent. -/
def pow2 (k : ℤ) : ℚ :=
  if 0 ≤ k then ((2 ^ k.toNat : ℕ) : ℚ) else 1 / ((2 ^ (-k).toNat : ℕ) : ℚ)

/-- The number of binary digits of `n`, counted in at most `fuel` halvings. -/
def bitLengthAux : ℕ → ℕ → ℕ
  | 0, _ => 0
  | fuel + 1, n => if n = 0 then 0 else bitLengthAux fuel (n / 2) + 1

/-- The number of binary digits of `n`; a number has no more digits than its
value. -/
def bitLength (n : ℕ) : ℕ := bitLengthAux n n

/-- The binary exponent of a rational `x` that is not zero: the integer `e`
with `2 ^ e ≤ |x| < 2 ^ (e + 1)`. It is the difference of the bit lengths of
the numerator and the denominator, or one less. -/
def binaryExponent (x : ℚ) : ℤ :=
  let e : ℤ := (bitLength x.num.natAbs : ℤ) - (bitLength x.den : ℤ)
  if pow2 e ≤ |x| then e else e - 1

/-- The integer nearest to `x`, the even one of the two when `x` lies half
way between them. -/
def roundHalfEven (x : ℚ) : ℤ :=
  let f := ⌊x⌋
  if x - f < 1 / 2 then f
  else if 1 / 2 < x - f then f + 1
  else if f % 2 = 0 then f else f + 1

/-- The IEEE 754 binary64 value nearest to the real `x`, ties going to the
even significand: a multiple of `2 ^ (e - 52)` where `e` is the binary exponent
of `x`, and of `2 ^ (-1074)` below the normal range. The result is the double
that an arithmetic operation of exact result `x` returns when its magnitude is
below `2 ^ 1024`. -/
def roundDouble (x : ℚ) : ℚ :=
  if x = 0 then 0
  else
    let quantum := pow2 (max (binaryExponent x) (-1022) - 52)
    (roundHalfEven (x / quantum) : ℚ) * quantum

/-- A value of the JavaScript type Number: `NaN`, the two infinities, or a
finite double. The sign of zero is not kept. -/
inductive Double where
  | nan
  | posInf
  | negInf
  | fin (q : ℚ)
  deriving DecidableEq

namespace Double

/-- The double returned by an operation whose exact result is `x`: the nearest
double, an infinity when this is `2 ^ 1024` or more in magnitude. -/
def ofRat (x : ℚ) : Double :=
  let r := roundDouble x
  if pow2 1024 ≤ r then posInf
  else if r ≤ -pow2 1024 then negInf
  else fin r

/-- The number held by a `JSNum`. -/
def ofNum : JSNum → Double
  | .fin q => fin q
  | .nan => nan
  | .inf => posInf

/-- The sum `x + y` of two doubles. -/
def add : Double → Double → Double
  | fin a, fin b => ofRat (a + b)
  | nan, _ => nan
  | _, nan => nan
  | posInf, negInf => nan
  | negInf, posInf => nan
  | posInf, _ => posInf
  | _, posInf => posInf
  | negInf, _ => negInf
  | _, negInf => negInf

/-- The quotient `x / n` of a double by a positive count `n`. -/
def divNat : Double → Nat → Double
  | fin a, n => ofRat (a / n)
  | nan, _ => nan
  | posInf, _ => posInf
  | negInf, _ => negInf

/-- The comparison `x < c`; false for `NaN`. -/
def lt : Double → ℚ → Bool
  | fin a, c => decide (a < c)
  | negInf, _ => true
  | _, _ => false

end Double

/-- JavaScript truthiness of a parsed value. -/
def truthy : JSON → Bool
  | .null => false
  | .bool b => b
  | .num q => decide (q ≠ 0)
  | .str s => decide (s ≠ "")
  | .arr _ => true
  | .obj _ => true

/-- The expression `v || d` where `v` may be `undefined`. -/
def orElse (v : Option JSON) (d : JSON) : JSON :=
  match v with
  | some x => if truthy x then x else d
  | none => d

/-- The test `v === s` for a string literal `s`. -/
def strictEqStr (v : JSON) (s : String) : Bool :=
  match v with
  | .str t => decide (t = s)
  | _ => false

/-- The access `v.k` for one of the message keys (`type`, `time`, `from`, ...): a
`TypeError` on `null`, the entry of an object, `undefined` on anything else. -/
def getProp (v : JSON) (k : String) : Except JSError (Option JSON) :=
  match v with
  | .null => .error .typeError
  | .obj kvs => .ok (kvs.lookup k)
  | _ => .ok none

/-- The date `new Date(v)` where `v` may be `undefined` (an invalid date). -/
def newDate (b : Builtins) (v : Option JSON) : Option ℤ :=
  match v with
  | some x => b.dateOf x
  | none => none

/-- The method `String.prototype.includes`. -/
def includes (s k : String) : Bool := decide (k.data <:+: s.data)

/-- The method `Array.prototype.join` on strings. -/
def joinWith (sep : String) : List String → String
  | [] => ""
  | [x] => x
  | x :: y :: rest => x ++ sep ++ joinWith sep (y :: rest)

/-! ## Text extraction (`extractTextFromHTML`) -/

/-- The characters matched by `\s` and removed by `trim`: the white space and
line terminator characters of ECMAScript. -/
def isWhiteSpace (c : Char) : Bool :=
  let n := c.toNat
  (9 ≤ n && n ≤ 13) || n = 32 || n = 160 || n = 5760 || (8192 ≤ n && n ≤ 8202) ||
    n = 8232 || n = 8233 || n = 8239 || n = 8287 || n = 12288 || n = 65279

/-- The method `String.prototype.trim` on a list of characters. -/
def trimChars (l : List Char) : List Char :=
  ((l.dropWhile isWhiteSpace).reverse.dropWhile isWhiteSpace).reverse

/-- The method `String.prototype.trim`. -/
def trim (s : String) : String := ⟨trimChars s.data⟩

/-- The length `s.length`: the number of UTF-16 code units of `s`. -/
def utf16Length (l : List Char) : Nat :=
  (l.map (fun c => if c.toNat < 65536 then 1 else 2)).sum

/-- The call `s.replace(/<[^>]*>/g, ' ')`. The flag is true inside a tag, which is
entered at a `<` that has a `>` somewhere after it. -/
def stripTagsAux : Bool → List Char → List Char
  | _, [] => []
  | true, c :: cs => if c = '>' then ' ' :: stripTagsAux false cs else stripTagsAux true cs
  | false, c :: cs =>
    if c = '<' ∧ '>' ∈ cs then stripTagsAux true cs else c :: stripTagsAux false cs

/-- The call `s.replace(/pat/g, rep)` for a literal, non-empty `pat`: every leftmost
occurrence is replaced and the scan goes on after it. The counter is the
number of characters of the current occurrence still to skip. -/
def replaceAllAux (pat rep : List Char) : Nat → List Char → List Char
  | _, [] => []
  | k + 1, _ :: cs => replaceAllAux pat rep k cs
  | 0, c :: cs =>
    if pat.isPrefixOf (c :: cs) then rep ++ replaceAllAux pat rep (pat.length - 1) cs
    else c :: replaceAllAux pat rep 0 cs

/-- The call `s.replace(/pat/g, rep)` for a literal pattern. -/
def replaceAll (pat rep : String) (l : List Char) : List Char :=
  replaceAllAux pat.data rep.data 0 l

/-- The call `s.replace(/\s+/g, ' ')`. The flag is true right after a white space
character. -/
def collapseWhiteSpaceAux : Bool → List Char → List Char
  | _, [] => []
  | prev, c :: cs =>
    if isWhiteSpace c then
      if prev then collapseWhiteSpaceAux true cs else ' ' :: collapseWhiteSpaceAux true cs
    else c :: collapseWhiteSpaceAux false cs

/-- The literal replacements of `extractTextFromHTML` that follow the removal
of tags, in the order applied: the entities, then `\r\n`. -/
def entityReplacements : List (String × String) :=
  [("&nbsp;", " "), ("&amp;", "&"), ("&lt;", "<"), ("&gt;", ">"), ("&#39;", "\x27"),
   ("&#x27;", "\x27"), ("&apos;", "\x27"), ("&quot;", "\x22"), ("&#34;", "\x22"),
   ("&#x22;", "\x22"), ("&#8217;", "\x27"), ("&#8216;", "\x27"), ("&#8220;", "\x22"),
   ("&#8221;", "\x22"), ("&#8211;", "-"), ("&#8212;", "â€”"),
   ("&#8230;", "..."), ("&hellip;", "..."), ("&mdash;", "â€”"),
   ("&ndash;", "-"), ("&rsquo;", "\x27"), ("&lsquo;", "\x27"), ("&rdquo;", "\x22"),
   ("&ldquo;", "\x22"), ("\r\n", "\n")]

/-- The cleaned text: tags removed, entities decoded, white space collapsed,
trimmed. -/
def cleanText (html : List Char) : List Char :=
  let text := stripTagsAux false html
  let text := entityReplacements.foldl (fun t pr => replaceAll pr.1 pr.2 t) text
  trimChars (collapseWhiteSpaceAux false text)

/-- The reply separators searched for by `extractTextFromHTML`. -/
def replyIndicators : List String :=
  ["On ", "From:", "-----Original Message-----", "________________________________",
   "--- On ", "Sent from my iPhone", "Sent from my iPad", "Get Outlook for",
   "This email was sent to"]

/-- The call `s.indexOf(pat)`, with `none` for `-1`. -/
def indexOf (pat : List Char) : List Char → Option Nat
  | [] => if pat.isEmpty then some 0 else none
  | c :: cs =>
    if pat.isPrefixOf (c :: cs) then some 0 else (indexOf pat cs).map (· + 1)

/-- The call `s.split('\n')`. -/
def splitLines : List Char → List (List Char)
  | [] => [[]]
  | c :: cs =>
    match splitLines cs with
    | [] => [[]]
    | line :: rest => if c = '\n' then [] :: line :: rest else (c :: line) :: rest

/-- The call `lines.join('\n')`. -/
def joinLines : List (List Char) → List Char
  | [] => []
  | [x] => x
  | x :: y :: rest => x ++ '\n' :: joinLines (y :: rest)

/-- The index at which the marker truncation cuts `text`. -/
def cutoffIndex (text : List Char) : Nat :=
  replyIndicators.foldl
    (fun cutoff indicator =>
      match indexOf indicator.data text with
      | some index => if index < cutoff then index else cutoff
      | none => cutoff)
    text.length

/-- The lines kept by the line scan of `extractTextFromHTML`. -/
def newReplyLines (text : List Char) : List (List Char) :=
  ((splitLines text).map trimChars).takeWhile
    (fun line => !(['>'].isPrefixOf line) &&
      !(replyIndicators.any (fun indicator => decide (indicator.data <:+: line))))

/-- The function `extractTextFromHTML` of `InboxManager.js`, on the characters of a non-empty
input. -/
def extractChars (html : List Char) : List Char :=
  let text := cleanText html
  let methodOne := trimChars (text.take (cutoffIndex text))
  let methodTwo := trimChars (joinLines (newReplyLines text))
  let result :=
    if utf16Length methodTwo > 0 ∧ utf16Length methodTwo < utf16Length methodOne
    then methodTwo else methodOne
  if result.isEmpty then text else result

/-- The function `extractTextFromHTML` of `InboxManager.js`. -/
def extractTextFromHTML (html : String) : String :=
  if html = "" then "" else ⟨extractChars html.data⟩

/-! ## Messages and leads -/

/-- A message of a parsed conversation, as built by the parser in `fetchLeads`.
The fields `from_` and `to_` are the `from` and `to` of the source. -/
structure Message where
  from_ : JSON
  to_ : JSON
  cc : JSON
  type : JSON
  time : JSON
  content : String
  subject : JSON
  opened : Bool
  clicked : Bool
  response_time : Option JSNum

/-- The columns of a row of the `leads` table read by the lead transform; the
value `none` is an absent (`null`) column. -/
structure RawLead where
  id : String
  campaign_id : Option JSON
  campaign_ID : Option JSON
  created_at : Option JSON
  email : Option String
  lead_email : Option String
  first_name : Option String
  last_name : Option String
  lead_category : Option JSON
  email_message_body : Option String

/-- The fields of an assembled lead that the scoring, filtering and analytics
code reads. A tag is `none` when it is a value that is not a string. -/
structure Lead where
  id : String
  campaign_id : JSON
  created_at : Option JSON
  email : Option String
  first_name : String
  last_name : String
  subject : String
  intent : Nat
  response_time_avg : JSNum
  engagement_score : ℤ
  lead_category : Option JSON
  tags : List (Option String)
  conversation : List Message

/-! ## The conversation parser of `fetchLeads` -/

/-- The `response_time` of a raw message `msg` that follows `prevMsg`. -/
def responseTimeOf (b : Builtins) (prevMsg : Option JSON) (msg : JSON) :
    Except JSError (Option JSNum) := do
  let msgType ← getProp msg "type"
  match msgType, prevMsg with
  | some t, some prev =>
    if strictEqStr t "REPLY" && truthy prev then do
      let prevType ← getProp prev "type"
      match prevType with
      | some pt =>
        if strictEqStr pt "SENT" then do
          let msgTime ← getProp msg "time"
          let prevTime ← getProp prev "time"
          match newDate b msgTime, newDate b prevTime with
          | some t1, some t0 => pure (some (JSNum.fin (((t1 - t0 : ℤ) : ℚ) / (1000 * 60 * 60))))
          | _, _ => pure (some JSNum.nan)
        else pure none
      | none => pure none
    else pure none
  | _, _ => pure none

/-- The content of a message: `extractTextFromHTML(msg.email_body || '')`, a
`TypeError` when the body is a truthy value that is not a string. -/
def contentOf (body : Option JSON) : Except JSError String :=
  match orElse body (.str "") with
  | .str s => pure (extractTextFromHTML s)
  | _ => throw .typeError

/-- The callback of `parsedConversation.map`: the message built from the raw
message `msg` whose predecessor in the array is `prevMsg`. -/
def parseMessage (b : Builtins) (nowISO : String) (prevMsg : Option JSON) (msg : JSON) :
    Except JSError Message := do
  let responseTime ← responseTimeOf b prevMsg msg
  let from_ ← getProp msg "from"
  let to_ ← getProp msg "to"
  let cc ← getProp msg "cc"
  let type ← getProp msg "type"
  let time ← getProp msg "time"
  let body ← getProp msg "email_body"
  let content ← contentOf body
  let subject ← getProp msg "subject"
  let openCount ← getProp msg "open_count"
  let clickCount ← getProp msg "click_count"
  pure
    { from_ := orElse from_ (.str "")
      to_ := orElse to_ (.str "")
      cc := orElse cc .null
      type := orElse type (.str "SENT")
      time := orElse time (.str nowISO)
      content := content
      subject := orElse subject (.str "")
      opened := (b.toNumber (orElse openCount (.num 0))).gt 0
      clicked := (b.toNumber (orElse clickCount (.num 0))).gt 0
      response_time := responseTime }

/-- The call `parsedConversation.map(...)` on an array, `prevMsg` being the
element before the first one of the list. -/
def parseMessages (b : Builtins) (nowISO : String) :
    Option JSON → List JSON → Except JSError (List Message)
  | _, [] => pure []
  | prevMsg, msg :: rest => do
    let m ← parseMessage b nowISO prevMsg msg
    let ms ← parseMessages b nowISO (some msg) rest
    pure (m :: ms)

/-- The call `conversation.find(msg => msg.subject && msg.subject.trim() !== '')`:
a `TypeError` at a truthy subject that is not a string. -/
def findMessageWithSubject : List Message → Except JSError (Option String)
  | [] => pure none
  | m :: ms =>
    match m.subject with
    | .str s =>
      if s ≠ "" ∧ trim s ≠ "" then pure (some (trim s)) else findMessageWithSubject ms
    | v => if truthy v then throw .typeError else findMessageWithSubject ms

/-- The `stats_id` lookup on the first element: it throws when that element
is `null`. -/
def statsIdStep (xs : List JSON) : Except JSError Unit :=
  match xs with
  | [] => pure ()
  | x :: _ => do
    let _ ← getProp x "stats_id"
    pure ()

/-- The body of the `try` block for a truthy `email_message_body`: the
conversation and the subject found in it, if any. A parsed value that is not
an array has no `map` method, so the block throws. -/
def tryParse (b : Builtins) (nowISO : String) (body : String) :
    Except JSError (List Message × Option String) :=
  match b.jsonParse body with
  | none => throw .syntaxError
  | some (.arr xs) => do
    statsIdStep xs
    let conversation ← parseMessages b nowISO none xs
    let subject ← findMessageWithSubject conversation
    pure (conversation, subject)
  | some _ => throw .typeError

/-- The conversation and the extracted subject of a raw lead: the `try` /
`catch` of the lead transform in `fetchLeads`. -/
def parseConversation (b : Builtins) (nowISO : String) (lead : RawLead) :
    List Message × String :=
  let defaultSubject := "Campaign for " ++ (match lead.first_name with
    | some n => if n ≠ "" then n else "Lead"
    | none => "Lead")
  match lead.email_message_body with
  | none => ([], defaultSubject)
  | some body =>
    if body = "" then ([], defaultSubject)
    else
      match tryParse b nowISO body with
      | .ok (conversation, some subject) => (conversation, subject)
      | .ok (conversation, none) => (conversation, defaultSubject)
      | .error _ => ([], defaultSubject)

/-! ## Scores computed by the lead transform of `fetchLeads` -/

/-- The list `conversation.filter(m => m.type === 'REPLY')`. -/
def repliesOf (conversation : List Message) : List Message :=
  conversation.filter (fun m => strictEqStr m.type "REPLY")

/-- The list `conversation.filter(m => m.type === 'SENT')`. -/
def sentOf (conversation : List Message) : List Message :=
  conversation.filter (fun m => strictEqStr m.type "SENT")

/-- The list `responseTimes` of the lead transform. -/
def responseTimes (conversation : List Message) : List JSNum :=
  (conversation.filter (fun m => m.response_time.isSome)).map
    (fun m => match m.response_time with
      | some t => t
      | none => JSNum.nan)

/-- The value `avgResponseTime` of the lead transform, computed in exact
arithmetic. -/
def avgResponseTime (conversation : List Message) : JSNum :=
  let times := responseTimes conversation
  if times.length > 0 then
    (times.foldl (fun sum time => JSNum.add sum time) (JSNum.fin 0)).divNat times.length
  else JSNum.fin 0

/-- The value `engagementScore` of the lead transform, computed in exact
arithmetic. -/
def engagementScore (conversation : List Message) : ℤ :=
  let replies := repliesOf conversation
  let sent := sentOf conversation
  let avg := avgResponseTime conversation
  let score : ℚ := 0
  let score :=
    if sent.length > 0 then
      let score := score + min (((replies.length : ℚ) / (sent.length : ℚ)) * 60) 60
      if avg.lt 1 then score + 40
      else if avg.lt 4 then score + 30
      else if avg.lt 24 then score + 20
      else if avg.lt 72 then score + 10
      else score
    else score
  mathRound (min score 100)

/-- The double that the parser stores as `response_time` when the exact
quotient of the difference of the two time values by `1000 * 60 * 60` is `t`:
the difference is rounded, then its quotient. -/
def storedResponseTime : JSNum → Double
  | .fin q => (Double.ofRat (q * (1000 * 60 * 60))).divNat (1000 * 60 * 60)
  | .nan => .nan
  | .inf => .posInf

/-- The value `avgResponseTime` of the lead transform in double arithmetic:
`responseTimes.reduce((sum, time) => sum + time, 0) / responseTimes.length`
adds the stored response times from left to right, rounding every sum, and
rounds the quotient. -/
def avgResponseTimeDouble (conversation : List Message) : Double :=
  let times := (responseTimes conversation).map storedResponseTime
  if times.length > 0 then
    (times.foldl (fun sum time => Double.add sum time) (Double.fin 0)).divNat times.length
  else Double.fin 0

/-- The value `engagementScore` of the lead transform in double arithmetic,
the number that the code stores in `engagement_score`: every quotient, product
and sum is rounded to the nearest double. The first sum adds a double to `0`
and is exact. -/
def engagementScoreDouble (conversation : List Message) : ℤ :=
  let replies := repliesOf conversation
  let sent := sentOf conversation
  let avg := avgResponseTimeDouble conversation
  let score : ℚ := 0
  let score :=
    if sent.length > 0 then
      let score := score
        + min (roundDouble (roundDouble ((replies.length : ℚ) / (sent.length : ℚ)) * 60)) 60
      if avg.lt 1 then roundDouble (score + 40)
      else if avg.lt 4 then roundDouble (score + 30)
      else if avg.lt 24 then roundDouble (score + 20)
      else if avg.lt 72 then roundDouble (score + 10)
      else score
    else score
  mathRound (min score 100)

/-- The text `allText` scanned for keywords: the lowercased contents joined
by a space. -/
def allText (b : Builtins) (conversation : List Message) : String :=
  joinWith " " (conversation.map (fun m => b.toLowerCase m.content))

/-- The list `positiveKeywords` of the lead transform. -/
def positiveKeywords : List String :=
  ["interested", "yes", "sure", "sounds good", "let me know", "call", "meeting", "schedule"]

/-- The value `intentScore` of the lead transform. -/
def intentScore (b : Builtins) (conversation : List Message) : Nat :=
  let replies := repliesOf conversation
  let text := allText b conversation
  let score := 1 + min (replies.length * 2) 6
  let score := score + (positiveKeywords.filter (fun keyword => includes text keyword)).length
  let score := if includes text "price" || includes text "cost" then score + 1 else score
  let score := if includes text "sample" || includes text "example" then score + 1 else score
  min score 10

/-- The table `leadCategoryMap` of `InboxManager.js`: its own entries. -/
def leadCategoryMap : List (String × String) :=
  [("1", "Interested"), ("2", "Meeting Request"), ("3", "Not Interested"),
   ("4", "Do Not Contact"), ("5", "Information Request"), ("6", "Out Of Office"),
   ("7", "Wrong Person"), ("8", "Uncategorizable by AI"), ("9", "Sender Originated Bounce")]

/-- The property names every object literal inherits from `Object.prototype`;
their values are functions or objects, hence truthy and not strings. -/
def objectPrototypeKeys : List String :=
  ["constructor", "toString", "toLocaleString", "valueOf", "hasOwnProperty", "isPrototypeOf",
   "propertyIsEnumerable", "__proto__", "__defineGetter__", "__defineSetter__",
   "__lookupGetter__", "__lookupSetter__"]

/-- The single tag of an assembled lead:
`lead.lead_category ? leadCategoryMap[lead.lead_category] || 'Uncategorized' : 'Uncategorized'`. -/
def categoryTag (b : Builtins) (lead_category : Option JSON) : Option String :=
  match lead_category with
  | some c =>
    if truthy c then
      match leadCategoryMap.lookup (b.toStr c) with
      | some label => some label
      | none => if (b.toStr c) ∈ objectPrototypeKeys then none else some "Uncategorized"
    else some "Uncategorized"
  | none => some "Uncategorized"

/-- The expression `a || b` on two columns that hold a string or `null`. -/
def orElseString (a b : Option String) : Option String :=
  match a with
  | some s => if s ≠ "" then some s else b
  | none => b

/-- The expression `a || b || null` on two columns. -/
def orElseNull (a b : Option JSON) : JSON :=
  match a with
  | some x => if truthy x then x else orElse b .null
  | none => orElse b .null

/-- The lead transform of `fetchLeads`, applied to one row; `nowISO` is the
value of `new Date().toISOString()` during the run. The fields
`response_time_avg` and `engagement_score` hold the values of exact
arithmetic; the doubles that the runtime computes from the same conversation
are `avgResponseTimeDouble` and `engagementScoreDouble`. -/
def transformLead (b : Builtins) (nowISO : String) (lead : RawLead) : Lead :=
  let parsed := parseConversation b nowISO lead
  let conversation := parsed.1
  { id := lead.id
    campaign_id := orElseNull lead.campaign_id lead.campaign_ID
    created_at := lead.created_at
    email := orElseString lead.email lead.lead_email
    first_name := match lead.first_name with
      | some n => if n ≠ "" then n else "Unknown"
      | none => "Unknown"
    last_name := match lead.last_name with
      | some n => n
      | none => ""
    subject := parsed.2
    intent := intentScore b conversation
    response_time_avg := avgResponseTime conversation
    engagement_score := engagementScore conversation
    lead_category := lead.lead_category
    tags := [categoryTag b lead.lead_category]
    conversation := conversation }

/-! ## Urgency (`getResponseUrgency`) -/

/-- The function `safeGetLastMessage` of `InboxManager.js`. -/
def safeGetLastMessage (lead : Lead) : Option Message :=
  if lead.conversation.length = 0 then none else lead.conversation.getLast?

/-- The function `timeDiff` of `InboxManager.js`, on the time values of the two dates: the
difference in days, `Infinity` when a date is invalid. -/
def timeDiff (date1 date2 : Option ℤ) : JSNum :=
  match date1, date2 with
  | some d1, some d2 => JSNum.fin (((d1 - d2 : ℤ) : ℚ) / (1000 * 60 * 60 * 24))
  | _, _ => JSNum.inf

/-- The function `getResponseUrgency` of `InboxManager.js`; `now` is the time value of
`new Date()`. -/
def getResponseUrgency (b : Builtins) (now : ℤ) (lead : Lead) : String :=
  match safeGetLastMessage lead with
  | none => "none"
  | some lastMessage =>
    let isHighMediumIntent := decide (lead.intent ≥ 4)
    let theyRepliedLast := strictEqStr lastMessage.type "REPLY"
    let weRepliedLast := strictEqStr lastMessage.type "SENT"
    let daysSinceLastMessage := timeDiff (some now) (b.dateOf lastMessage.time)
    if isHighMediumIntent && theyRepliedLast then
      if daysSinceLastMessage.ge 2 then "urgent-response" else "needs-response"
    else if weRepliedLast && daysSinceLastMessage.ge 3 then "needs-followup"
    else "none"

/-! ## Lifecycle stage (`detectConversationStage`) -/

/-- The list `availableStages` of `InboxManager.js`. -/
def availableStages : List String :=
  ["initial-outreach", "engaged", "pricing-discussion", "samples-requested", "call-scheduled",
   "considering", "stalled", "no-response", "rejected", "active"]

/-- The value `daysSinceLastMessage` of `detectConversationStage`: `NaN`
when the time of the message is not a valid date. -/
def daysSince (b : Builtins) (now : ℤ) (time : JSON) : JSNum :=
  match b.dateOf time with
  | some t => JSNum.fin (((now - t : ℤ) : ℚ) / (1000 * 60 * 60 * 24))
  | none => JSNum.nan

/-- The function `detectConversationStage` of `InboxManager.js`; `now` is the time value of
`new Date()`. Reading `time` of the last message of an empty conversation
throws a `TypeError`. -/
def detectConversationStage (b : Builtins) (now : ℤ) (conversation : List Message) :
    Except JSError String :=
  let text := allText b conversation
  let replies := repliesOf conversation
  match conversation.getLast? with
  | none => throw .typeError
  | some lastMessage =>
    let daysSinceLastMessage := daysSince b now lastMessage.time
    if replies.length = 0 then
      if daysSinceLastMessage.gt 7 then pure "no-response" else pure "initial-outreach"
    else if includes text "not interested" || includes text "no thanks" then
      pure "rejected"
    else if includes text "price" || includes text "cost" || includes text "budget" then
      pure "pricing-discussion"
    else if includes text "sample" || includes text "example" || includes text "portfolio" then
      pure "samples-requested"
    else if includes text "call" || includes text "meeting" || includes text "schedule" then
      pure "call-scheduled"
    else if includes text "think about" || includes text "discuss with team" ||
        includes text "get back" then
      pure "considering"
    else if daysSinceLastMessage.gt 7 then pure "stalled"
    else if replies.length > 0 &&
        (includes text "interested" || includes text "yes" || includes text "sure") then
      pure "engaged"
    else pure "active"

/-! ## The state of the list view and the filter engine (`filteredAndSortedLeads`) -/

/-- An entry of `activeSorts`. -/
structure SortEntry where
  field : String
  direction : String
  deriving DecidableEq

/-- The state read by `filteredAndSortedLeads` and changed by the sort and
filter handlers. The object `activeFilters` is the list of its entries, in
insertion order. -/
structure ViewState where
  leads : List Lead
  activeTab : String
  searchQuery : String
  activeSorts : List SortEntry
  activeFilters : List (String × List String)

/-- The predicate of the `need_response` tab. -/
def needResponseTab (lead : Lead) : Bool :=
  match lead.conversation.getLast? with
  | none => false
  | some lastMessage => strictEqStr lastMessage.type "REPLY"

/-- The value `(new Date() - new Date(time)) / (1000 * 60 * 60)`: `NaN` when
`time` is not a valid date. -/
def hoursSince (b : Builtins) (now : ℤ) (time : JSON) : JSNum :=
  match b.dateOf time with
  | some t => JSNum.fin (((now - t : ℤ) : ℚ) / (1000 * 60 * 60))
  | none => JSNum.nan

/-- The predicate of the `recently_sent` tab. -/
def recentlySentTab (b : Builtins) (now : ℤ) (lead : Lead) : Bool :=
  match lead.conversation.getLast? with
  | none => false
  | some lastMessage =>
    if !truthy lastMessage.time || !strictEqStr lastMessage.type "SENT" then false
    else
      let timeSinceLastMessage := (hoursSince b now lastMessage.time).floor
      timeSinceLastMessage.le 24

/-- The predicate of the search filter for the query `query`. -/
def searchMatches (b : Builtins) (query : String) (lead : Lead) : Bool :=
  let firstName := b.toLowerCase lead.first_name
  let lastName := b.toLowerCase lead.last_name
  let email := b.toLowerCase (match lead.email with
    | some e => e
    | none => "")
  let subject := b.toLowerCase lead.subject
  let tagsMatch := lead.tags.any (fun tag =>
    match tag with
    | some t => decide (t ≠ "") && includes (b.toLowerCase t) query
    | none => false)
  includes firstName query || includes lastName query || includes email query ||
    includes subject query || tagsMatch

/-- The value `daysDiff` of the `timeframe` filter: the days since the last
message, or since the creation of the lead (or now) when there is none. -/
def daysDiff (b : Builtins) (now : ℤ) (lead : Lead) : JSNum :=
  let created : Option ℤ :=
    match lead.created_at with
    | some c => if truthy c then b.dateOf c else some now
    | none => some now
  let lastActivity : Option ℤ :=
    match lead.conversation.getLast? with
    | some lastMessage => if truthy lastMessage.time then b.dateOf lastMessage.time else created
    | none => created
  match lastActivity with
  | some t => JSNum.fin (((now - t : ℤ) : ℚ) / (1000 * 60 * 60 * 24))
  | none => JSNum.nan

/-- The callback of `values.some` in the advanced filters: the lead matches
the value `value` of the category `category`. -/
def filterValueMatches (b : Builtins) (now : ℤ) (category value : String) (lead : Lead) : Bool :=
  if value = "" then false
  else if category = "intent" then
    if value = "high" then decide (lead.intent ≥ 7)
    else if value = "medium" then decide (lead.intent ≥ 4) && decide (lead.intent ≤ 6)
    else if value = "low" then decide (lead.intent ≤ 3)
    else false
  else if category = "urgency" then
    decide (value = getResponseUrgency b now lead)
  else if category = "category" then
    match lead.lead_category with
    | some c => truthy c && decide (b.toStr c = value)
    | none => false
  else if category = "engagement" then
    if value = "high" then decide (lead.engagement_score ≥ 80)
    else if value = "medium" then
      decide (lead.engagement_score ≥ 50) && decide (lead.engagement_score < 80)
    else if value = "low" then decide (lead.engagement_score < 50)
    else false
  else if category = "replies" then
    let replyCount := (lead.conversation.filter (fun m => strictEqStr m.type "REPLY")).length
    if value = "has_replies" then decide (replyCount > 0)
    else if value = "no_replies" then decide (replyCount = 0)
    else if value = "multiple_replies" then decide (replyCount ≥ 2)
    else false
  else if category = "timeframe" then
    let daysDiff := daysDiff b now lead
    if value = "today" then daysDiff.ge 0 && daysDiff.lt 1
    else if value = "yesterday" then daysDiff.ge 1 && daysDiff.lt 2
    else if value = "this_week" then daysDiff.le 7
    else if value = "last_week" then daysDiff.gt 7 && daysDiff.le 14
    else if value = "this_month" then daysDiff.le 30
    else if value = "older" then daysDiff.gt 30
    else false
  else false

/-- The loop over `Object.entries(activeFilters)`: each entry with a
non-empty list of values filters the list. -/
def applyFilters (b : Builtins) (now : ℤ) (activeFilters : List (String × List String))
    (filtered : List Lead) : List Lead :=
  activeFilters.foldl
    (fun filtered entry =>
      if entry.2.length = 0 then filtered
      else filtered.filter (fun lead =>
        entry.2.any (fun value => filterValueMatches b now entry.1 value lead)))
    filtered

/-- The memo `filteredAndSortedLeads` of `InboxManager.js`; `now` is the time value of
`new Date()`. The code reads `leads`, `activeTab`, `searchQuery` and
`activeFilters`; it does not read `activeSorts`. -/
def filteredAndSortedLeads (b : Builtins) (now : ℤ) (st : ViewState) : List Lead :=
  let filtered := st.leads
  let filtered :=
    if st.activeTab = "need_response" then filtered.filter needResponseTab
    else if st.activeTab = "recently_sent" then filtered.filter (recentlySentTab b now)
    else filtered
  let filtered :=
    if st.searchQuery ≠ "" ∧ trim st.searchQuery ≠ "" then
      let query := trim (b.toLowerCase st.searchQuery)
      filtered.filter (searchMatches b query)
    else filtered
  applyFilters b now st.activeFilters filtered

/-! ## The sort and filter handlers -/

/-- The function `handleAddSort` of `InboxManager.js`: the next value of `activeSorts`. -/
def handleAddSort (activeSorts : List SortEntry) (field direction : String) :
    List SortEntry :=
  match activeSorts.find? (fun s => s.field = field) with
  | some _ =>
    activeSorts.map (fun s => if s.field = field then { s with direction := direction } else s)
  | none => activeSorts ++ [{ field := field, direction := direction }]

/-- The initial value of `activeSorts`, also the default restored by
`handleRemoveSort`. -/
def defaultSorts : List SortEntry := [{ field := "last_reply", direction := "desc" }]

/-- The function `handleRemoveSort` of `InboxManager.js`: the next value of `activeSorts`. The
updater is queued first; the default, queued when the current list has one
entry, replaces its result. -/
def handleRemoveSort (activeSorts : List SortEntry) (field : String) : List SortEntry :=
  let updated := activeSorts.filter (fun s => s.field ≠ field)
  if activeSorts.length = 1 then defaultSorts else updated

/-- The option values of `filterOptions`, by category. -/
def filterOptions : List (String × List String) :=
  [("intent", ["high", "medium", "low"]),
   ("urgency", ["urgent-response", "needs-response", "needs-followup", "none"]),
   ("category", ["1", "2", "3", "4", "5", "6", "7", "8", "9"]),
   ("engagement", ["high", "medium", "low"]),
   ("replies", ["has_replies", "no_replies", "multiple_replies"]),
   ("timeframe", ["today", "yesterday", "this_week", "last_week", "this_month", "older"])]

/-- The array `[...new Set(xs)]`: the first occurrence of every element, in
order. -/
def setOf : List String → List String
  | [] => []
  | x :: xs => x :: (setOf xs).filter (fun y => y ≠ x)

/-- The object `{ ...prev, [category]: values }`: the entry of an existing key
is replaced in place, a new key is added at the end. -/
def setEntry (prev : List (String × List String)) (category : String) (values : List String) :
    List (String × List String) :=
  match prev with
  | [] => [(category, values)]
  | (k, v) :: rest =>
    if k = category then (k, values) :: rest else (k, v) :: setEntry rest category values

/-- The function `handleAddFilter` of `InboxManager.js`: the next value of `activeFilters`, the
same value when the handler returns early. For a category that names an
inherited property of the object `filterOptions` the handler throws a
`TypeError` at `.options.some`, before any update. -/
def handleAddFilter (prev : List (String × List String)) (category value : String) :
    Except JSError (List (String × List String)) :=
  if category = "" ∨ value = "" then pure prev
  else
    match filterOptions.lookup category with
    | none => if category ∈ objectPrototypeKeys then throw .typeError else pure prev
    | some options =>
      let isValidValue := options.any (fun opt => decide (opt = value))
      if !isValidValue then pure prev
      else
        let current := match prev.lookup category with
          | some values => values
          | none => []
        pure (setEntry prev category (setOf (current ++ [value])))

/-- The value of `activeFilters` after a call of `handleAddFilter`: unchanged
when the handler throws. -/
def filtersAfterAdd (prev : List (String × List String)) (category value : String) :
    List (String × List String) :=
  match handleAddFilter prev category value with
  | .ok next => next
  | .error _ => prev

/-! ## The analytics aggregator (`analyticsData`) -/

/-- The abstract operation `LocalTime(t)`. -/
def localTime (b : Builtins) (t : ℤ) : ℤ := t + b.localOffset t

/-- The method `getHours` of a valid date of time value `t`. -/
def getHours (b : Builtins) (t : ℤ) : ℕ := ((localTime b t / 3600000) % 24).toNat

/-- The method `getDay` of a valid date of time value `t`: 0 is Sunday, and
1 January 1970 was a Thursday. -/
def getDay (b : Builtins) (t : ℤ) : ℕ := ((localTime b t / 86400000 + 4) % 7).toNat

/-- The time value of `cutoffDate` after `setDate(getDate() - daysBack)`: the
local date moves back by `daysBack` days at the same local time of day. -/
def cutoffDate (b : Builtins) (now : ℤ) (daysBack : ℕ) : ℤ :=
  b.utcOfLocal (localTime b now - daysBack * 86400000)

/-- The list `filteredLeads` of `analyticsData`: the leads whose `created_at`
is a valid date not before the cutoff. -/
def filteredLeads (b : Builtins) (now : ℤ) (daysBack : ℕ) (leads : List Lead) : List Lead :=
  leads.filter (fun lead =>
    match newDate b lead.created_at with
    | some leadDate => decide (leadDate ≥ cutoffDate b now daysBack)
    | none => false)

/-- An element of `replyMessages`: a REPLY message with the local hour and
week day of its time, `none` (`NaN`) when the time is not a valid date. -/
structure ReplyMessage where
  msg : Message
  hour : Option ℕ
  dayOfWeek : Option ℕ

/-- The list `replyMessages` of `analyticsData`. -/
def replyMessagesOf (b : Builtins) (filteredLeads : List Lead) : List ReplyMessage :=
  filteredLeads.flatMap (fun lead =>
    (lead.conversation.filter (fun msg => strictEqStr msg.type "REPLY")).map (fun msg =>
      { msg := msg
        hour := (b.dateOf msg.time).map (getHours b)
        dayOfWeek := (b.dateOf msg.time).map (getDay b) }))

/-- A cell of `heatmapData`. -/
structure HeatmapCell where
  day : ℕ
  hour : ℕ
  count : ℕ
  dayName : String

/-- The names of the week days used by `heatmapData`. -/
def dayNames : List String :=
  ["Sunday", "Monday", "Tuesday", "Wednesday", "Thursday", "Friday", "Saturday"]

/-- The list `heatmapData` of `analyticsData`: 7 rows of 24 cells, flattened. -/
def heatmapDataOf (replyMessages : List ReplyMessage) : List HeatmapCell :=
  ((List.range 7).map (fun day =>
    (List.range 24).map (fun hour =>
      { day := day
        hour := hour
        count := (replyMessages.filter (fun msg =>
          decide (msg.dayOfWeek = some day) && decide (msg.hour = some hour))).length
        dayName := dayNames.getD day "" }))).flatten

/-- The key of a lead in `campaignPerformance`: `lead.campaign_id || 'Unknown Campaign'`
as a property name. -/
def campaignKey (b : Builtins) (lead : Lead) : String :=
  b.toStr (orElse (some lead.campaign_id) (.str "Unknown Campaign"))

/-- The key of a lead in `categoryPerformance` when it is a string:
`lead.tags && lead.tags[0] ? lead.tags[0] : 'Uncategorized'`; `none` for a
first tag that is not a string, whose property name is not an inherited one. -/
def categoryKey (lead : Lead) : Option String :=
  match lead.tags with
  | [] => some "Uncategorized"
  | some t :: _ => if t ≠ "" then some t else some "Uncategorized"
  | none :: _ => none

/-- A property name of the accumulator `categoryPerformance`: a tag that is a
string, or the string form of the value that `leadCategoryMap` inherits under
the name `property`. The inherited values are distinct functions and objects
with distinct string forms, so two such names are equal exactly when the
properties are. -/
inductive CategoryName where
  | tag (t : String)
  | inherited (property : String)
  deriving DecidableEq

/-- The property name under which `categoryPerformance` files a lead:
`lead.tags && lead.tags[0] ? lead.tags[0] : 'Uncategorized'` as a property
name. A first tag that is not a string is the value that the lead transform
read from `leadCategoryMap[lead.lead_category]`, an inherited one; no other
code writes `tags`. -/
def categoryName (b : Builtins) (lead : Lead) : CategoryName :=
  match lead.tags with
  | [] => .tag "Uncategorized"
  | some t :: _ => if t ≠ "" then .tag t else .tag "Uncategorized"
  | none :: _ =>
    match lead.lead_category with
    | some c => .inherited (b.toStr c)
    | none => .inherited ""

/-- The exceptions of the reduction `campaignPerformance`: for a key that names
an inherited property of the accumulator, no entry is created and
`conversationDepths.push` is called on `undefined`. -/
def campaignStep (b : Builtins) (filteredLeads : List Lead) : Except JSError Unit :=
  if filteredLeads.any (fun lead => decide (campaignKey b lead ∈ objectPrototypeKeys)) then
    throw .typeError
  else pure ()

/-- The exceptions of the reduction `categoryPerformance`, as for the
campaigns. -/
def categoryStep (filteredLeads : List Lead) : Except JSError Unit :=
  if filteredLeads.any (fun lead =>
      match categoryKey lead with
      | some k => decide (k ∈ objectPrototypeKeys)
      | none => false) then
    throw .typeError
  else pure ()

/-- The exceptions of `responseTrends`: for each of the `min(daysBack, 30)`
days, `msg.time.split('T')` is called on every reply message and throws when
the time is not a string. -/
def trendsStep (daysBack : ℕ) (replyMessages : List ReplyMessage) : Except JSError Unit :=
  if min daysBack 30 > 0 ∧
      replyMessages.any (fun rm =>
        match rm.msg.time with
        | .str _ => false
        | _ => true) = true then
    throw .typeError
  else pure ()

/-- The entries of an accumulator object after one step of a reduction
`filteredLeads.reduce((acc, lead) => ..., {})`: the entry of the key `k` of the
lead is created as `init k` when the accumulator has none, then it is updated
by `add lead`. The list holds the entries in the order of their creation. -/
def groupStep {κ α : Type} [DecidableEq κ] (key : Lead → κ) (init : κ → α)
    (add : Lead → α → α) (acc : List (κ × α)) (lead : Lead) : List (κ × α) :=
  let k := key lead
  let acc := if (acc.lookup k).isNone then acc ++ [(k, init k)] else acc
  acc.map (fun entry => if entry.1 = k then (entry.1, add lead entry.2) else entry)

/-- The array index that a property name denotes, if any: the name is the
decimal numeral, without a leading zero, of a number below `2^32 - 1`. -/
def arrayIndex (k : String) : Option Nat :=
  if k.data ≠ [] ∧ k.data.all Char.isDigit = true ∧
      (k.data.head? ≠ some '0' ∨ k.data.length = 1) then
    let n := k.data.foldl (fun n c => 10 * n + (c.toNat - 48)) 0
    if n < 4294967295 then some n else none
  else none

/-- The order in which `Object.values` and `Object.entries` list the entries
of an object: the array indices in ascending order, then the other names in
the order of their creation. -/
def ownEntries {κ α : Type} (index : κ → Option Nat) (acc : List (κ × α)) : List (κ × α) :=
  ((acc.filterMap (fun entry => (index entry.1).map (fun i => (i, entry)))).insertionSort
      (fun x y => x.1 ≤ y.1)).map (fun x => x.2)
    ++ acc.filter (fun entry => (index entry.1).isNone)

/-- A value of the accumulator `campaignPerformance`. -/
structure CampaignGroup where
  name : String
  totalLeads : ℕ
  totalReplies : ℕ
  totalIntent : ℕ
  totalEngagement : ℤ
  responseTimes : List JSNum
  conversationDepths : List ℕ

/-- The entry created in `campaignPerformance` for a new key. -/
def campaignInit (campaignId : String) : CampaignGroup :=
  { name := "Campaign " ++ campaignId
    totalLeads := 0
    totalReplies := 0
    totalIntent := 0
    totalEngagement := 0
    responseTimes := []
    conversationDepths := [] }

/-- The update of the entry of a lead in `campaignPerformance`. -/
def campaignAdd (lead : Lead) (g : CampaignGroup) : CampaignGroup :=
  { name := g.name
    totalLeads := g.totalLeads + 1
    totalReplies := g.totalReplies
      + (lead.conversation.filter (fun msg => strictEqStr msg.type "REPLY")).length
    totalIntent := g.totalIntent + lead.intent
    totalEngagement := g.totalEngagement + lead.engagement_score
    responseTimes :=
      if lead.response_time_avg.gt 0 then g.responseTimes ++ [lead.response_time_avg]
      else g.responseTimes
    conversationDepths := g.conversationDepths ++ [lead.conversation.length] }

/-- The object `campaignPerformance` of `analyticsData`, when no key names an
inherited property. -/
def campaignPerformance (b : Builtins) (filteredLeads : List Lead) :
    List (String × CampaignGroup) :=
  filteredLeads.foldl (groupStep (campaignKey b) campaignInit campaignAdd) []

/-- The average `times.reduce((sum, time) => sum + time, 0) / times.length`
of a list of numbers, `0` for the empty list; every sum and the quotient are
rounded. -/
def averageTime (times : List JSNum) : Double :=
  if times.length > 0 then
    ((times.map Double.ofNum).foldl (fun sum time => Double.add sum time)
      (Double.fin 0)).divNat times.length
  else Double.fin 0

/-- The average of a list of conversation lengths, `0` for the empty list. -/
def averageDepth (depths : List ℕ) : ℚ :=
  if depths.length > 0 then
    roundDouble (((depths.foldl (fun sum depth => sum + depth) 0 : ℕ) : ℚ) / depths.length)
  else 0

/-- An element of `campaignStats`. -/
structure CampaignStat where
  name : String
  totalLeads : ℕ
  totalReplies : ℕ
  totalIntent : ℕ
  totalEngagement : ℤ
  responseTimes : List JSNum
  conversationDepths : List ℕ
  avgRepliesPerLead : ℚ
  avgIntent : ℚ
  avgEngagement : ℚ
  avgResponseTime : Double
  avgConversationDepth : ℚ

/-- The averages computed for a campaign. -/
def campaignStatOf (campaign : CampaignGroup) : CampaignStat :=
  { name := campaign.name
    totalLeads := campaign.totalLeads
    totalReplies := campaign.totalReplies
    totalIntent := campaign.totalIntent
    totalEngagement := campaign.totalEngagement
    responseTimes := campaign.responseTimes
    conversationDepths := campaign.conversationDepths
    avgRepliesPerLead :=
      if campaign.totalLeads > 0 then
        roundDouble ((campaign.totalReplies : ℚ) / campaign.totalLeads)
      else 0
    avgIntent :=
      if campaign.totalLeads > 0 then
        roundDouble ((campaign.totalIntent : ℚ) / campaign.totalLeads)
      else 0
    avgEngagement :=
      if campaign.totalLeads > 0 then
        roundDouble ((campaign.totalEngagement : ℚ) / campaign.totalLeads)
      else 0
    avgResponseTime := averageTime campaign.responseTimes
    avgConversationDepth := averageDepth campaign.conversationDepths }

/-- The list `campaignStats` of `analyticsData`, before it is cut to ten
entries: the values of `campaignPerformance` with their averages, in the
order of the stable sort by `(a, b) => b.avgEngagement - a.avgEngagement`. -/
def campaignStatsOf (b : Builtins) (filteredLeads : List Lead) : List CampaignStat :=
  ((ownEntries arrayIndex (campaignPerformance b filteredLeads)).map
      (fun entry => campaignStatOf entry.2)).insertionSort
    (fun x y => x.avgEngagement ≥ y.avgEngagement)

/-- The array index that a property name of `categoryPerformance` denotes, if
any. -/
def categoryIndex : CategoryName → Option Nat
  | .tag t => arrayIndex t
  | .inherited _ => none

/-- A value of the accumulator `categoryPerformance`. -/
structure CategoryGroup where
  totalLeads : ℕ
  totalReplies : ℕ
  totalEngagement : ℤ
  responseTimes : List JSNum
  conversationDepths : List ℕ

/-- The entry created in `categoryPerformance` for a new key. -/
def categoryInit : CategoryGroup :=
  { totalLeads := 0
    totalReplies := 0
    totalEngagement := 0
    responseTimes := []
    conversationDepths := [] }

/-- The update of the entry of a lead in `categoryPerformance`. -/
def categoryAdd (lead : Lead) (g : CategoryGroup) : CategoryGroup :=
  { totalLeads := g.totalLeads + 1
    totalReplies := g.totalReplies
      + (lead.conversation.filter (fun msg => strictEqStr msg.type "REPLY")).length
    totalEngagement := g.totalEngagement + lead.engagement_score
    responseTimes :=
      if lead.response_time_avg.gt 0 then g.responseTimes ++ [lead.response_time_avg]
      else g.responseTimes
    conversationDepths := g.conversationDepths ++ [lead.conversation.length] }

/-- The object `categoryPerformance` of `analyticsData`, when no key names an
inherited property. A key is the first tag of a lead, or `Uncategorized`. -/
def categoryPerformance (b : Builtins) (filteredLeads : List Lead) :
    List (CategoryName × CategoryGroup) :=
  filteredLeads.foldl (groupStep (categoryName b) (fun _ => categoryInit) categoryAdd) []

/-- An element of `categoryStats`. -/
structure CategoryStat where
  category : CategoryName
  totalLeads : ℕ
  avgRepliesPerLead : ℚ
  avgEngagement : ℚ
  avgResponseTime : Double
  avgConversationDepth : ℚ

/-- The averages computed for the entry of a category. -/
def categoryStatOf (entry : CategoryName × CategoryGroup) : CategoryStat :=
  { category := entry.1
    totalLeads := entry.2.totalLeads
    avgRepliesPerLead :=
      if entry.2.totalLeads > 0 then
        roundDouble ((entry.2.totalReplies : ℚ) / entry.2.totalLeads)
      else 0
    avgEngagement :=
      if entry.2.totalLeads > 0 then
        roundDouble ((entry.2.totalEngagement : ℚ) / entry.2.totalLeads)
      else 0
    avgResponseTime := averageTime entry.2.responseTimes
    avgConversationDepth := averageDepth entry.2.conversationDepths }

/-- The list `categoryStats` of `analyticsData`: the entries of
`categoryPerformance` with their averages, in the order of the stable sort by
`(a, b) => b.avgEngagement - a.avgEngagement`. -/
def categoryStatsOf (b : Builtins) (filteredLeads : List Lead) : List CategoryStat :=
  ((ownEntries categoryIndex (categoryPerformance b filteredLeads)).map
      categoryStatOf).insertionSort
    (fun x y => x.avgEngagement ≥ y.avgEngagement)

/-- The fields of the snapshot returned by `analyticsData` that the
properties below read. -/
structure Analytics where
  totalLeads : ℕ
  leadsWithMultipleReplies : ℕ
  totalReplies : ℕ
  campaignStats : List CampaignStat
  categoryStats : List CategoryStat
  heatmapData : List HeatmapCell
  dateRange : ℕ

/-- The memo `analyticsData` of `InboxManager.js` for the window of `daysBack` days; `now` is
the time value of `new Date()`. The result is `none` (`null`) for an empty
collection. -/
def analyticsData (b : Builtins) (now : ℤ) (daysBack : ℕ) (leads : List Lead) :
    Except JSError (Option Analytics) :=
  if leads.length = 0 then pure none
  else do
    let filteredLeads := filteredLeads b now daysBack leads
    let totalLeads := filteredLeads.length
    let leadsWithMultipleReplies := (filteredLeads.filter (fun lead =>
      decide ((lead.conversation.filter (fun msg => strictEqStr msg.type "REPLY")).length ≥ 2))).length
    let totalReplies := filteredLeads.foldl (fun sum lead =>
      sum + (lead.conversation.filter (fun msg => strictEqStr msg.type "REPLY")).length) 0
    campaignStep b filteredLeads
    let campaignStats := campaignStatsOf b filteredLeads
    categoryStep filteredLeads
    let categoryStats := categoryStatsOf b filteredLeads
    let replyMessages := replyMessagesOf b filteredLeads
    let heatmapData := heatmapDataOf replyMessages
    trendsStep daysBack replyMessages
    pure (some
      { totalLeads := totalLeads
        leadsWithMultipleReplies := leadsWithMultipleReplies
        totalReplies := totalReplies
        campaignStats := campaignStats.take 10
        categoryStats := categoryStats
        heatmapData := heatmapData
        dateRange := daysBack })

/-! ## The properties of the specification, in its words -/

/-- The sum of a list of numbers. -/
def JSNum.sum (ts : List JSNum) : JSNum := ts.foldr JSNum.add (JSNum.fin 0)

/-- The mean of all defined `response_time` values of a conversation, `0` if
there are none. -/
def meanResponseTime (conversation : List Message) : JSNum :=
  let defined := conversation.filterMap (fun m => m.response_time)
  if defined.isEmpty then JSNum.fin 0 else (JSNum.sum defined).divNat defined.length

/-- The speed bonus keyed to the average response time in hours. -/
def speedBonus (avg : JSNum) : ℚ :=
  if avg.lt 1 then 40 else if avg.lt 4 then 30 else if avg.lt 24 then 20
  else if avg.lt 72 then 10 else 0

/-- The number of messages of a conversation whose type is the string `t`. -/
def countType (t : String) (conversation : List Message) : Nat :=
  conversation.countP (fun m => strictEqStr m.type t)

/-- The doubles stored as the defined `response_time` values of a
conversation, in order. -/
def storedResponseTimes (conversation : List Message) : List Double :=
  (conversation.filterMap (fun m => m.response_time)).map storedResponseTime

/-- The mean of a list of doubles as the runtime computes it: the values are
added from left to right, every sum being rounded, and the rounded quotient of
the sum by their number is returned; `0` for the empty list. -/
def doubleMean (times : List Double) : Double :=
  if times.isEmpty then Double.fin 0
  else (times.foldl (fun sum time => Double.add sum time) (Double.fin 0)).divNat times.length

/-- The exact mean of a list of finite doubles, `0` for the empty list and
when a value is not finite. -/
def exactMean (times : List Double) : ℚ :=
  (times.map (fun time =>
    match time with
    | .fin q => q
    | _ => 0)).sum / times.length

/-- The speed bonus keyed to an average response time in hours that is a
double. -/
def doubleBonus (avg : Double) : ℚ :=
  if avg.lt 1 then 40 else if avg.lt 4 then 30 else if avg.lt 24 then 20
  else if avg.lt 72 then 10 else 0

/-- The reply-rate component in double arithmetic: the quotient of the counts
is rounded, then its product with 60, and the result is capped at 60. -/
def doubleRate (replies sent : ℕ) : ℚ :=
  min (roundDouble (roundDouble ((replies : ℚ) / (sent : ℚ)) * 60)) 60

/-- The sum of the rate component and the bonus in double arithmetic: the sum
is rounded; no sum is formed for the bonus `0`. -/
def doubleTotal (rate bonus : ℚ) : ℚ :=
  if bonus = 0 then rate else roundDouble (rate + bonus)

/-- The number of the eight positive keywords that occur in `text`. -/
def keywordHits (text : String) : Nat :=
  ["interested", "yes", "sure", "sounds good", "let me know", "call", "meeting",
    "schedule"].countP (fun k => includes text k)

/-- The intent score in the words of the specification. -/
def intentFormula (b : Builtins) (conversation : List Message) : Nat :=
  let replies := countType "REPLY" conversation
  let text := joinWith " " (conversation.map (fun m => b.toLowerCase m.content))
  let k := keywordHits text
  let p := if includes text "price" ∨ includes text "cost" then 1 else 0
  let s := if includes text "sample" ∨ includes text "example" then 1 else 0
  min 10 (1 + min (2 * replies) 6 + k + p + s)

/-! ## Stage and urgency in the words of the specification -/

/-- More than `days` days have elapsed at `now` since the date of `time`;
false when `time` is not a valid date. -/
def elapsedMoreThan (b : Builtins) (now : ℤ) (days : ℤ) (time : JSON) : Bool :=
  match b.dateOf time with
  | some t => decide (days * 86400000 < now - t)
  | none => false

/-- At least `days` days have elapsed at `now` since the date of `time`; a
`time` that is not a valid date counts as infinitely old. -/
def elapsedAtLeast (b : Builtins) (now : ℤ) (days : ℤ) (time : JSON) : Bool :=
  match b.dateOf time with
  | some t => decide (days * 86400000 ≤ now - t)
  | none => true

/-- The decision list of the stage rules for a conversation whose last
message is `last`: each rule is its condition and its label. -/
def stageRules (b : Builtins) (now : ℤ) (conversation : List Message) (last : Message) :
    List (Bool × String) :=
  let text := joinWith " " (conversation.map (fun m => b.toLowerCase m.content))
  let noReply := decide (countType "REPLY" conversation = 0)
  let old := elapsedMoreThan b now 7 last.time
  [(noReply && old, "no-response"),
   (noReply, "initial-outreach"),
   (includes text "not interested" || includes text "no thanks", "rejected"),
   (includes text "price" || includes text "cost" || includes text "budget",
     "pricing-discussion"),
   (includes text "sample" || includes text "example" || includes text "portfolio",
     "samples-requested"),
   (includes text "call" || includes text "meeting" || includes text "schedule",
     "call-scheduled"),
   (includes text "think about" || includes text "discuss with team" ||
     includes text "get back", "considering"),
   (old, "stalled"),
   (includes text "interested" || includes text "yes" || includes text "sure", "engaged"),
   (true, "active")]

/-- The label of the first rule of a decision list whose condition holds. -/
def firstMatch (rules : List (Bool × String)) : Option String :=
  (rules.find? (fun r => r.1)).map (fun r => r.2)

/-- The urgency of a lead in the words of the specification. -/
def urgencyRule (b : Builtins) (now : ℤ) (lead : Lead) : String :=
  match lead.conversation.getLast? with
  | none => "none"
  | some last =>
    if 4 ≤ lead.intent ∧ strictEqStr last.type "REPLY" = true then
      if elapsedAtLeast b now 2 last.time then "urgent-response" else "needs-response"
    else if strictEqStr last.type "SENT" = true ∧ elapsedAtLeast b now 3 last.time = true then
      "needs-followup"
    else "none"

/-! ## The raw messages behind a parsed conversation -/

/-- The property `k` of a raw message that is not `null`: the entry of an
object, `undefined` on anything else. -/
def field (v : JSON) (k : String) : Option JSON :=
  match v with
  | .obj kvs => kvs.lookup k
  | _ => none

/-- The raw value `v`, if any, is an object whose `type` is the string `t`. -/
def rawHasType (v : Option JSON) (t : String) : Bool :=
  match v with
  | some x =>
    match field x "type" with
    | some ty => strictEqStr ty t
    | none => false
  | none => false

/-- The difference of two dates in hours, `NaN` when one of them is invalid. -/
def hoursBetween (t1 t0 : Option ℤ) : JSNum :=
  match t1, t0 with
  | some a, some c => JSNum.fin (((a - c : ℤ) : ℚ) / (1000 * 60 * 60))
  | _, _ => JSNum.nan

/-- The date of the `time` entry of a raw message, if there is a message. -/
def rawTime (b : Builtins) (v : Option JSON) : Option ℤ :=
  match v with
  | some x => newDate b (field x "time")
  | none => none

/-- The element that precedes index `i` in the array `xs`, `prev` standing
before the array. -/
def prevAt (prev : Option JSON) (xs : List JSON) (i : Nat) : Option JSON :=
  match i with
  | 0 => prev
  | j + 1 => xs[j]?

/-- The raw value `v`, if any, is an object with a truthy `time`. -/
def rawHasTime (v : Option JSON) : Bool :=
  match v with
  | some x =>
    match field x "time" with
    | some t => truthy t
    | none => false
  | none => false

/-- A raw array element on which the parser throws: `null`, or a value whose
`email_body` is truthy and not a string. -/
def throwingElement (x : JSON) : Bool :=
  match x with
  | .null => true
  | _ =>
    match field x "email_body" with
    | some (.str _) => false
    | some v => truthy v
    | none => false

/-- The conversation blob is absent, empty, not valid JSON, valid JSON that is
not an array, or an array with an element on which the parser throws. -/
def malformedBlob (b : Builtins) (body : Option String) : Bool :=
  match body with
  | none => true
  | some s =>
    decide (s = "") ||
      match b.jsonParse s with
      | none => true
      | some (.arr xs) => xs.any throwingElement
      | some _ => true

/-! ## A runtime and messages for the examples -/

/-- The text of the blob
`[{"type":"SENT","time":1000},{"type":"REPLY","time":7201000,"email_body":"I am interested"}]`. -/
def blobSentReply : String :=
  "[\x7b\x22type\x22:\x22SENT\x22,\x22time\x22:1000\x7d,\x7b\x22type\x22:\x22REPLY\x22,\x22time\x22:7201000,\x22email_body\x22:\x22I am interested\x22\x7d]"

/-- The value of `JSON.parse` on `blobSentReply`. -/
def jsonSentReply : JSON :=
  .arr [.obj [("type", .str "SENT"), ("time", .num 1000)],
        .obj [("type", .str "REPLY"), ("time", .num 7201000),
              ("email_body", .str "I am interested")]]

/-- The text of the blob `[{"time":1000},{"type":"REPLY","time":3601000}]`,
whose first message has no type. -/
def blobUntypedReply : String :=
  "[\x7b\x22time\x22:1000\x7d,\x7b\x22type\x22:\x22REPLY\x22,\x22time\x22:3601000\x7d]"

/-- The value of `JSON.parse` on `blobUntypedReply`. -/
def jsonUntypedReply : JSON :=
  .arr [.obj [("time", .num 1000)], .obj [("type", .str "REPLY"), ("time", .num 3601000)]]

/-- The text of the blob `[{"type":"SENT"},{"type":"REPLY","time":3600000}]`,
whose first message has no time. -/
def blobUntimedSent : String :=
  "[\x7b\x22type\x22:\x22SENT\x22\x7d,\x7b\x22type\x22:\x22REPLY\x22,\x22time\x22:3600000\x7d]"

/-- The value of `JSON.parse` on `blobUntimedSent`. -/
def jsonUntimedSent : JSON :=
  .arr [.obj [("type", .str "SENT")], .obj [("type", .str "REPLY"), ("time", .num 3600000)]]

/-- The text of the blob
`[{"type":"SENT","time":1000},{"type":"REPLY","time":5401000},{"type":"REPLY","time":7201000}]`:
a sent message answered twice. -/
def blobTwoReplies : String :=
  "[\x7b\x22type\x22:\x22SENT\x22,\x22time\x22:1000\x7d,\x7b\x22type\x22:\x22REPLY\x22,\x22time\x22:5401000\x7d,\x7b\x22type\x22:\x22REPLY\x22,\x22time\x22:7201000\x7d]"

/-- The value of `JSON.parse` on `blobTwoReplies`. -/
def jsonTwoReplies : JSON :=
  .arr [.obj [("type", .str "SENT"), ("time", .num 1000)],
        .obj [("type", .str "REPLY"), ("time", .num 5401000)],
        .obj [("type", .str "REPLY"), ("time", .num 7201000)]]

/-- The text of a blob of four sent messages, each followed by a reply: the
replies come 149, 11, 57 and 23 minutes after the message they answer. -/
def blobFourReplies : String :=
  "[\x7b\x22type\x22:\x22SENT\x22,\x22time\x22:1000\x7d,\x7b\x22type\x22:\x22REPLY\x22,\x22time\x22:8941000\x7d,\x7b\x22type\x22:\x22SENT\x22,\x22time\x22:9000000\x7d,\x7b\x22type\x22:\x22REPLY\x22,\x22time\x22:9660000\x7d,\x7b\x22type\x22:\x22SENT\x22,\x22time\x22:10000000\x7d,\x7b\x22type\x22:\x22REPLY\x22,\x22time\x22:13420000\x7d,\x7b\x22type\x22:\x22SENT\x22,\x22time\x22:14000000\x7d,\x7b\x22type\x22:\x22REPLY\x22,\x22time\x22:15380000\x7d]"

/-- The value of `JSON.parse` on `blobFourReplies`. -/
def jsonFourReplies : JSON :=
  .arr [.obj [("type", .str "SENT"), ("time", .num 1000)],
        .obj [("type", .str "REPLY"), ("time", .num 8941000)],
        .obj [("type", .str "SENT"), ("time", .num 9000000)],
        .obj [("type", .str "REPLY"), ("time", .num 9660000)],
        .obj [("type", .str "SENT"), ("time", .num 10000000)],
        .obj [("type", .str "REPLY"), ("time", .num 13420000)],
        .obj [("type", .str "SENT"), ("time", .num 14000000)],
        .obj [("type", .str "REPLY"), ("time", .num 15380000)]]

/-- The text of the blob
`[{"type":"SENT","time":1000,"subject":"  "},{"type":"SENT","time":2000,"subject":" Pricing "}]`:
two sent messages, the first with a blank subject. -/
def blobSentOnly : String :=
  "[\x7b\x22type\x22:\x22SENT\x22,\x22time\x22:1000,\x22subject\x22:\x22  \x22\x7d,\x7b\x22type\x22:\x22SENT\x22,\x22time\x22:2000,\x22subject\x22:\x22 Pricing \x22\x7d]"

/-- The value of `JSON.parse` on `blobSentOnly`. -/
def jsonSentOnly : JSON :=
  .arr [.obj [("type", .str "SENT"), ("time", .num 1000), ("subject", .str "  ")],
        .obj [("type", .str "SENT"), ("time", .num 2000), ("subject", .str " Pricing ")]]

/-- A value of `new Date().toISOString()` for the examples. -/
def exampleNow : String := "2024-05-01T12:00:00.000Z"

/-- The ISO strings that are dates in the examples, with their time values;
every other string of the examples is not a date. -/
def exampleDates : List (String × ℤ) :=
  [(exampleNow, 1714564800000), ("2024-03-22T12:00:00.000Z", 1711108800000),
   ("2024-04-30T10:00:00.000Z", 1714471200000)]

/-- A runtime for the examples. It agrees with JavaScript on the inputs the
examples use: `JSON.parse` on the blobs listed (every other text of the
examples is not JSON), `new Date(n)` on a number `n` of milliseconds and on
the strings of the examples, `ToNumber` on numbers, booleans and `null`,
`toLowerCase` on ASCII text, `ToString` on strings, integers, booleans and
`null`. Its local time zone is UTC. -/
def exampleBuiltins : Builtins where
  jsonParse := fun s =>
    if s = blobSentReply then some jsonSentReply
    else if s = blobUntypedReply then some jsonUntypedReply
    else if s = blobUntimedSent then some jsonUntimedSent
    else if s = blobTwoReplies then some jsonTwoReplies
    else if s = blobSentOnly then some jsonSentOnly
    else if s = blobFourReplies then some jsonFourReplies
    else if s = "[1]" then some (.arr [.num 1])
    else if s = "[]" then some (.arr [])
    else if s = "7" then some (.num 7)
    else none
  dateOf := fun v =>
    match v with
    | .num q => if |q| ≤ 8640000000000000 then some (q.num.tdiv q.den) else none
    | .str s => exampleDates.lookup s
    | _ => none
  toNumber := fun v =>
    match v with
    | .num q => JSNum.fin q
    | .bool true => JSNum.fin 1
    | .bool false => JSNum.fin 0
    | .null => JSNum.fin 0
    | _ => JSNum.nan
  toLowerCase := fun s => ⟨s.data.map Char.toLower⟩
  toStr := fun v =>
    match v with
    | .str s => s
    | .num q => if q.den = 1 then toString q.num else "NaN"
    | .bool true => "true"
    | .bool false => "false"
    | .null => "null"
    | _ => "[object Object]"
  localOffset := fun _ => 0
  utcOfLocal := fun t => t

/-- A lead of the examples: intent 5 and the conversation given. -/
def exampleAssembled (conversation : List Message) : Lead :=
  { id := "lead-1", campaign_id := .null, created_at := some (.str exampleNow),
    email := some "ann@example.com", first_name := "Ann", last_name := "Lee",
    subject := "Campaign for Ann", intent := 5, response_time_avg := JSNum.fin 2,
    engagement_score := 90, lead_category := some (.num 1), tags := [some "Interested"],
    conversation := conversation }

/-- A row of the examples with the conversation blob `body`. -/
def exampleLead (body : Option String) : RawLead :=
  { id := "lead-1", campaign_id := none, campaign_ID := none,
    created_at := some (.str exampleNow), email := some "ann@example.com", lead_email := none,
    first_name := some "Ann", last_name := some "Lee", lead_category := some (.num 1),
    email_message_body := body }

/-- A message of type `type` at time `time` (milliseconds) with the given
content and response time, the other fields having the defaults of the
parser. -/
def exampleMessage (type : String) (time : ℤ) (content : String)
    (response_time : Option JSNum) : Message :=
  { from_ := .str "", to_ := .str "", cc := .null, type := .str type, time := .num time,
    content := content, subject := .str "", opened := false, clicked := false,
    response_time := response_time }

/-- The conversation of the examples: a message sent at time 0 and a reply
two hours later. -/
def exampleConversation : List Message :=
  [exampleMessage "SENT" 0 "Hello" none,
   exampleMessage "REPLY" 7200000 "I am Interested" (some (JSNum.fin 2))]

/-! ## The filter engine and the handlers in the words of the specification -/

/-- The conjunction of the advanced filters: every entry with a non-empty list
of values has a value that the lead matches. -/
def passesFilters (b : Builtins) (now : ℤ) (activeFilters : List (String × List String))
    (lead : Lead) : Bool :=
  activeFilters.all (fun entry =>
    decide (entry.2.length = 0) ||
      entry.2.any (fun value => filterValueMatches b now entry.1 value lead))

/-- The predicate that `filteredAndSortedLeads` applies to every lead. -/
def keepsLead (b : Builtins) (now : ℤ) (st : ViewState) (lead : Lead) : Bool :=
  (if st.activeTab = "need_response" then needResponseTab lead
    else if st.activeTab = "recently_sent" then recentlySentTab b now lead
    else true) &&
  (if st.searchQuery ≠ "" ∧ trim st.searchQuery ≠ "" then
      searchMatches b (trim (b.toLowerCase st.searchQuery)) lead
    else true) &&
  passesFilters b now st.activeFilters lead

/-- A lead of the examples with the given id, scores and conversation. -/
def exampleScored (id : String) (intent : Nat) (engagement : ℤ) (conversation : List Message) :
    Lead :=
  { exampleAssembled conversation with id := id, intent := intent, engagement_score := engagement }

/-- A state of the examples: tab `all`, no query, no filter, the initial sort. -/
def exampleState (leads : List Lead) : ViewState :=
  { leads := leads, activeTab := "all", searchQuery := "", activeSorts := defaultSorts,
    activeFilters := [] }

/-- The query `q` is a substring of the lowercased first name, last name,
email or subject of the lead, or of one of its lowercased tags. -/
def matchesQuery (b : Builtins) (q : String) (lead : Lead) : Prop :=
  includes (b.toLowerCase lead.first_name) q = true ∨
  includes (b.toLowerCase lead.last_name) q = true ∨
  (∃ e, lead.email = some e ∧ includes (b.toLowerCase e) q = true) ∨
  includes (b.toLowerCase lead.subject) q = true ∨
  (∃ t, some t ∈ lead.tags ∧ includes (b.toLowerCase t) q = true)

/-- A call of one of the two sort handlers. -/
inductive SortAction where
  | add (field direction : String)
  | remove (field : String)

/-- The value of `activeSorts` after a call. -/
def applySortAction (activeSorts : List SortEntry) : SortAction → List SortEntry
  | .add field direction => handleAddSort activeSorts field direction
  | .remove field => handleRemoveSort activeSorts field

/-- The invariant of `activeSorts`: not empty, fields pairwise distinct. -/
def sortsInvariant (activeSorts : List SortEntry) : Prop :=
  activeSorts ≠ [] ∧ (activeSorts.map (fun s => s.field)).Nodup

/-! ## The blob of the end-to-end scenario -/

/-- The value, possibly `undefined`, is falsy or a string. -/
def stringOrFalsy (v : Option JSON) : Bool :=
  match v with
  | none => true
  | some (.str _) => true
  | some x => !truthy x

/-- The content the parser extracts from a raw message:
`extractTextFromHTML(msg.email_body || '')` for a body that is a string. -/
def rawContent (v : JSON) : String :=
  match orElse (field v "email_body") (.str "") with
  | .str s => extractTextFromHTML s
  | _ => ""

/-- The raw blob of the scenario: a SENT message at time `t0` followed by a
REPLY two hours later, both with a body and a subject that are strings when
present. -/
def sentThenReply (b : Builtins) (t0 : ℤ) (m0 m1 : JSON) : Prop :=
  field m0 "type" = some (.str "SENT") ∧ field m1 "type" = some (.str "REPLY") ∧
  rawHasTime (some m0) = true ∧ rawHasTime (some m1) = true ∧
  rawTime b (some m0) = some t0 ∧ rawTime b (some m1) = some (t0 + 2 * 3600000) ∧
  stringOrFalsy (field m0 "email_body") = true ∧ stringOrFalsy (field m1 "email_body") = true ∧
  stringOrFalsy (field m0 "subject") = true ∧ stringOrFalsy (field m1 "subject") = true

/-- The combined lowercased bodies contain `interested` and none of the other
intent keywords. -/
def onlyInterested (text : String) : Prop :=
  includes text "interested" = true ∧
  ∀ k ∈ ["yes", "sure", "sounds good", "let me know", "call", "meeting", "schedule", "price",
    "cost", "sample", "example"], includes text k = false

/-! ## The analytics window and the heatmap in the words of the specification -/

/-- The reply message falls in a cell of the 7 by 24 grid: its time is a valid
date, with a week day below 7 and an hour below 24. -/
def inGrid (rm : ReplyMessage) : Bool :=
  match rm.dayOfWeek, rm.hour with
  | some d, some h => decide (d < 7) && decide (h < 24)
  | _, _ => false

/-- The value is a string. -/
def isString : JSON → Bool
  | .str _ => true
  | _ => false

/-- A lead on which the aggregator does not throw: its campaign key and its
category key are not names of inherited properties, and the time of each of
its REPLY messages is a string. -/
def wellTypedLead (b : Builtins) (lead : Lead) : Bool :=
  !decide (campaignKey b lead ∈ objectPrototypeKeys) &&
  (match categoryKey lead with
    | some k => !decide (k ∈ objectPrototypeKeys)
    | none => true) &&
  lead.conversation.all (fun m => !strictEqStr m.type "REPLY" || isString m.time)

/-- The `created_at` of the lead is a valid date not before the cutoff of the
window of `daysBack` days. -/
def createdInWindow (b : Builtins) (now : ℤ) (daysBack : ℕ) (lead : Lead) : Bool :=
  match newDate b lead.created_at with
  | some t => decide (cutoffDate b now daysBack ≤ t)
  | none => false

/-- The number of REPLY messages of a conversation whose time is a valid
date. -/
def datedReplies (b : Builtins) (conversation : List Message) : ℕ :=
  conversation.countP (fun m => strictEqStr m.type "REPLY" && (b.dateOf m.time).isSome)

/-- The aggregator does not throw on the leads `fl` of the window: no
campaign key and no category key names an inherited property, and the time of
every REPLY message is a string unless `min(daysBack, 30)` is `0`. -/
def typedWindow (b : Builtins) (daysBack : ℕ) (fl : List Lead) : Bool :=
  fl.all (fun lead => !decide (campaignKey b lead ∈ objectPrototypeKeys)) &&
  fl.all (fun lead =>
    match categoryKey lead with
    | some k => !decide (k ∈ objectPrototypeKeys)
    | none => true) &&
  (decide (min daysBack 30 = 0) ||
    fl.all (fun lead =>
      lead.conversation.all (fun m => !strictEqStr m.type "REPLY" || isString m.time)))

/-- The local time zone is bounded: local time and UTC differ by at most one
day, in `LocalTime` and in `UTC`. Every time zone is, with or without daylight
saving time. -/
def timeZoneBounded (b : Builtins) : Prop :=
  (∀ t, |b.utcOfLocal t - t| ≤ 86400000) ∧ (∀ t, |b.localOffset t| ≤ 86400000)

/-- A runtime whose local time zone moves from UTC to UTC+1 at the time value
`1714478400000` (30 April 2024, 12:00 UTC), one day before the `now` of the
examples: the offset is `0` before and one hour from then on, and `UTC` reads
a local time before the end of the skipped hour with the offset `0`. -/
def dstBuiltins : Builtins :=
  { exampleBuiltins with
    localOffset := fun t => if t < 1714478400000 then 0 else 3600000
    utcOfLocal := fun t => if t < 1714478400000 + 3600000 then t else t - 3600000 }

/-- A lead created 29 days, 23 hours and 30 minutes before the `now` of the
examples, at the time value `1711974600000`. -/
def exampleDstLead : Lead :=
  { exampleAssembled [] with created_at := some (.num 1711974600000) }

/-- The lead that the transform builds from the row of `blobSentReply`: its
REPLY message keeps the number `7201000` as its time. -/
def exampleNumericTimeLead : Lead :=
  transformLead exampleBuiltins exampleNow (exampleLead (some blobSentReply))

/-- A reply of the examples whose time is the string `time`. -/
def exampleReplyAt (time : String) : Message :=
  { exampleMessage "REPLY" 0 "Thanks" none with time := .str time }

/-- A lead of the examples created at the date string `created`. -/
def exampleCreated (id created : String) (conversation : List Message) : Lead :=
  { exampleAssembled conversation with id := id, created_at := some (.str created) }

/-- The cells of the 7 by 24 grid, row by row. -/
def gridCells : List (ℕ × ℕ) :=
  ((List.range 7).map (fun day => (List.range 24).map (fun hour => (day, hour)))).flatten

/-- The two leads of the window examples: the first created 40 days before
`exampleNow`, the second at `exampleNow`. -/
def exampleWindowLeads : List Lead :=
  [exampleCreated "lead-old" "2024-03-22T12:00:00.000Z" [],
   exampleCreated "lead-new" exampleNow [exampleReplyAt "2024-04-30T10:00:00.000Z"]]

/-- The lead of the counterexample to the heatmap sum: created at `exampleNow`,
with one REPLY message whose time is the string `soon`, which is not a date. -/
def exampleUndatedLeads : List Lead :=
  [exampleCreated "lead-1" exampleNow [exampleReplyAt "soon"]]

/-! ## The function `calculateEngagementScore` -/

/-- Truthiness of a number: false for `0` and `NaN`. -/
def JSNum.truthy : JSNum → Bool
  | .fin q => decide (q ≠ 0)
  | .nan => false
  | .inf => true

/-- The value `avgResponse` of `calculateEngagementScore`: the sum of the truthy
response times divided by `Math.max(replies, 1)`. -/
def avgResponse (conversation : List Message) : JSNum :=
  let replies := (conversation.filter (fun m => strictEqStr m.type "REPLY")).length
  ((conversation.filter (fun m =>
      match m.response_time with
      | some t => t.truthy
      | none => false)).foldl
    (fun sum m => JSNum.add sum
      (match m.response_time with
        | some t => t
        | none => JSNum.nan))
    (JSNum.fin 0)).divNat (max replies 1)

/-- The function `calculateEngagementScore` of `InboxManager.js`. -/
def calculateEngagementScore (conversation : List Message) : ℤ :=
  let replies := (conversation.filter (fun m => strictEqStr m.type "REPLY")).length
  let sent := (conversation.filter (fun m => strictEqStr m.type "SENT")).length
  if sent = 0 then 0
  else
    let score : ℚ := 0
    let score := score + min (((replies : ℚ) / (sent : ℚ)) * 60) 60
    let avgResponse := avgResponse conversation
    let score :=
      if avgResponse.lt 1 then score + 40
      else if avgResponse.lt 4 then score + 30
      else if avgResponse.lt 24 then score + 20
      else if avgResponse.lt 72 then score + 10
      else score
    mathRound (min score 100)

/-- The conversation parsed from `blobTwoReplies`. -/
def twoRepliesConversation : List Message :=
  (transformLead exampleBuiltins exampleNow (exampleLead (some blobTwoReplies))).conversation

/-- The conversation parsed from `blobFourReplies`. -/
def fourRepliesConversation : List Message :=
  (transformLead exampleBuiltins exampleNow (exampleLead (some blobFourReplies))).conversation

/-! ## Subject, tag and clock of the lead transform -/

/-- The trimmed subject of the first message of the conversation whose subject
is a string that is not empty after trimming, if there is one. -/
def firstSubject (conversation : List Message) : Option String :=
  conversation.findSome? (fun m =>
    match m.subject with
    | .str s => if trim s ≠ "" then some (trim s) else none
    | _ => none)

/-- The name used in the default subject: the `first_name` column, or `Lead`
when it is absent or empty. -/
def subjectName (lead : RawLead) : String :=
  match lead.first_name with
  | some n => if n ≠ "" then n else "Lead"
  | none => "Lead"

/-- A row of the examples without a first name and without a conversation. -/
def exampleNameless : RawLead :=
  { exampleLead none with first_name := none }

/-- A row of the examples whose category is the string `constructor`. -/
def exampleInheritedCategory : RawLead :=
  { exampleLead none with lead_category := some (.str "constructor") }

/-- The message with its `time` erased. -/
def eraseTime (m : Message) : Message := { m with time := .null }

/-- Two messages built by runs of the parser at the clock readings `n1` and
`n2` agree up to the clock: they have the same fields other than `time`, and
their times are equal or are the two clock readings. -/
def sameUpToClock (n1 n2 : String) (m1 m2 : Message) : Prop :=
  eraseTime m1 = eraseTime m2 ∧ (m1.time = m2.time ∨ (m1.time = .str n1 ∧ m2.time = .str n2))

/-- The time of a message when it is a string. -/
def timeText (m : Message) : Option String :=
  match m.time with
  | .str s => some s
  | _ => none

/-! ## The two results of `extractTextFromHTML` -/

/-- The value `methodOne` of `extractTextFromHTML`: the marker truncation of the
cleaned text. -/
def methodOne (text : List Char) : List Char :=
  trimChars (text.take (cutoffIndex text))

/-- The value `methodTwo` of `extractTextFromHTML`: the line scan of the cleaned
text. -/
def methodTwo (text : List Char) : List Char :=
  trimChars (joinLines (newReplyLines text))

/-- The choice between the two results in the words of the specification:
whichever is not empty and strictly shorter (the first one at equal lengths);
if only one is not empty, that one; if both are empty, the full cleaned
text. -/
def chooseResult (methodOne methodTwo text : List Char) : List Char :=
  if methodOne ≠ [] ∧ methodTwo ≠ [] then
    if utf16Length methodTwo < utf16Length methodOne then methodTwo else methodOne
  else if methodOne ≠ [] then methodOne
  else if methodTwo ≠ [] then methodTwo
  else text

/-- The index of the earliest occurrence of a reply indicator in `text`: the
first position at which one of the indicators starts, the length of `text` if
there is none. -/
def earliestIndicator : List Char → Nat
  | [] => 0
  | c :: cs =>
    if replyIndicators.any (fun indicator => indicator.data.isPrefixOf (c :: cs)) then 0
    else earliestIndicator cs + 1

/-- The list has no white space at its head. -/
def headNotWhite (l : List Char) : Prop :=
  ∀ c rest, l = c :: rest → isWhiteSpace c = false

/-- The test of the line scan: the line does not start with `>` and contains
no reply indicator. -/
def keptLine (line : List Char) : Bool :=
  !(['>'].isPrefixOf line) &&
    !(replyIndicators.any (fun indicator => decide (indicator.data <:+: line)))

/-- The step of the loop that computes `cutoffIndex`. -/
def cutoffStep (text : List Char) (cutoff : Nat) (indicator : String) : Nat :=
  match indexOf indicator.data text with
  | some index => if index < cutoff then index else cutoff
  | none => cutoff

/-! ## Storage of the API keys (`encryptApiKey`, `decryptApiKey`) -/

/-- The constant `ENCRYPTION_SALT` of `InboxManager.js`. -/
def ENCRYPTION_SALT : String := "InboxManager_2024_Salt_Key"

/-- The 64 digits of base64, in the order of their values. -/
def base64Alphabet : List Char :=
  "ABCDEFGHIJKLMNOPQRSTUVWXYZabcdefghijklmnopqrstuvwxyz0123456789+/".data

/-- The base64 digit of the value `n`. -/
def base64Char (n : Nat) : Char := base64Alphabet.getD n 'A'

/-- The value of a base64 digit, `none` for any other character. -/
def base64Value (c : Char) : Option Nat := base64Alphabet.indexOf? c

/-- The base64 digits of a sequence of bytes: four digits for three bytes, two
or three digits for a last group of one or two bytes. -/
def encodeBody : List Nat → List Char
  | a :: b :: c :: rest =>
    base64Char (a / 4) :: base64Char (a % 4 * 16 + b / 16) :: base64Char (b % 16 * 4 + c / 64) ::
      base64Char (c % 64) :: encodeBody rest
  | [a, b] => [base64Char (a / 4), base64Char (a % 4 * 16 + b / 16), base64Char (b % 16 * 4)]
  | [a] => [base64Char (a / 4), base64Char (a % 4 * 16)]
  | [] => []

/-- The padding that follows the base64 digits of `n` bytes. -/
def base64Padding (n : Nat) : List Char :=
  if n % 3 = 1 then ['=', '='] else if n % 3 = 2 then ['='] else []

/-- The function `btoa`: the base64 encoding of a string of characters up to
U+00FF, `none` (an `InvalidCharacterError`) for any other string. -/
def btoa (s : String) : Option String :=
  if s.data.all (fun c => decide (c.toNat ≤ 255)) then
    some ⟨encodeBody (s.data.map Char.toNat) ++ base64Padding s.data.length⟩
  else none

/-- The ASCII white space that `atob` removes: tab, line feed, form feed,
carriage return and space. -/
def isAsciiWhitespace (c : Char) : Bool :=
  c.toNat = 9 || c.toNat = 10 || c.toNat = 12 || c.toNat = 13 || c.toNat = 32

/-- The list without its head when the head is `=`. -/
def dropEquals : List Char → List Char
  | [] => []
  | c :: cs => if c = '=' then cs else c :: cs

/-- The removal of one or two `=` at the end of the data whose length is a
multiple of 4. -/
def stripPadding (data : List Char) : List Char :=
  if data.length % 4 = 0 then (dropEquals (dropEquals data.reverse)).reverse else data

/-- The values of a list of base64 digits, `none` when a character is not a
digit. -/
def sextetsOf : List Char → Option (List Nat)
  | [] => some []
  | c :: cs =>
    match base64Value c, sextetsOf cs with
    | some v, some vs => some (v :: vs)
    | _, _ => none

/-- The bytes of a list of 6-bit values: three bytes for four values, one or
two bytes for a last group of two or three values, whose remaining bits are
discarded. -/
def decodeSextets : List Nat → List Nat
  | s1 :: s2 :: s3 :: s4 :: rest =>
    (s1 * 4 + s2 / 16) :: (s2 % 16 * 16 + s3 / 4) :: (s3 % 4 * 64 + s4) :: decodeSextets rest
  | [s1, s2, s3] => [s1 * 4 + s2 / 16, s2 % 16 * 16 + s3 / 4]
  | [s1, s2] => [s1 * 4 + s2 / 16]
  | _ => []

/-- The function `atob`: the forgiving base64 decoding of a string, `none` (an
`InvalidCharacterError`) when the string is not base64. -/
def atob (s : String) : Option String :=
  let data := stripPadding (s.data.filter (fun c => !isAsciiWhitespace c))
  if data.length % 4 = 1 then none
  else
    match sextetsOf data with
    | some sextets => some ⟨(decodeSextets sextets).map Char.ofNat⟩
    | none => none

/-- The call `s.replace(pat, rep)` for strings `pat` and `rep` without `$`:
the first occurrence of `pat` is replaced. -/
def replaceFirst (pat rep : List Char) : List Char → List Char
  | [] => if pat.isEmpty then rep else []
  | c :: cs =>
    if pat.isPrefixOf (c :: cs) then rep ++ (c :: cs).drop pat.length
    else c :: replaceFirst pat rep cs

/-- The function `encryptApiKey` of `InboxManager.js`, on a string. -/
def encryptApiKey (key : String) : String :=
  if key = "" then ""
  else
    match btoa (key ++ ENCRYPTION_SALT) with
    | some encoded => encoded
    | none => key

/-- The function `decryptApiKey` of `InboxManager.js`, on a string. -/
def decryptApiKey (encryptedKey : String) : String :=
  if encryptedKey = "" then ""
  else
    match atob encryptedKey with
    | some decoded => ⟨replaceFirst ENCRYPTION_SALT.data [] decoded.data⟩
    | none => encryptedKey

/-! ## The rollups in the words of the specification -/

/-- The value that a reduction by `groupStep` holds for the key `k` after the
leads of `leads`: the entry `init k` updated by the leads of key `k`, in
order. -/
def groupValue {κ α : Type} [DecidableEq κ] (key : Lead → κ) (init : κ → α)
    (add : Lead → α → α) (k : κ) (leads : List Lead) : α :=
  (leads.filter (fun lead => decide (key lead = k))).foldl (fun g lead => add lead g) (init k)

/-- The leads of the campaign of key `k`. -/
def leadsOfCampaign (b : Builtins) (k : String) (leads : List Lead) : List Lead :=
  leads.filter (fun lead => decide (campaignKey b lead = k))

/-- The leads filed under the property name `k` of `categoryPerformance`. -/
def leadsOfCategory (b : Builtins) (k : CategoryName) (leads : List Lead) : List Lead :=
  leads.filter (fun lead => decide (categoryName b lead = k))

/-- The campaign of a lead, in the words of the specification: the string
form of its `campaign_id`, and that of `Unknown Campaign` when the identifier
is `null`, `0`, empty or `false`. -/
def campaignOf (b : Builtins) (lead : Lead) : String :=
  b.toStr (if truthy lead.campaign_id = true then lead.campaign_id else .str "Unknown Campaign")

/-- The category tag of a lead, in the words of the specification: its first
tag, and `Uncategorized` when it has no tag or an empty one. A first tag that
is not a string is the value inherited under the name of `lead_category`. -/
def categoryOf (b : Builtins) (lead : Lead) : CategoryName :=
  match lead.tags.head? with
  | none => .tag "Uncategorized"
  | some (some t) => if t = "" then .tag "Uncategorized" else .tag t
  | some none => .inherited ((lead.lead_category.map b.toStr).getD "")

/-- The leads of `leads` whose campaign is `k`. -/
def campaignLeads (b : Builtins) (k : String) (leads : List Lead) : List Lead :=
  leads.filter (fun lead => decide (campaignOf b lead = k))

/-- The leads of `leads` whose category tag is `k`. -/
def categoryLeads (b : Builtins) (k : CategoryName) (leads : List Lead) : List Lead :=
  leads.filter (fun lead => decide (categoryOf b lead = k))

/-- The mean of the engagement scores of a list of leads. -/
def meanEngagement (leads : List Lead) : ℚ :=
  (((leads.map (fun lead => lead.engagement_score)).sum : ℤ) : ℚ) / leads.length

/-- A lead of the rollup examples: created at the date string `created`, with
the campaign identifier, the engagement score, the category and the tags
given, and no message. -/
def exampleRollupLead (created : String) (campaign_id : JSON) (score : ℤ)
    (lead_category : Option JSON) (tags : List (Option String)) : Lead :=
  { exampleCreated "lead-r" created [] with
    campaign_id := campaign_id, engagement_score := score, lead_category := lead_category,
    tags := tags }

/-- The leads of the rollup examples. Sixteen are created at `exampleNow`:
one for each of the campaigns 1 to 10, with the engagement scores 10, 20, ...,
100, three of the campaign 11 with the scores 10, 20 and 20, two of the
campaign 12 with the scores 25 and 100, and one without a campaign, with the
score 55. One lead of the campaign 3, with the score 100, is created 40 days
earlier. Two tags are values inherited under the names `constructor` and
`toString`. -/
def exampleRollupLeads : List Lead :=
  [exampleRollupLead exampleNow (.num 1) 10 (some (.num 1)) [some "Interested"],
   exampleRollupLead exampleNow (.num 2) 20 (some (.num 2)) [some "Meeting Request"],
   exampleRollupLead exampleNow (.num 3) 30 (some (.num 1)) [some "Interested"],
   exampleRollupLead "2024-03-22T12:00:00.000Z" (.num 3) 100 (some (.num 1)) [some "Interested"],
   exampleRollupLead exampleNow (.num 4) 40 none [some "Uncategorized"],
   exampleRollupLead exampleNow (.num 5) 50 (some (.str "constructor")) [none],
   exampleRollupLead exampleNow (.num 6) 60 (some (.str "toString")) [none],
   exampleRollupLead exampleNow (.num 7) 70 (some (.str "constructor")) [none],
   exampleRollupLead exampleNow (.num 8) 80 (some (.num 2)) [some "Meeting Request"],
   exampleRollupLead exampleNow (.num 9) 90 (some (.num 1)) [some "Interested"],
   exampleRollupLead exampleNow (.num 10) 100 (some (.num 1)) [some "Interested"],
   exampleRollupLead exampleNow (.num 11) 10 (some (.num 3)) [some "Not Interested"],
   exampleRollupLead exampleNow (.num 11) 20 (some (.num 3)) [some "Not Interested"],
   exampleRollupLead exampleNow (.num 11) 20 (some (.num 3)) [some "Not Interested"],
   exampleRollupLead exampleNow (.num 12) 25 (some (.num 1)) [some "Interested"],
   exampleRollupLead exampleNow (.num 12) 100 (some (.num 1)) [some "Interested"],
   exampleRollupLead exampleNow .null 55 none [some "Uncategorized"]]

/-- The name, the number of leads and the `avgEngagement` of the elements of
`campaignStats` in a result of `analyticsData`, in order. -/
def campaignRows (result : Except JSError (Option Analytics)) : List (String × ℕ × ℚ) :=
  match result with
  | .ok (some a) => a.campaignStats.map (fun s => (s.name, s.totalLeads, s.avgEngagement))
  | _ => []

/-- The category, the number of leads and the `avgEngagement` of the elements
of `categoryStats` in a result of `analyticsData`, in order. -/
def categoryRows (result : Except JSError (Option Analytics)) :
    List (CategoryName × ℕ × ℚ) :=
  match result with
  | .ok (some a) => a.categoryStats.map (fun s => (s.category, s.totalLeads, s.avgEngagement))
  | _ => []

/-! ## Lemmas on numbers and on the response times -/

theorem jsnum_add_assoc (a b c : JSNum) :
    JSNum.add (JSNum.add a b) c = JSNum.add a (JSNum.add b c) := by
  cases a <;> cases b <;> cases c <;> simp [JSNum.add, add_assoc]

theorem jsnum_add_zero (a : JSNum) : JSNum.add a (JSNum.fin 0) = a := by
  cases a <;> simp [JSNum.add]

theorem jsnum_foldl_add (ts : List JSNum) (a : JSNum) :
    ts.foldl (fun sum time => JSNum.add sum time) a = JSNum.add a (JSNum.sum ts) := by
  induction ts generalizing a with
  | nil => simp [JSNum.sum, jsnum_add_zero]
  | cons t ts ih =>
    have hs : JSNum.sum (t :: ts) = JSNum.add t (JSNum.sum ts) := rfl
    rw [List.foldl_cons, ih, hs, jsnum_add_assoc]

theorem jsnum_zero_add (a : JSNum) : JSNum.add (JSNum.fin 0) a = a := by
  cases a <;> simp [JSNum.add]

theorem responseTimes_eq_filterMap (conversation : List Message) :
    responseTimes conversation = conversation.filterMap (fun m => m.response_time) := by
  induction conversation with
  | nil => rfl
  | cons m ms ih =>
    unfold responseTimes at ih ⊢
    cases h : m.response_time with
    | none => simp [List.filter_cons, List.filterMap_cons, h, ih]
    | some t => simp [List.filter_cons, List.filterMap_cons, h, ih]

theorem avgResponseTime_eq_mean (conversation : List Message) :
    avgResponseTime conversation = meanResponseTime conversation := by
  unfold avgResponseTime meanResponseTime
  simp only [responseTimes_eq_filterMap, jsnum_foldl_add, jsnum_zero_add]
  cases h : conversation.filterMap (fun m => m.response_time) with
  | nil => simp
  | cons t ts => simp

theorem length_repliesOf (conversation : List Message) :
    (repliesOf conversation).length = countType "REPLY" conversation := by
  simp [repliesOf, countType, List.countP_eq_length_filter]

theorem length_sentOf (conversation : List Message) :
    (sentOf conversation).length = countType "SENT" conversation := by
  simp [sentOf, countType, List.countP_eq_length_filter]

theorem mathRound_natCast (n : ℕ) : mathRound (n : ℚ) = (n : ℤ) := by
  unfold mathRound
  rw [Int.floor_eq_iff]
  constructor
  · push_cast; linarith
  · push_cast; linarith

/-- The rate component and the bonus, before capping and rounding. -/
theorem engagementScore_unfold (conversation : List Message)
    (h : 0 < countType "SENT" conversation) :
    engagementScore conversation =
      mathRound (min 100
        (min (60 * (countType "REPLY" conversation : ℚ) / (countType "SENT" conversation : ℚ)) 60
          + speedBonus (meanResponseTime conversation))) := by
  have hs : (sentOf conversation).length > 0 := by rw [length_sentOf]; exact h
  unfold engagementScore
  simp only [hs, if_true, avgResponseTime_eq_mean, length_repliesOf, length_sentOf, zero_add]
  have hr : ((countType "REPLY" conversation : ℚ) / (countType "SENT" conversation : ℚ)) * 60
      = 60 * (countType "REPLY" conversation : ℚ) / (countType "SENT" conversation : ℚ) := by
    ring
  rw [hr, min_comm _ (100 : ℚ)]
  unfold speedBonus
  split_ifs <;> simp

theorem mathRound_capped (x : ℚ) (h : 0 ≤ x) :
    0 ≤ mathRound (min x 100) ∧ mathRound (min x 100) ≤ 100 := by
  unfold mathRound
  constructor
  · apply Int.floor_nonneg.mpr
    have : 0 ≤ min x 100 := le_min h (by norm_num)
    linarith
  · have h1 : min x 100 + 1 / 2 < ((101 : ℤ) : ℚ) := by
      have : min x 100 ≤ 100 := min_le_right _ _
      push_cast
      linarith
    have := Int.floor_lt.mpr h1
    omega

theorem speedBonus_nonneg (avg : JSNum) : 0 ≤ speedBonus avg := by
  unfold speedBonus
  split_ifs <;> norm_num

/-! ## Engagement score in exact arithmetic and intent score (C2 to C5) -/

theorem transformLead_scores (b : Builtins) (nowISO : String) (lead : RawLead) :
    (transformLead b nowISO lead).engagement_score
      = engagementScore (transformLead b nowISO lead).conversation ∧
    (transformLead b nowISO lead).intent = intentScore b (transformLead b nowISO lead).conversation ∧
    (transformLead b nowISO lead).response_time_avg
      = avgResponseTime (transformLead b nowISO lead).conversation :=
  ⟨rfl, rfl, rfl⟩

/-- C2. For every conversation, the empty one included, the engagement score
of the lead transform is an integer between 0 and 100. -/
theorem engagement_score_range (conversation : List Message) :
    0 ≤ engagementScore conversation ∧ engagementScore conversation ≤ 100 := by
  unfold engagementScore
  apply mathRound_capped
  simp only []
  have hmin : (0 : ℚ) ≤ min (((repliesOf conversation).length : ℚ) /
      ((sentOf conversation).length : ℚ) * 60) 60 := by
    apply le_min _ (by norm_num)
    positivity
  split_ifs <;> linarith

/-- C3. For every conversation, the empty one included and whatever the
contents, the intent score of the lead transform is an integer between 1 and
10. -/
theorem intent_score_range (b : Builtins) (conversation : List Message) :
    1 ≤ intentScore b conversation ∧ intentScore b conversation ≤ 10 := by
  unfold intentScore
  simp only []
  split_ifs <;> omega

/-- C4. A conversation without a SENT message has engagement score 0,
whatever its REPLY messages and their response times. -/
theorem engagement_score_no_sent (conversation : List Message)
    (h : countType "SENT" conversation = 0) : engagementScore conversation = 0 := by
  have hs : ¬ (sentOf conversation).length > 0 := by rw [length_sentOf, h]; decide
  unfold engagementScore
  simp only [hs, if_false]
  unfold mathRound
  norm_num

theorem engagement_score_no_sent_witness :
    countType "SENT" [exampleMessage "REPLY" 7200000 "yes" (some (JSNum.fin 2))] = 0 ∧
      engagementScore [exampleMessage "REPLY" 7200000 "yes" (some (JSNum.fin 2))] = 0 :=
  ⟨by decide, engagement_score_no_sent _ (by decide)⟩

/-- C5. For every conversation the intent score of the lead transform equals
`min(10, 1 + min(2 * replies, 6) + k + p + s)`, with `k` the number of the
eight positive keywords occurring in the joined lowercased contents, `p` = 1
when `price` or `cost` occurs and `s` = 1 when `sample` or `example` occurs. -/
theorem intent_score_formula (b : Builtins) (conversation : List Message) :
    intentScore b conversation = intentFormula b conversation := by
  unfold intentScore intentFormula keywordHits allText positiveKeywords
  simp only [length_repliesOf, List.countP_eq_length_filter, Bool.or_eq_true]
  split_ifs <;> omega

/-! ## The parser (C6, C7) -/

theorem getProp_ok (v : JSON) (k : String) (h : v ≠ .null) : getProp v k = .ok (field v k) := by
  cases v <;> simp_all [getProp, field]

theorem field_truthy_of_rawHasType (v : JSON) (t : String) (h : rawHasType (some v) t = true) :
    truthy v = true := by
  cases v <;> simp_all [rawHasType, field, truthy]

theorem responseTimeOf_ok (b : Builtins) (prev : Option JSON) (msg : JSON) (h : msg ≠ .null) :
    responseTimeOf b prev msg = .ok
      (if rawHasType (some msg) "REPLY" && rawHasType prev "SENT"
        then some (hoursBetween (rawTime b (some msg)) (rawTime b prev))
        else none) := by
  unfold responseTimeOf
  rw [getProp_ok msg "type" h]
  simp only [bind, Except.bind]
  cases hty : field msg "type" with
  | none => simp [rawHasType, hty, pure, Except.pure]
  | some t =>
    cases prev with
    | none => simp [rawHasType, pure, Except.pure]
    | some p =>
      by_cases hp : truthy p = true
      · have hpn : p ≠ .null := by intro e; simp [e, truthy] at hp
        simp only [hp, getProp_ok p _ hpn, getProp_ok msg _ h, rawHasType, hty, Bool.and_true]
        by_cases hr : strictEqStr t "REPLY" = true
        · simp only [hr, if_true, Bool.true_and]
          cases hpt : field p "type" with
          | none => simp [pure, Except.pure]
          | some pt =>
            by_cases hs : strictEqStr pt "SENT" = true
            · simp only [hs, if_true, rawTime, hoursBetween]
              cases newDate b (field msg "time") <;> cases newDate b (field p "time") <;> rfl
            · simp [hs, pure, Except.pure]
        · simp [hr, pure, Except.pure]
      · have hf : rawHasType (some p) "SENT" = false := by
          cases hh : rawHasType (some p) "SENT" with
          | false => rfl
          | true => exact absurd (field_truthy_of_rawHasType p _ hh) hp
        simp [hp, hf, pure, Except.pure]

theorem parseMessage_null (b : Builtins) (nowISO : String) (prev : Option JSON) :
    parseMessage b nowISO prev .null = .error .typeError := by
  simp [parseMessage, responseTimeOf, getProp, bind, Except.bind]

/-- What the parser stores in a message built from a raw message. -/
theorem parseMessage_ok (b : Builtins) (nowISO : String) (prev : Option JSON) (msg : JSON)
    (m : Message) (h : parseMessage b nowISO prev msg = .ok m) :
    m.type = orElse (field msg "type") (.str "SENT") ∧
    m.time = orElse (field msg "time") (.str nowISO) ∧
    m.response_time =
      (if rawHasType (some msg) "REPLY" && rawHasType prev "SENT"
        then some (hoursBetween (rawTime b (some msg)) (rawTime b prev))
        else none) := by
  have hn : msg ≠ .null := by
    intro e
    rw [e, parseMessage_null] at h
    cases h
  unfold parseMessage at h
  simp only [responseTimeOf_ok b prev msg hn, getProp_ok msg _ hn, bind, Except.bind] at h
  cases hc : contentOf (field msg "email_body") with
  | error e => simp [hc] at h
  | ok c =>
    simp only [hc, pure, Except.pure, Except.ok.injEq] at h
    subst h
    exact ⟨rfl, rfl, rfl⟩

theorem parseMessages_ok (b : Builtins) (nowISO : String) (xs : List JSON) :
    ∀ (prev : Option JSON) (conv : List Message),
      parseMessages b nowISO prev xs = .ok conv →
      conv.length = xs.length ∧
      ∀ i m, conv[i]? = some m →
        ∃ raw, xs[i]? = some raw ∧ parseMessage b nowISO (prevAt prev xs i) raw = .ok m := by
  induction xs with
  | nil =>
    intro prev conv h
    simp only [parseMessages, pure, Except.pure, Except.ok.injEq] at h
    subst h
    simp
  | cons x xs ih =>
    intro prev conv h
    simp only [parseMessages, bind, Except.bind] at h
    cases hx : parseMessage b nowISO prev x with
    | error e => simp [hx] at h
    | ok m0 =>
      cases hr : parseMessages b nowISO (some x) xs with
      | error e => simp [hx, hr] at h
      | ok ms =>
        simp only [hx, hr, pure, Except.pure, Except.ok.injEq] at h
        subst h
        obtain ⟨hl, hi⟩ := ih (some x) ms hr
        refine ⟨by simp [hl], ?_⟩
        intro i m hm
        cases i with
        | zero =>
          simp only [List.getElem?_cons_zero, Option.some.injEq] at hm
          subst hm
          exact ⟨x, by simp, hx⟩
        | succ j =>
          simp only [List.getElem?_cons_succ] at hm
          obtain ⟨raw, hraw, hp⟩ := hi j m hm
          refine ⟨raw, by simpa using hraw, ?_⟩
          cases j with
          | zero => simpa [prevAt] using hp
          | succ k => simpa [prevAt] using hp

theorem parseConversation_cases (b : Builtins) (nowISO : String) (lead : RawLead) :
    (parseConversation b nowISO lead).1 = [] ∨
    ∃ body xs, lead.email_message_body = some body ∧ body ≠ "" ∧
      b.jsonParse body = some (.arr xs) ∧
      parseMessages b nowISO none xs = .ok (parseConversation b nowISO lead).1 := by
  unfold parseConversation
  cases hb : lead.email_message_body with
  | none => left; rfl
  | some body =>
    by_cases he : body = ""
    · left; simp [he]
    · simp only [he, if_false]
      cases ht : tryParse b nowISO body with
      | error e => left; rfl
      | ok r =>
        right
        refine ⟨body, ?_⟩
        unfold tryParse at ht
        cases hj : b.jsonParse body with
        | none => simp [hj] at ht
        | some v =>
          cases v with
          | arr xs =>
            refine ⟨xs, rfl, he, rfl, ?_⟩
            simp only [hj, bind, Except.bind] at ht
            cases hst : statsIdStep xs with
            | error e => simp [hst] at ht
            | ok u =>
              cases hp : parseMessages b nowISO none xs with
              | error e => simp [hst, hp] at ht
              | ok conv =>
                cases hf : findMessageWithSubject conv with
                | error e => simp [hst, hp, hf] at ht
                | ok sub =>
                  simp only [hst, hp, hf, pure, Except.pure, Except.ok.injEq] at ht
                  subst ht
                  cases sub <;> rfl
          | null => simp [hj] at ht
          | bool _ => simp [hj] at ht
          | num _ => simp [hj] at ht
          | str _ => simp [hj] at ht
          | obj _ => simp [hj] at ht

theorem strictEqStr_truthy (v : JSON) (t : String) (ht : t ≠ "")
    (h : strictEqStr v t = true) : truthy v = true := by
  cases v <;> simp_all [strictEqStr, truthy]

theorem type_reply_iff (raw : JSON) :
    strictEqStr (orElse (field raw "type") (.str "SENT")) "REPLY" = rawHasType (some raw) "REPLY" := by
  unfold rawHasType orElse
  cases h : field raw "type" with
  | none => simp [strictEqStr, h]
  | some ty =>
    by_cases ht : truthy ty = true
    · simp [ht, h]
    · have : strictEqStr ty "REPLY" = false := by
        cases hh : strictEqStr ty "REPLY" with
        | false => rfl
        | true => exact absurd (strictEqStr_truthy ty _ (by decide) hh) ht
      simp only [ht, this, h, Bool.false_eq_true, if_false]
      rfl

theorem type_sent_of_raw (raw : JSON) (h : rawHasType (some raw) "SENT" = true) :
    strictEqStr (orElse (field raw "type") (.str "SENT")) "SENT" = true := by
  unfold rawHasType at h
  unfold orElse
  cases hf : field raw "type" with
  | none => simp [hf] at h
  | some ty =>
    simp only [hf] at h
    simp [strictEqStr_truthy ty _ (by decide) h, h]

theorem dateOf_time_of_raw (b : Builtins) (nowISO : String) (raw : JSON)
    (h : rawHasTime (some raw) = true) :
    b.dateOf (orElse (field raw "time") (.str nowISO)) = rawTime b (some raw) := by
  unfold rawHasTime at h
  unfold orElse rawTime newDate
  cases hf : field raw "time" with
  | none => simp [hf] at h
  | some t =>
    simp only [hf] at h
    simp [h, hf]

theorem rawHasType_some (v : Option JSON) (t : String) (h : rawHasType v t = true) :
    ∃ x, v = some x := by
  cases v with
  | none => simp [rawHasType] at h
  | some x => exact ⟨x, rfl⟩

/-- C6 (amended). Let `m` be the message at index `i` of the conversation the
parser builds from the raw array `xs`. If `m` has a defined response time then
its type is REPLY, `i > 0` and the message at index `i - 1` has type SENT.
Conversely the response time is defined when the type is REPLY, `i > 0` and the
raw message at `i - 1` carries the type SENT itself. When defined it is the
difference in hours of the dates of the `time` entries of the two raw messages
(`NaN` if one is invalid), and these are the times of the conversation when
both raw messages carry a time. -/
theorem parser_response_time (b : Builtins) (nowISO : String) (lead : RawLead) (i : ℕ)
    (m : Message) (hm : (transformLead b nowISO lead).conversation[i]? = some m) :
    ∃ body xs raw,
      lead.email_message_body = some body ∧ b.jsonParse body = some (.arr xs) ∧
      xs[i]? = some raw ∧
      (m.response_time.isSome = true →
        strictEqStr m.type "REPLY" = true ∧
        ∃ j p, i = j + 1 ∧ (transformLead b nowISO lead).conversation[j]? = some p ∧
          strictEqStr p.type "SENT" = true) ∧
      (∀ j, i = j + 1 → strictEqStr m.type "REPLY" = true → rawHasType xs[j]? "SENT" = true →
        m.response_time.isSome = true) ∧
      (∀ j t, i = j + 1 → m.response_time = some t →
        t = hoursBetween (rawTime b (some raw)) (rawTime b xs[j]?)) ∧
      (∀ j p t, i = j + 1 → (transformLead b nowISO lead).conversation[j]? = some p →
        m.response_time = some t → rawHasTime (some raw) = true → rawHasTime xs[j]? = true →
        t = hoursBetween (b.dateOf m.time) (b.dateOf p.time)) := by
  have hconv : (transformLead b nowISO lead).conversation = (parseConversation b nowISO lead).1 :=
    rfl
  rw [hconv] at hm ⊢
  rcases parseConversation_cases b nowISO lead with h0 | ⟨body, xs, hb, _, hj, hp⟩
  · rw [h0] at hm
    simp at hm
  · obtain ⟨hl, hi⟩ := parseMessages_ok b nowISO xs none _ hp
    obtain ⟨raw, hraw, hpm⟩ := hi i m hm
    obtain ⟨hty, htime, hrt⟩ := parseMessage_ok b nowISO _ raw m hpm
    have hreply : strictEqStr m.type "REPLY" = rawHasType (some raw) "REPLY" := by
      rw [hty, type_reply_iff]
    have hprev : ∀ j, i = j + 1 → prevAt none xs i = xs[j]? := by
      intro j hij
      subst hij
      rfl
    have hpmsg : ∀ (j : ℕ) (p : Message), (parseConversation b nowISO lead).1[j]? = some p →
        ∃ praw, xs[j]? = some praw ∧
          p.type = orElse (field praw "type") (.str "SENT") ∧
          p.time = orElse (field praw "time") (.str nowISO) := by
      intro j p hpj
      obtain ⟨praw, hpraw, hpp⟩ := hi j p hpj
      obtain ⟨h1, h2, _⟩ := parseMessage_ok b nowISO _ praw p hpp
      exact ⟨praw, hpraw, h1, h2⟩
    refine ⟨body, xs, raw, hb, hj, hraw, ?_, ?_, ?_, ?_⟩
    · intro hsome
      rw [hrt] at hsome
      by_cases hc : (rawHasType (some raw) "REPLY" && rawHasType (prevAt none xs i) "SENT") = true
      · simp only [Bool.and_eq_true] at hc
        refine ⟨by rw [hreply]; exact hc.1, ?_⟩
        cases i with
        | zero => simp [prevAt, rawHasType] at hc
        | succ j =>
          have hc2 : rawHasType xs[j]? "SENT" = true := hc.2
          obtain ⟨praw, hpraw⟩ := rawHasType_some _ _ hc2
          have hjlt : j < (parseConversation b nowISO lead).1.length := by
            rw [hl]
            exact (List.getElem?_eq_some_iff.mp hpraw).1
          refine ⟨j, (parseConversation b nowISO lead).1[j], rfl,
            List.getElem?_eq_getElem hjlt, ?_⟩
          obtain ⟨praw2, hpraw2, h1, _⟩ := hpmsg j _ (List.getElem?_eq_getElem hjlt)
          rw [hpraw] at hpraw2 hc2
          cases hpraw2
          rw [h1]
          exact type_sent_of_raw praw hc2
      · simp [hc] at hsome
    · intro j hij hr hs
      rw [hrt, ← hreply, hprev j hij, hr, hs]
      rfl
    · intro j t hij ht
      rw [hrt, hprev j hij] at ht
      by_cases hc : (rawHasType (some raw) "REPLY" && rawHasType xs[j]? "SENT") = true
      · simp only [hc, if_true, Option.some.injEq] at ht
        exact ht.symm
      · simp [hc] at ht
    · intro j p t hij hpj ht htime1 htime0
      rw [hrt, hprev j hij] at ht
      obtain ⟨praw, hpraw, _, h2⟩ := hpmsg j p hpj
      rw [hpraw] at ht htime0
      rw [htime, h2, dateOf_time_of_raw b nowISO raw htime1,
        dateOf_time_of_raw b nowISO praw htime0]
      by_cases hc : (rawHasType (some raw) "REPLY" && rawHasType (some praw) "SENT") = true
      · simp only [hc, if_true, Option.some.injEq] at ht
        exact ht.symm
      · simp [hc] at ht

theorem parser_response_time_witness :
    ∃ m, (transformLead exampleBuiltins exampleNow (exampleLead (some blobSentReply))).conversation[1]?
        = some m ∧
      m.response_time = some (JSNum.fin 2) := by
  have hty : ((transformLead exampleBuiltins exampleNow (exampleLead (some blobSentReply))).conversation[1]?).map
      (fun m => strictEqStr m.type "REPLY") = some true := by decide
  cases hget : (transformLead exampleBuiltins exampleNow (exampleLead (some blobSentReply))).conversation[1]? with
  | none => rw [hget] at hty; cases hty
  | some m =>
    rw [hget] at hty
    simp only [Option.map_some', Option.some.injEq] at hty
    refine ⟨m, rfl, ?_⟩
    obtain ⟨body, xs, raw, hb, hj, hraw, _, h2, h3, _⟩ :=
      parser_response_time exampleBuiltins exampleNow (exampleLead (some blobSentReply)) 1 m hget
    have hbody : body = blobSentReply := by
      simp only [exampleLead, Option.some.injEq] at hb
      exact hb.symm
    subst hbody
    have hxs : some (JSON.arr xs) = some jsonSentReply := by
      rw [← hj]
      rfl
    simp only [jsonSentReply, Option.some.injEq, JSON.arr.injEq] at hxs
    subst hxs
    simp only [List.getElem?_cons_succ, List.getElem?_cons_zero, Option.some.injEq] at hraw
    subst hraw
    have hsome := h2 0 rfl hty (by decide)
    cases ht : m.response_time with
    | none => rw [ht] at hsome; cases hsome
    | some t =>
      have := h3 0 t rfl ht
      rw [this]
      simp [hoursBetween, rawTime, newDate, field, exampleBuiltins, List.lookup]
      norm_num

/-- C6 fails as stated. In the conversation parsed from
`[{"time":1000},{"type":"REPLY","time":3601000}]` the message at index 1 has
type REPLY and the message at index 0 has type SENT (the default for a missing
type), yet the response time at index 1 is undefined. In the conversation
parsed from `[{"type":"SENT"},{"type":"REPLY","time":3600000}]` both messages
have a valid time (the first one the current time, by default), yet the
response time at index 1 is `NaN`, not the difference of the two times. -/
theorem parser_response_time_counterexample :
    (transformLead exampleBuiltins exampleNow
        (exampleLead (some blobUntypedReply))).conversation.map
      (fun m => (strictEqStr m.type "SENT", strictEqStr m.type "REPLY", m.response_time.isSome))
      = [(true, false, false), (false, true, false)] ∧
    (transformLead exampleBuiltins exampleNow
        (exampleLead (some blobUntimedSent))).conversation.map
      (fun m => (exampleBuiltins.dateOf m.time, m.response_time))
      = [(some 1714564800000, none), (some 3600000, some JSNum.nan)] := by
  constructor
  · decide
  · decide

theorem engagementScore_nil : engagementScore [] = 0 := by
  unfold engagementScore mathRound
  simp [sentOf]
  norm_num

theorem intentScore_nil (b : Builtins) : intentScore b [] = 1 := by
  rfl

theorem avgResponseTime_nil : avgResponseTime [] = JSNum.fin 0 := by
  rfl

theorem parseConversation_of_tryParse_error (b : Builtins) (nowISO : String) (lead : RawLead)
    (body : String) (e : JSError) (hb : lead.email_message_body = some body)
    (h : tryParse b nowISO body = .error e) : (parseConversation b nowISO lead).1 = [] := by
  unfold parseConversation
  rw [hb]
  by_cases he : body = ""
  · simp [he]
  · simp [he, h]

theorem contentOf_error (body : JSON) (ht : truthy body = true)
    (hs : ∀ s, body ≠ .str s) : contentOf (some body) = .error .typeError := by
  unfold contentOf orElse
  simp only [ht, if_true]
  cases body with
  | str s => exact absurd rfl (hs s)
  | null => rfl
  | bool _ => rfl
  | num _ => rfl
  | arr _ => rfl
  | obj _ => rfl

theorem parseMessage_throwing (b : Builtins) (nowISO : String) (prev : Option JSON) (x : JSON)
    (h : throwingElement x = true) : parseMessage b nowISO prev x = .error .typeError := by
  by_cases hn : x = .null
  · rw [hn, parseMessage_null]
  · unfold parseMessage
    simp only [responseTimeOf_ok b prev x hn, getProp_ok x _ hn, bind, Except.bind]
    have hc : contentOf (field x "email_body") = .error .typeError := by
      cases hf : field x "email_body" with
      | none => cases x <;> simp_all [throwingElement]
      | some v =>
        apply contentOf_error
        · cases x <;> cases v <;> simp_all [throwingElement, truthy]
        · intro s hs
          cases x <;> simp_all [throwingElement]
    simp only [hc]

theorem parseMessages_throwing (b : Builtins) (nowISO : String) (xs : List JSON) :
    ∀ prev, (∃ x ∈ xs, throwingElement x = true) →
      parseMessages b nowISO prev xs = .error .typeError := by
  induction xs with
  | nil => intro prev h; simp at h
  | cons y ys ih =>
    intro prev h
    simp only [parseMessages, bind, Except.bind]
    by_cases hy : throwingElement y = true
    · simp only [parseMessage_throwing b nowISO prev y hy]
    · have hys : ∃ x ∈ ys, throwingElement x = true := by
        obtain ⟨x, hx, hbad⟩ := h
        rcases List.mem_cons.mp hx with hx | hx
        · rw [hx] at hbad; exact absurd hbad hy
        · exact ⟨x, hx, hbad⟩
      cases hp : parseMessage b nowISO prev y with
      | error e =>
        have : e = .typeError := by
          by_cases hn : y = .null
          · rw [hn, parseMessage_null] at hp; cases hp; rfl
          · unfold parseMessage at hp
            simp only [responseTimeOf_ok b prev y hn, getProp_ok y _ hn, bind, Except.bind] at hp
            cases hc : contentOf (field y "email_body") with
            | ok c => simp [hc, pure, Except.pure] at hp
            | error e2 =>
              simp only [hc] at hp
              unfold contentOf at hc
              split at hc
              · cases hc
              · cases hc; cases hp; rfl
        rw [this]
      | ok m =>
        simp only [ih (some y) hys]

theorem tryParse_throwing (b : Builtins) (nowISO : String) (body : String) (xs : List JSON)
    (hj : b.jsonParse body = some (.arr xs)) (h : ∃ x ∈ xs, throwingElement x = true) :
    tryParse b nowISO body = .error .typeError := by
  unfold tryParse
  simp only [hj, bind, Except.bind]
  cases hst : statsIdStep xs with
  | error e =>
    unfold statsIdStep at hst
    cases xs with
    | nil => cases hst
    | cons x rest =>
      simp only [bind, Except.bind] at hst
      cases x <;> simp [getProp, pure, Except.pure] at hst
      rw [← hst]
  | ok u => simp only [parseMessages_throwing b nowISO xs none h]

/-- C7 (amended). For a row whose conversation blob is absent, empty, not valid
JSON, valid JSON that is not an array, or an array with an element on which
the parser throws (`null`, or a value whose `email_body` is truthy and not a
string), the lead transform yields a lead with an empty conversation,
engagement score 0, intent 1 and average response time 0. -/
theorem malformed_blob_yields_empty_lead (b : Builtins) (nowISO : String) (lead : RawLead)
    (h : malformedBlob b lead.email_message_body = true) :
    (transformLead b nowISO lead).conversation = [] ∧
    (transformLead b nowISO lead).engagement_score = 0 ∧
    (transformLead b nowISO lead).intent = 1 ∧
    (transformLead b nowISO lead).response_time_avg = JSNum.fin 0 := by
  have hconv : (parseConversation b nowISO lead).1 = [] := by
    unfold malformedBlob at h
    cases hb : lead.email_message_body with
    | none =>
      unfold parseConversation
      rw [hb]
    | some body =>
      rw [hb] at h
      by_cases he : body = ""
      · unfold parseConversation
        rw [hb]
        simp [he]
      · simp only [he, decide_False, Bool.false_or] at h
        cases hj : b.jsonParse body with
        | none =>
          exact parseConversation_of_tryParse_error b nowISO lead body .syntaxError hb
            (by unfold tryParse; rw [hj]; rfl)
        | some v =>
          rw [hj] at h
          cases v with
          | arr xs =>
            simp only [List.any_eq_true] at h
            exact parseConversation_of_tryParse_error b nowISO lead body .typeError hb
              (tryParse_throwing b nowISO body xs hj h)
          | null =>
            exact parseConversation_of_tryParse_error b nowISO lead body .typeError hb
              (by unfold tryParse; rw [hj]; rfl)
          | bool _ =>
            exact parseConversation_of_tryParse_error b nowISO lead body .typeError hb
              (by unfold tryParse; rw [hj]; rfl)
          | num _ =>
            exact parseConversation_of_tryParse_error b nowISO lead body .typeError hb
              (by unfold tryParse; rw [hj]; rfl)
          | str _ =>
            exact parseConversation_of_tryParse_error b nowISO lead body .typeError hb
              (by unfold tryParse; rw [hj]; rfl)
          | obj _ =>
            exact parseConversation_of_tryParse_error b nowISO lead body .typeError hb
              (by unfold tryParse; rw [hj]; rfl)
  unfold transformLead
  simp only [hconv]
  exact ⟨trivial, engagementScore_nil, intentScore_nil b, avgResponseTime_nil⟩

theorem malformed_blob_yields_empty_lead_witness :
    malformedBlob exampleBuiltins (exampleLead (some "7")).email_message_body = true ∧
    (transformLead exampleBuiltins exampleNow (exampleLead (some "7"))).conversation = [] ∧
    (transformLead exampleBuiltins exampleNow (exampleLead (some "7"))).engagement_score = 0 ∧
    (transformLead exampleBuiltins exampleNow (exampleLead (some "7"))).intent = 1 ∧
    (transformLead exampleBuiltins exampleNow (exampleLead (some "7"))).response_time_avg
      = JSNum.fin 0 :=
  ⟨by decide,
    malformed_blob_yields_empty_lead exampleBuiltins exampleNow (exampleLead (some "7"))
      (by decide)⟩

/-- C7 fails as stated: the blob `[1]` is valid JSON and not an array of
messages, yet the lead transform yields a conversation of one message (of type
SENT by default) and the engagement score 40. -/
theorem malformed_blob_counterexample :
    exampleBuiltins.jsonParse "[1]" = some (.arr [.num 1]) ∧
    (transformLead exampleBuiltins exampleNow (exampleLead (some "[1]"))).conversation.map
      (fun m => (strictEqStr m.type "SENT", m.content)) = [(true, "")] ∧
    (transformLead exampleBuiltins exampleNow (exampleLead (some "[1]"))).engagement_score
      = 40 := by
  refine ⟨rfl, by decide, ?_⟩
  have hs : countType "SENT"
      (transformLead exampleBuiltins exampleNow (exampleLead (some "[1]"))).conversation = 1 := by
    decide
  have hr : countType "REPLY"
      (transformLead exampleBuiltins exampleNow (exampleLead (some "[1]"))).conversation = 0 := by
    decide
  have he : ((transformLead exampleBuiltins exampleNow
      (exampleLead (some "[1]"))).conversation.filterMap (fun m => m.response_time)).isEmpty
        = true := by
    decide
  have hm : meanResponseTime
      (transformLead exampleBuiltins exampleNow (exampleLead (some "[1]"))).conversation
        = JSNum.fin 0 := by
    unfold meanResponseTime
    simp only [he, if_true]
  have hb : speedBonus (JSNum.fin 0) = 40 := by
    simp [speedBonus, JSNum.lt]
  have hscore : (transformLead exampleBuiltins exampleNow
      (exampleLead (some "[1]"))).engagement_score = engagementScore
        (transformLead exampleBuiltins exampleNow (exampleLead (some "[1]"))).conversation := rfl
  rw [hscore, engagementScore_unfold _ (by rw [hs]; decide), hs, hr, hm, hb]
  have e : min (100 : ℚ) (min (60 * ((0 : ℕ) : ℚ) / ((1 : ℕ) : ℚ)) 60 + 40) = ((40 : ℕ) : ℚ) := by
    norm_num
  rw [e, mathRound_natCast]
  rfl

/-! ## Stage and urgency (C8 to C10) -/

theorem daysSince_gt (b : Builtins) (now : ℤ) (days : ℤ) (time : JSON) :
    (daysSince b now time).gt days = elapsedMoreThan b now days time := by
  unfold daysSince elapsedMoreThan
  cases b.dateOf time with
  | none => rfl
  | some t =>
    simp only [JSNum.gt]
    have h : ((days : ℚ) < ((now - t : ℤ) : ℚ) / (1000 * 60 * 60 * 24)) ↔
        days * 86400000 < now - t := by
      rw [lt_div_iff₀ (by norm_num)]
      have e : (days : ℚ) * (1000 * 60 * 60 * 24) = ((days * 86400000 : ℤ) : ℚ) := by
        push_cast; ring
      rw [e, Int.cast_lt]
    exact decide_eq_decide.mpr h

theorem timeDiff_ge (b : Builtins) (now : ℤ) (days : ℤ) (time : JSON) :
    (timeDiff (some now) (b.dateOf time)).ge days = elapsedAtLeast b now days time := by
  unfold timeDiff elapsedAtLeast
  cases b.dateOf time with
  | none => rfl
  | some t =>
    simp only [JSNum.ge]
    have h : ((days : ℚ) ≤ ((now - t : ℤ) : ℚ) / (1000 * 60 * 60 * 24)) ↔
        days * 86400000 ≤ now - t := by
      rw [le_div_iff₀ (by norm_num)]
      have e : (days : ℚ) * (1000 * 60 * 60 * 24) = ((days * 86400000 : ℤ) : ℚ) := by
        push_cast; ring
      rw [e, Int.cast_le]
    exact decide_eq_decide.mpr h

theorem getLast?_of_ne_nil (conversation : List Message) (h : conversation ≠ []) :
    conversation.getLast? = some (conversation.getLast h) :=
  List.getLast?_eq_getLast conversation h

theorem daysSince_gt_seven (b : Builtins) (now : ℤ) (time : JSON) :
    (daysSince b now time).gt 7 = elapsedMoreThan b now 7 time := by
  have h := daysSince_gt b now 7 time
  simpa using h

/-- C8. For a non-empty conversation `detectConversationStage` returns the
label of the first rule of the decision list `stageRules` that matches, in the
order of the specification: no REPLY and more than 7 days since the last
message, no REPLY, rejection words, pricing words, sample words, call words,
deferral words, more than 7 days, positive words, otherwise `active` (a time
that is not a valid date is not more than 7 days old). The label is a member
of `availableStages`. -/
theorem detect_stage_first_match (b : Builtins) (now : ℤ) (conversation : List Message)
    (h : conversation ≠ []) :
    ∃ label, detectConversationStage b now conversation = .ok label ∧
      firstMatch (stageRules b now conversation (conversation.getLast h)) = some label ∧
      label ∈ availableStages := by
  unfold detectConversationStage
  simp only [getLast?_of_ne_nil conversation h, daysSince_gt_seven, length_repliesOf, allText]
  unfold stageRules firstMatch availableStages
  simp only []
  generalize elapsedMoreThan b now 7 (conversation.getLast h).time = old
  generalize joinWith " " (conversation.map (fun m => b.toLowerCase m.content)) = text
  generalize (includes text "not interested" || includes text "no thanks") = cRejected
  generalize (includes text "price" || includes text "cost" || includes text "budget") = cPricing
  generalize (includes text "sample" || includes text "example" || includes text "portfolio")
    = cSamples
  generalize (includes text "call" || includes text "meeting" || includes text "schedule") = cCall
  generalize (includes text "think about" || includes text "discuss with team" ||
    includes text "get back") = cConsidering
  generalize (includes text "interested" || includes text "yes" || includes text "sure")
    = cPositive
  by_cases hn : countType "REPLY" conversation = 0
  · cases old <;> simp [hn, List.find?, pure, Except.pure]
  · have hpos : countType "REPLY" conversation > 0 := Nat.pos_of_ne_zero hn
    cases cRejected
    · cases cPricing
      · cases cSamples
        · cases cCall
          · cases cConsidering
            · cases old
              · cases cPositive <;> simp [hn, hpos, List.find?, pure, Except.pure]
              · simp [hn, List.find?, pure, Except.pure]
            · simp [hn, List.find?, pure, Except.pure]
          · simp [hn, List.find?, pure, Except.pure]
        · simp [hn, List.find?, pure, Except.pure]
      · simp [hn, List.find?, pure, Except.pure]
    · simp [hn, List.find?, pure, Except.pure]

theorem exampleConversation_ne_nil : exampleConversation ≠ [] := by
  unfold exampleConversation
  exact List.cons_ne_nil _ _

theorem detect_stage_first_match_witness :
    exampleConversation ≠ [] ∧
    detectConversationStage exampleBuiltins 10800000 exampleConversation = .ok "engaged" := by
  obtain ⟨label, h1, h2, _⟩ :=
    detect_stage_first_match exampleBuiltins 10800000 exampleConversation
      exampleConversation_ne_nil
  have h3 : firstMatch (stageRules exampleBuiltins 10800000 exampleConversation
      (exampleConversation.getLast exampleConversation_ne_nil)) = some "engaged" := by
    decide
  rw [h3] at h2
  cases h2
  exact ⟨exampleConversation_ne_nil, h1⟩

/-- C9. The code fails on the empty conversation: `detectConversationStage`
reads `time` of the missing last message and throws a `TypeError` instead of
returning a fallback stage. -/
theorem detect_stage_empty_throws (b : Builtins) (now : ℤ) :
    detectConversationStage b now [] = .error .typeError := by
  rfl

theorem timeDiff_ge_two (b : Builtins) (now : ℤ) (time : JSON) :
    (timeDiff (some now) (b.dateOf time)).ge 2 = elapsedAtLeast b now 2 time := by
  have h := timeDiff_ge b now 2 time
  simpa using h

theorem timeDiff_ge_three (b : Builtins) (now : ℤ) (time : JSON) :
    (timeDiff (some now) (b.dateOf time)).ge 3 = elapsedAtLeast b now 3 time := by
  have h := timeDiff_ge b now 3 time
  simpa using h

theorem getResponseUrgency_eq_rule (b : Builtins) (now : ℤ) (lead : Lead) :
    getResponseUrgency b now lead = urgencyRule b now lead := by
  unfold getResponseUrgency urgencyRule safeGetLastMessage
  cases hc : lead.conversation with
  | nil => rfl
  | cons m ms =>
    simp only [List.length_cons, Nat.succ_ne_zero, if_false, timeDiff_ge_two, timeDiff_ge_three]
    cases (m :: ms).getLast? with
    | none => rfl
    | some last =>
      simp only [Bool.and_eq_true, decide_eq_true_eq, ge_iff_le]

/-- C10. For every lead and current time `now`, `getResponseUrgency` returns
`none` for an empty conversation; otherwise `urgent-response` or
`needs-response` when the intent is at least 4 and the last message is a
REPLY, according to whether at least 2 days have elapsed since it; otherwise
`needs-followup` when the last message is SENT and at least 3 days have
elapsed; otherwise `none` (`urgencyRule`; a time that is not a valid date
counts as infinitely old). For intent 5 and a last REPLY exactly 2 days old
the result is `urgent-response`, and 1.9 days old gives `needs-response`. -/
theorem response_urgency_rule (b : Builtins) (now : ℤ) (lead : Lead) :
    getResponseUrgency b now lead = urgencyRule b now lead ∧
    (lead.conversation = [] → getResponseUrgency b now lead = "none") ∧
    (∀ last t, lead.conversation.getLast? = some last → lead.intent = 5 →
      strictEqStr last.type "REPLY" = true → b.dateOf last.time = some t →
      (now - t = 2 * 86400000 → getResponseUrgency b now lead = "urgent-response") ∧
      (10 * (now - t) = 19 * 86400000 → getResponseUrgency b now lead = "needs-response")) := by
  refine ⟨getResponseUrgency_eq_rule b now lead, ?_, ?_⟩
  · intro h
    rw [getResponseUrgency_eq_rule]
    unfold urgencyRule
    rw [h]
    rfl
  · intro last t hlast hintent htype hdate
    rw [getResponseUrgency_eq_rule]
    unfold urgencyRule elapsedAtLeast
    simp only [hlast, hintent, htype, hdate]
    constructor
    · intro h2
      simp
      omega
    · intro h19
      simp
      omega

theorem response_urgency_rule_witness :
    getResponseUrgency exampleBuiltins (7200000 + 2 * 86400000)
        (exampleAssembled exampleConversation) = "urgent-response" ∧
    getResponseUrgency exampleBuiltins (7200000 + 164160000)
        (exampleAssembled exampleConversation) = "needs-response" := by
  have hdate : exampleBuiltins.dateOf
      (exampleMessage "REPLY" 7200000 "I am Interested" (some (JSNum.fin 2))).time
        = some 7200000 := by
    decide
  constructor
  · exact ((response_urgency_rule exampleBuiltins (7200000 + 2 * 86400000)
      (exampleAssembled exampleConversation)).2.2 _ 7200000 rfl rfl (by decide) hdate).1
        (by norm_num)
  · exact ((response_urgency_rule exampleBuiltins (7200000 + 164160000)
      (exampleAssembled exampleConversation)).2.2 _ 7200000 rfl rfl (by decide) hdate).2
        (by norm_num)

/-! ## The filter engine (C12 to C16) -/

theorem applyFilters_eq_filter (b : Builtins) (now : ℤ)
    (activeFilters : List (String × List String)) :
    ∀ filtered : List Lead,
      applyFilters b now activeFilters filtered
        = filtered.filter (passesFilters b now activeFilters) := by
  induction activeFilters with
  | nil =>
    intro filtered
    have h : passesFilters b now [] = fun _ => true := rfl
    rw [h, List.filter_true]
    rfl
  | cons entry rest ih =>
    intro filtered
    have hstep : applyFilters b now (entry :: rest) filtered
        = applyFilters b now rest
          (if entry.2.length = 0 then filtered
            else filtered.filter (fun lead =>
              entry.2.any (fun value => filterValueMatches b now entry.1 value lead))) := rfl
    rw [hstep, ih]
    by_cases he : entry.2.length = 0
    · simp only [he, if_true]
      apply List.filter_congr
      intro lead _
      simp only [passesFilters, List.all_cons, he, decide_True, Bool.true_or, Bool.true_and]
    · simp only [he, if_false, List.filter_filter]
      apply List.filter_congr
      intro lead _
      simp only [passesFilters, List.all_cons, he, decide_False, Bool.false_or]
      rw [Bool.and_comm]

theorem filteredAndSortedLeads_eq_filter (b : Builtins) (now : ℤ) (st : ViewState) :
    filteredAndSortedLeads b now st = st.leads.filter (keepsLead b now st) := by
  unfold filteredAndSortedLeads
  simp only [applyFilters_eq_filter]
  have hk : ∀ lead, keepsLead b now st lead =
      ((if st.activeTab = "need_response" then needResponseTab lead
        else if st.activeTab = "recently_sent" then recentlySentTab b now lead
        else true) &&
      (if st.searchQuery ≠ "" ∧ trim st.searchQuery ≠ "" then
          searchMatches b (trim (b.toLowerCase st.searchQuery)) lead
        else true) &&
      passesFilters b now st.activeFilters lead) := fun _ => rfl
  by_cases hq : (st.searchQuery ≠ "" ∧ trim st.searchQuery ≠ "")
  · by_cases h1 : st.activeTab = "need_response"
    · simp only [if_pos hq, if_pos h1, List.filter_filter]
      apply List.filter_congr
      intro lead _
      rw [hk, if_pos hq, if_pos h1, Bool.and_comm, Bool.and_comm (searchMatches _ _ _)]
    · by_cases h2 : st.activeTab = "recently_sent"
      · simp only [if_pos hq, if_neg h1, if_pos h2, List.filter_filter]
        apply List.filter_congr
        intro lead _
        rw [hk, if_pos hq, if_neg h1, if_pos h2, Bool.and_comm,
          Bool.and_comm (searchMatches _ _ _)]
      · simp only [if_pos hq, if_neg h1, if_neg h2, List.filter_filter]
        apply List.filter_congr
        intro lead _
        rw [hk, if_pos hq, if_neg h1, if_neg h2, Bool.and_comm, Bool.true_and]
  · by_cases h1 : st.activeTab = "need_response"
    · simp only [if_neg hq, if_pos h1, List.filter_filter]
      apply List.filter_congr
      intro lead _
      rw [hk, if_neg hq, if_pos h1, Bool.and_comm, Bool.and_true]
    · by_cases h2 : st.activeTab = "recently_sent"
      · simp only [if_neg hq, if_neg h1, if_pos h2, List.filter_filter]
        apply List.filter_congr
        intro lead _
        rw [hk, if_neg hq, if_neg h1, if_pos h2, Bool.and_comm, Bool.and_true]
      · simp only [if_neg hq, if_neg h1, if_neg h2]
        apply List.filter_congr
        intro lead _
        rw [hk, if_neg hq, if_neg h1, if_neg h2, Bool.and_true, Bool.true_and]

theorem mem_filteredAndSortedLeads (b : Builtins) (now : ℤ) (st : ViewState) (lead : Lead) :
    lead ∈ filteredAndSortedLeads b now st ↔ lead ∈ st.leads ∧ keepsLead b now st lead = true := by
  rw [filteredAndSortedLeads_eq_filter, List.mem_filter]

theorem passesFilters_iff (b : Builtins) (now : ℤ) (activeFilters : List (String × List String))
    (lead : Lead) :
    passesFilters b now activeFilters lead = true ↔
      ∀ entry ∈ activeFilters, entry.2 ≠ [] →
        ∃ value ∈ entry.2, filterValueMatches b now entry.1 value lead = true := by
  unfold passesFilters
  simp only [List.all_eq_true, Bool.or_eq_true, decide_eq_true_eq, List.any_eq_true,
    List.length_eq_zero]
  constructor
  · intro h entry he hne
    rcases h entry he with h0 | h1
    · exact absurd h0 hne
    · exact h1
  · intro h entry he
    by_cases h0 : entry.2 = []
    · exact Or.inl h0
    · exact Or.inr (h entry he h0)

/-- C12. The code does not sort: with the sort `intent` descending active, two
leads of intents 3 and 8 come out in the order of the input, intents `[3, 8]`,
which is not non-increasing. -/
theorem filtered_leads_not_sorted :
    (filteredAndSortedLeads exampleBuiltins 1714564800000
      { exampleState [exampleScored "lead-a" 3 30 [], exampleScored "lead-b" 8 90 []] with
        activeSorts := [{ field := "intent", direction := "desc" }] }).map
      (fun lead => (lead.id, lead.intent)) = [("lead-a", 3), ("lead-b", 8)] := by
  decide

/-- C13. With the tab `all` and an empty query, a lead is in the output of
`filteredAndSortedLeads` if and only if it is in the collection and, for every
category of `activeFilters` with a non-empty list of values, it matches at
least one of the values. With the filters `intent: [high]` and
`engagement: [low]` a lead of intent 8 is kept when its engagement is 30 and
excluded when it is 90. -/
theorem advanced_filters_semantics (b : Builtins) (now : ℤ) (st : ViewState)
    (htab : st.activeTab = "all") (hquery : st.searchQuery = "") :
    (∀ lead, lead ∈ filteredAndSortedLeads b now st ↔
      lead ∈ st.leads ∧ ∀ entry ∈ st.activeFilters, entry.2 ≠ [] →
        ∃ value ∈ entry.2, filterValueMatches b now entry.1 value lead = true) ∧
    (st.activeFilters = [("intent", ["high"]), ("engagement", ["low"])] →
      ∀ lead ∈ st.leads, lead.intent = 8 →
        (lead.engagement_score = 30 → lead ∈ filteredAndSortedLeads b now st) ∧
        (lead.engagement_score = 90 → lead ∉ filteredAndSortedLeads b now st)) := by
  have hkeep : ∀ lead, keepsLead b now st lead = passesFilters b now st.activeFilters lead := by
    intro lead
    unfold keepsLead
    rw [htab, hquery]
    simp
  have hmem : ∀ lead, lead ∈ filteredAndSortedLeads b now st ↔
      lead ∈ st.leads ∧ ∀ entry ∈ st.activeFilters, entry.2 ≠ [] →
        ∃ value ∈ entry.2, filterValueMatches b now entry.1 value lead = true := by
    intro lead
    rw [mem_filteredAndSortedLeads, hkeep, passesFilters_iff]
  refine ⟨hmem, ?_⟩
  intro hf lead hlead hintent
  constructor
  · intro heng
    rw [hmem, hf]
    refine ⟨hlead, ?_⟩
    intro entry he _
    simp only [List.mem_cons, List.mem_singleton, List.not_mem_nil, or_false] at he
    rcases he with he | he
    · subst he
      exact ⟨"high", by simp, by simp [filterValueMatches, hintent]⟩
    · subst he
      exact ⟨"low", by simp, by simp [filterValueMatches, heng]⟩
  · intro heng hin
    rw [hmem, hf] at hin
    obtain ⟨value, hv, hmatch⟩ := hin.2 ("engagement", ["low"]) (by simp) (by simp)
    simp only [List.mem_singleton] at hv
    subst hv
    simp [filterValueMatches, heng] at hmatch

theorem advanced_filters_semantics_witness :
    (filteredAndSortedLeads exampleBuiltins 1714564800000
      { exampleState [exampleScored "lead-a" 8 30 [], exampleScored "lead-b" 8 90 []] with
        activeFilters := [("intent", ["high"]), ("engagement", ["low"])] }).map
      (fun lead => lead.id) = ["lead-a"] ∧
    exampleScored "lead-a" 8 30 [] ∈ filteredAndSortedLeads exampleBuiltins 1714564800000
      { exampleState [exampleScored "lead-a" 8 30 [], exampleScored "lead-b" 8 90 []] with
        activeFilters := [("intent", ["high"]), ("engagement", ["low"])] } :=
  ⟨by decide,
    ((advanced_filters_semantics exampleBuiltins 1714564800000
      { exampleState [exampleScored "lead-a" 8 30 [], exampleScored "lead-b" 8 90 []] with
        activeFilters := [("intent", ["high"]), ("engagement", ["low"])] } rfl rfl).2 rfl
      (exampleScored "lead-a" 8 30 []) (List.mem_cons_self _ _) rfl).1 rfl⟩

theorem floor_hours_le (b : Builtins) (now : ℤ) (time : JSON) :
    (hoursSince b now time).floor.le 24 = true ↔
      ∃ t, b.dateOf time = some t ∧ now - t < 25 * 3600000 := by
  unfold hoursSince
  cases h : b.dateOf time with
  | none => simp [JSNum.floor, JSNum.le]
  | some t =>
    simp only [JSNum.floor, JSNum.le, decide_eq_true_eq, Option.some.injEq, exists_eq_left']
    have h24 : ((⌊((now - t : ℤ) : ℚ) / (1000 * 60 * 60)⌋ : ℤ) : ℚ) ≤ 24 ↔
        ⌊((now - t : ℤ) : ℚ) / (1000 * 60 * 60)⌋ < (25 : ℤ) := by
      rw [show (24 : ℚ) = ((24 : ℤ) : ℚ) by norm_num, Int.cast_le]
      omega
    rw [h24, Int.floor_lt, div_lt_iff₀ (by norm_num)]
    have e : ((25 : ℤ) : ℚ) * (1000 * 60 * 60) = ((25 * 3600000 : ℤ) : ℚ) := by
      push_cast; ring
    rw [e, Int.cast_lt]

theorem recentlySentTab_iff (b : Builtins) (now : ℤ) (lead : Lead) :
    recentlySentTab b now lead = true ↔
      ∃ last t, lead.conversation.getLast? = some last ∧
        strictEqStr last.type "SENT" = true ∧ truthy last.time = true ∧
        b.dateOf last.time = some t ∧ now - t < 25 * 3600000 := by
  unfold recentlySentTab
  cases hl : lead.conversation.getLast? with
  | none => simp
  | some last =>
    by_cases hs : strictEqStr last.type "SENT" = true
    · by_cases ht : truthy last.time = true
      · simp only [hs, ht, Bool.not_true, Bool.or_self, Bool.false_eq_true, if_false,
          floor_hours_le, Option.some.injEq]
        constructor
        · rintro ⟨t, h1, h2⟩
          exact ⟨last, t, rfl, hs, ht, h1, h2⟩
        · rintro ⟨last2, t, h0, _, _, h1, h2⟩
          subst h0
          exact ⟨t, h1, h2⟩
      · simp [hs, ht]
    · simp [hs]

/-- C14 (amended). With the tab `recently_sent`, no query and no filter, a lead
is in the output of `filteredAndSortedLeads` if and only if it is in the
collection, its conversation is not empty, its last message has type SENT and
a time that is a valid date, and the hours elapsed since that time, rounded
down, are at most 24: less than 25 hours have elapsed. -/
theorem recently_sent_tab (b : Builtins) (now : ℤ) (st : ViewState)
    (htab : st.activeTab = "recently_sent") (hquery : st.searchQuery = "")
    (hfilters : st.activeFilters = []) (lead : Lead) :
    lead ∈ filteredAndSortedLeads b now st ↔
      lead ∈ st.leads ∧
      ∃ last t, lead.conversation.getLast? = some last ∧
        strictEqStr last.type "SENT" = true ∧ truthy last.time = true ∧
        b.dateOf last.time = some t ∧ now - t < 25 * 3600000 := by
  have hkeep : keepsLead b now st lead = recentlySentTab b now lead := by
    unfold keepsLead
    rw [htab, hquery, hfilters]
    simp [passesFilters]
  rw [mem_filteredAndSortedLeads, hkeep, recentlySentTab_iff]

theorem recently_sent_tab_witness :
    exampleScored "lead-a" 3 40 [exampleMessage "SENT" 1000 "Hello" none] ∈
      filteredAndSortedLeads exampleBuiltins 3601000
        { exampleState [exampleScored "lead-a" 3 40 [exampleMessage "SENT" 1000 "Hello" none]] with
          activeTab := "recently_sent" } :=
  (recently_sent_tab exampleBuiltins 3601000
    { exampleState [exampleScored "lead-a" 3 40 [exampleMessage "SENT" 1000 "Hello" none]] with
      activeTab := "recently_sent" } rfl rfl rfl _).mpr
    ⟨List.mem_cons_self _ _, exampleMessage "SENT" 1000 "Hello" none, 1000, rfl, by decide,
      by decide, by decide, by decide⟩

/-- C14 fails as stated: a lead whose last message was sent 24.5 hours before
`now` (at time 1000, `now` being 88201000) is in the output of the tab
`recently_sent`, although more than 24 hours have elapsed. -/
theorem recently_sent_tab_counterexample :
    exampleBuiltins.dateOf (exampleMessage "SENT" 1000 "Hello" none).time = some 1000 ∧
    (24 : ℚ) < ((88201000 - 1000 : ℤ) : ℚ) / (1000 * 60 * 60) ∧
    exampleScored "lead-a" 3 40 [exampleMessage "SENT" 1000 "Hello" none] ∈
      filteredAndSortedLeads exampleBuiltins 88201000
        { exampleState [exampleScored "lead-a" 3 40 [exampleMessage "SENT" 1000 "Hello" none]] with
          activeTab := "recently_sent" } := by
  refine ⟨by decide, by norm_num, ?_⟩
  rw [mem_filteredAndSortedLeads]
  refine ⟨List.mem_cons_self _ _, ?_⟩
  have hkeep : keepsLead exampleBuiltins 88201000
      { exampleState [exampleScored "lead-a" 3 40 [exampleMessage "SENT" 1000 "Hello" none]] with
        activeTab := "recently_sent" }
      (exampleScored "lead-a" 3 40 [exampleMessage "SENT" 1000 "Hello" none])
      = recentlySentTab exampleBuiltins 88201000
        (exampleScored "lead-a" 3 40 [exampleMessage "SENT" 1000 "Hello" none]) := by
    simp [keepsLead, exampleState, passesFilters]
  rw [hkeep, recentlySentTab_iff]
  exact ⟨exampleMessage "SENT" 1000 "Hello" none, 1000, rfl, by decide, by decide, by decide,
    by decide⟩

theorem includes_empty (s k : String) (h : includes "" k = true) : includes s k = true := by
  unfold includes at h ⊢
  simp only [decide_eq_true_eq] at h ⊢
  have hk : k.data = [] := List.eq_nil_of_infix_nil h
  rw [hk]
  exact List.nil_infix

theorem searchMatches_iff (b : Builtins) (q : String) (lead : Lead)
    (hlower : b.toLowerCase "" = "") :
    searchMatches b q lead = true ↔ matchesQuery b q lead := by
  unfold searchMatches matchesQuery
  simp only [Bool.or_eq_true, List.any_eq_true]
  constructor
  · rintro ((((h | h) | h) | h) | ⟨tag, htag, h⟩)
    · exact Or.inl h
    · exact Or.inr (Or.inl h)
    · cases he : lead.email with
      | none =>
        rw [he] at h
        simp only [hlower] at h
        exact Or.inl (includes_empty _ _ h)
      | some e =>
        rw [he] at h
        exact Or.inr (Or.inr (Or.inl ⟨e, rfl, h⟩))
    · exact Or.inr (Or.inr (Or.inr (Or.inl h)))
    · cases tag with
      | none => simp at h
      | some t =>
        simp only [Bool.and_eq_true, decide_eq_true_eq] at h
        exact Or.inr (Or.inr (Or.inr (Or.inr ⟨t, htag, h.2⟩)))
  · rintro (h | h | ⟨e, he, h⟩ | h | ⟨t, ht, h⟩)
    · exact Or.inl (Or.inl (Or.inl (Or.inl h)))
    · exact Or.inl (Or.inl (Or.inl (Or.inr h)))
    · rw [he]
      exact Or.inl (Or.inl (Or.inr h))
    · exact Or.inl (Or.inr h)
    · by_cases h0 : t = ""
      · rw [h0, hlower] at h
        exact Or.inl (Or.inl (Or.inl (Or.inl (includes_empty _ _ h))))
      · exact Or.inr ⟨some t, ht, by simp [h0, h]⟩

/-- C15. With the tab `all` and no filter, for a query that is not blank a
lead is in the output of `filteredAndSortedLeads` if and only if it is in the
collection and the lowercased, trimmed query is a substring of its lowercased
first name, last name, email or subject, or of one of its lowercased tags; a
blank query excludes no lead. The runtime is any whose `toLowerCase` maps the
empty string to itself. -/
theorem search_semantics (b : Builtins) (now : ℤ) (st : ViewState)
    (htab : st.activeTab = "all") (hfilters : st.activeFilters = [])
    (hlower : b.toLowerCase "" = "") :
    (trim st.searchQuery ≠ "" → ∀ lead, lead ∈ filteredAndSortedLeads b now st ↔
      lead ∈ st.leads ∧ matchesQuery b (trim (b.toLowerCase st.searchQuery)) lead) ∧
    (trim st.searchQuery = "" → filteredAndSortedLeads b now st = st.leads) := by
  have htrim : trim "" = "" := rfl
  have hall1 : ¬ ("all" = "need_response") := by decide
  have hall2 : ¬ ("all" = "recently_sent") := by decide
  constructor
  · intro hq lead
    have hq0 : st.searchQuery ≠ "" := by
      intro h0
      rw [h0] at hq
      exact hq htrim
    have hkeep : keepsLead b now st lead
        = searchMatches b (trim (b.toLowerCase st.searchQuery)) lead := by
      unfold keepsLead
      rw [htab, hfilters, if_neg hall1, if_neg hall2, if_pos ⟨hq0, hq⟩]
      simp [passesFilters]
    rw [mem_filteredAndSortedLeads, hkeep, searchMatches_iff b _ lead hlower]
  · intro hq
    rw [filteredAndSortedLeads_eq_filter]
    have hkeep : keepsLead b now st = fun _ => true := by
      funext lead
      unfold keepsLead
      rw [htab, hfilters, if_neg hall1, if_neg hall2,
        if_neg (fun h : st.searchQuery ≠ "" ∧ trim st.searchQuery ≠ "" => h.2 hq)]
      simp [passesFilters]
    rw [hkeep, List.filter_true]

theorem search_semantics_witness :
    (filteredAndSortedLeads exampleBuiltins 1714564800000
      { exampleState [exampleScored "lead-a" 8 30 [], exampleScored "lead-b" 8 90 []] with
        searchQuery := "   " }).map (fun lead => lead.id) = ["lead-a", "lead-b"] ∧
    exampleScored "lead-a" 8 30 [] ∈ filteredAndSortedLeads exampleBuiltins 1714564800000
      { exampleState [exampleScored "lead-a" 8 30 [], exampleScored "lead-b" 8 90 []] with
        searchQuery := " ANN@example " } := by
  constructor
  · have h := (search_semantics exampleBuiltins 1714564800000
      { exampleState [exampleScored "lead-a" 8 30 [], exampleScored "lead-b" 8 90 []] with
        searchQuery := "   " } rfl rfl rfl).2 (by decide)
    rw [h]
    rfl
  · exact ((search_semantics exampleBuiltins 1714564800000
      { exampleState [exampleScored "lead-a" 8 30 [], exampleScored "lead-b" 8 90 []] with
        searchQuery := " ANN@example " } rfl rfl rfl).1 (by decide) _).mpr
      ⟨List.mem_cons_self _ _, Or.inr (Or.inr (Or.inl ⟨"ann@example.com", rfl, by decide⟩))⟩

/-- C16. Applying `filteredAndSortedLeads` to its own output, with the same
tab, query, filters, sorts and current time, yields the same list in the same
order. -/
theorem filtered_leads_idempotent (b : Builtins) (now : ℤ) (st : ViewState) :
    filteredAndSortedLeads b now { st with leads := filteredAndSortedLeads b now st }
      = filteredAndSortedLeads b now st := by
  have hk : keepsLead b now { st with leads := filteredAndSortedLeads b now st }
      = keepsLead b now st := rfl
  rw [filteredAndSortedLeads_eq_filter b now { st with leads := filteredAndSortedLeads b now st },
    hk]
  simp only []
  rw [filteredAndSortedLeads_eq_filter, List.filter_filter]
  apply List.filter_congr
  intro lead _
  rw [Bool.and_self]

/-! ## The sort and filter handlers (C17, C18) -/

theorem sortsInvariant_default : sortsInvariant defaultSorts := by
  unfold sortsInvariant defaultSorts
  simp

theorem sortsInvariant_add (activeSorts : List SortEntry) (field direction : String)
    (h : sortsInvariant activeSorts) : sortsInvariant (handleAddSort activeSorts field direction) := by
  obtain ⟨hne, hnd⟩ := h
  unfold handleAddSort
  cases hf : activeSorts.find? (fun s => decide (s.field = field)) with
  | some e =>
    simp only []
    have hmap : (activeSorts.map
        (fun s => if s.field = field then { s with direction := direction } else s)).map
          (fun s => s.field) = activeSorts.map (fun s => s.field) := by
      rw [List.map_map]
      apply List.map_congr_left
      intro s _
      simp only [Function.comp]
      split_ifs <;> rfl
    refine ⟨?_, by rw [hmap]; exact hnd⟩
    intro h0
    exact hne (List.map_eq_nil_iff.mp h0)
  | none =>
    simp only []
    refine ⟨by simp, ?_⟩
    rw [List.map_append, List.map_singleton]
    have hnot : field ∉ activeSorts.map (fun s => s.field) := by
      intro hmem
      obtain ⟨s, hs, hsf⟩ := List.mem_map.mp hmem
      have := List.find?_eq_none.mp hf s hs
      simp [hsf] at this
    exact List.Nodup.append hnd (List.nodup_singleton _)
      (by
        intro x hx hx2
        rw [List.mem_singleton] at hx2
        rw [hx2] at hx
        exact hnot hx)

theorem sortsInvariant_remove (activeSorts : List SortEntry) (field : String)
    (h : sortsInvariant activeSorts) : sortsInvariant (handleRemoveSort activeSorts field) := by
  obtain ⟨hne, hnd⟩ := h
  unfold handleRemoveSort
  by_cases h1 : activeSorts.length = 1
  · simp only [h1, if_true]
    exact sortsInvariant_default
  · simp only [h1, if_false]
    constructor
    · match activeSorts, hne, hnd, h1 with
      | [a], _, _, h1 => exact absurd rfl h1
      | a :: c :: rest, _, hnd, _ =>
        intro h0
        have ha : a ∉ (a :: c :: rest).filter (fun s => decide (s.field ≠ field)) := by
          rw [h0]; exact List.not_mem_nil _
        have hc : c ∉ (a :: c :: rest).filter (fun s => decide (s.field ≠ field)) := by
          rw [h0]; exact List.not_mem_nil _
        simp only [List.mem_filter, List.mem_cons, true_or, or_true, true_and,
          decide_eq_true_eq, ne_eq, not_not] at ha hc
        simp only [List.map_cons, List.nodup_cons, List.mem_cons, not_or] at hnd
        exact hnd.1.1 (ha.trans hc.symm)
    · exact List.Nodup.sublist (List.Sublist.map _ (List.filter_sublist _)) hnd

/-- C17. Starting from the initial `activeSorts`, after any sequence of calls
of `handleAddSort` and `handleRemoveSort` the list is not empty and its fields
are pairwise distinct; removing the only remaining sort yields the default
`[{field: last_reply, direction: desc}]`. -/
theorem sort_state_never_empty (actions : List SortAction) :
    actions.foldl applySortAction defaultSorts ≠ [] ∧
    ((actions.foldl applySortAction defaultSorts).map (fun s => s.field)).Nodup ∧
    (∀ entry : SortEntry, handleRemoveSort [entry] entry.field = defaultSorts) ∧
    defaultSorts = [{ field := "last_reply", direction := "desc" }] := by
  have hinv : ∀ (acts : List SortAction) (start : List SortEntry), sortsInvariant start →
      sortsInvariant (acts.foldl applySortAction start) := by
    intro acts
    induction acts with
    | nil => intro start h; exact h
    | cons a rest ih =>
      intro start h
      rw [List.foldl_cons]
      apply ih
      cases a with
      | add field direction => exact sortsInvariant_add start field direction h
      | remove field => exact sortsInvariant_remove start field h
  obtain ⟨h1, h2⟩ := hinv actions defaultSorts sortsInvariant_default
  exact ⟨h1, h2, fun entry => rfl, rfl⟩

theorem mem_setOf (l : List String) (x : String) : x ∈ setOf l ↔ x ∈ l := by
  induction l with
  | nil => simp [setOf]
  | cons y ys ih =>
    simp only [setOf, List.mem_cons, List.mem_filter, decide_eq_true_eq, ih]
    constructor
    · rintro (h | ⟨h, _⟩)
      · exact Or.inl h
      · exact Or.inr h
    · rintro (h | h)
      · exact Or.inl h
      · by_cases hxy : x = y
        · exact Or.inl hxy
        · exact Or.inr ⟨h, hxy⟩

theorem nodup_setOf (l : List String) : (setOf l).Nodup := by
  induction l with
  | nil => simp [setOf]
  | cons y ys ih =>
    simp only [setOf, List.nodup_cons, List.mem_filter, decide_eq_true_eq, ne_eq,
      not_true_eq_false, and_false, not_false_eq_true, true_and]
    exact List.Nodup.sublist (List.filter_sublist _) ih

theorem lookup_setEntry_self (prev : List (String × List String)) (category : String)
    (values : List String) : (setEntry prev category values).lookup category = some values := by
  induction prev with
  | nil => simp [setEntry, List.lookup]
  | cons e rest ih =>
    obtain ⟨k, v⟩ := e
    by_cases hk : k = category
    · simp [setEntry, hk, List.lookup]
    · have hbeq : (category == k) = false := by
        simp only [beq_eq_false_iff_ne, ne_eq]
        exact fun h => hk h.symm
      simp only [setEntry, hk, if_false, List.lookup, hbeq, ih]

theorem lookup_setEntry_other (prev : List (String × List String)) (category other : String)
    (values : List String) (h : other ≠ category) :
    (setEntry prev category values).lookup other = prev.lookup other := by
  induction prev with
  | nil =>
    have hbeq : (other == category) = false := by simpa using h
    simp [setEntry, List.lookup, hbeq]
  | cons e rest ih =>
    obtain ⟨k, v⟩ := e
    by_cases hk : k = category
    · have hbeq : (other == k) = false := by
        rw [hk]; simpa using h
      simp [setEntry, hk, List.lookup, hbeq]
      rw [← hk, hbeq]
    · by_cases hok : other = k
      · simp [setEntry, hk, List.lookup, hok]
      · have hbeq : (other == k) = false := by simpa using hok
        simp only [setEntry, hk, if_false, List.lookup, hbeq, ih]

theorem filterOptions_values_nonempty :
    ∀ entry ∈ filterOptions, entry.1 ≠ "" ∧ "" ∉ entry.2 := by
  decide

theorem mem_of_lookup (l : List (String × List String)) (k : String) (v : List String)
    (h : l.lookup k = some v) : (k, v) ∈ l := by
  induction l with
  | nil => simp [List.lookup] at h
  | cons e rest ih =>
    obtain ⟨k2, v2⟩ := e
    by_cases hk : k = k2
    · subst hk
      simp [List.lookup] at h
      subst h
      exact List.mem_cons_self _ _
    · have hbeq : (k == k2) = false := by simpa using hk
      simp only [List.lookup, hbeq] at h
      exact List.mem_cons_of_mem _ (ih h)

/-- C18. The call `handleAddFilter(category, value)` leaves `activeFilters`
unchanged when `category` is not a key of `filterOptions`, when `value` is
empty, or when `value` is not an option of the category. For a valid pair the
list of the category becomes the former list with `value` added, without
duplicates, and the list of every other category is unchanged. -/
theorem add_filter_validation (prev : List (String × List String)) (category value : String) :
    ((filterOptions.lookup category = none ∨ value = "" ∨
        (∀ options, filterOptions.lookup category = some options → value ∉ options)) →
      filtersAfterAdd prev category value = prev) ∧
    (∀ options, filterOptions.lookup category = some options → value ∈ options →
      (∃ values, (filtersAfterAdd prev category value).lookup category = some values ∧
        values.Nodup ∧
        (∀ x, x ∈ values ↔ x = value ∨ ∃ old, prev.lookup category = some old ∧ x ∈ old)) ∧
      (∀ other, other ≠ category →
        (filtersAfterAdd prev category value).lookup other = prev.lookup other)) := by
  constructor
  · intro h
    unfold filtersAfterAdd handleAddFilter
    by_cases h0 : category = "" ∨ value = ""
    · simp only [h0, if_true]
      rfl
    · simp only [h0, if_false]
      cases hl : filterOptions.lookup category with
      | none =>
        simp only []
        split_ifs <;> rfl
      | some options =>
        rcases h with h | h | h
        · rw [hl] at h; cases h
        · exact absurd (Or.inr h) h0
        · have hv : options.any (fun opt => decide (opt = value)) = false := by
            cases hany : options.any (fun opt => decide (opt = value)) with
            | false => rfl
            | true =>
              obtain ⟨opt, hopt, heq⟩ := List.any_eq_true.mp hany
              simp only [decide_eq_true_eq] at heq
              subst heq
              exact absurd hopt (h options hl)
          simp only [hv]
          rfl
  · intro options hl hv
    have hmem := filterOptions_values_nonempty (category, options)
      (mem_of_lookup filterOptions category options hl)
    have hc : category ≠ "" := hmem.1
    have hval : value ≠ "" := fun h => hmem.2 (h ▸ hv)
    have hany : options.any (fun opt => decide (opt = value)) = true :=
      List.any_eq_true.mpr ⟨value, hv, by simp⟩
    have hnext : filtersAfterAdd prev category value
        = setEntry prev category (setOf ((match prev.lookup category with
            | some values => values
            | none => []) ++ [value])) := by
      unfold filtersAfterAdd handleAddFilter
      have h0 : ¬ (category = "" ∨ value = "") := fun h => h.elim hc hval
      simp only [h0, if_false, hl, hany]
      rfl
    rw [hnext]
    refine ⟨⟨_, lookup_setEntry_self _ _ _, nodup_setOf _, ?_⟩, ?_⟩
    · intro x
      rw [mem_setOf, List.mem_append, List.mem_singleton]
      cases prev.lookup category with
      | none => simp
      | some old => simp [or_comm]
    · intro other hother
      exact lookup_setEntry_other _ _ _ _ hother

theorem add_filter_validation_witness :
    filtersAfterAdd [("intent", ["high"])] "intent" "low" = [("intent", ["high", "low"])] ∧
    filtersAfterAdd [("intent", ["high"])] "intent" "high" = [("intent", ["high"])] ∧
    filtersAfterAdd [("intent", ["high"])] "intent" "huge" = [("intent", ["high"])] ∧
    filtersAfterAdd [("intent", ["high"])] "stage" "high" = [("intent", ["high"])] := by
  refine ⟨by decide, by decide, ?_, ?_⟩
  · exact (add_filter_validation [("intent", ["high"])] "intent" "huge").1
      (Or.inr (Or.inr (by decide)))
  · exact (add_filter_validation [("intent", ["high"])] "stage" "high").1 (Or.inl (by decide))

/-! ## The end-to-end scenario (C11) -/

theorem contentOf_stringOrFalsy (raw : JSON) (h : stringOrFalsy (field raw "email_body") = true) :
    contentOf (field raw "email_body") = .ok (rawContent raw) := by
  unfold contentOf rawContent
  cases hf : field raw "email_body" with
  | none => rfl
  | some v =>
    rw [hf] at h
    cases v with
    | str s =>
      by_cases hs : s = ""
      · simp only [orElse, truthy, hs, ne_eq, not_true_eq_false, decide_False,
          Bool.false_eq_true, if_false]
        rfl
      · simp only [orElse, truthy, hs, ne_eq, not_false_eq_true, decide_True, if_true]
        rfl
    | null => rfl
    | bool bv =>
      cases bv
      · rfl
      · simp [stringOrFalsy, truthy] at h
    | num q =>
      simp only [stringOrFalsy, truthy, Bool.not_eq_true', decide_eq_false_iff_not, ne_eq,
        not_not] at h
      simp [orElse, truthy, h]
      rfl
    | arr xs => simp [stringOrFalsy, truthy] at h
    | obj kvs => simp [stringOrFalsy, truthy] at h

theorem parseMessage_total (b : Builtins) (nowISO : String) (prev : Option JSON) (raw : JSON)
    (hn : raw ≠ .null) (h : stringOrFalsy (field raw "email_body") = true) :
    ∃ m, parseMessage b nowISO prev raw = .ok m ∧ m.content = rawContent raw ∧
      m.subject = orElse (field raw "subject") (.str "") := by
  unfold parseMessage
  simp only [responseTimeOf_ok b prev raw hn, getProp_ok raw _ hn, bind, Except.bind,
    contentOf_stringOrFalsy raw h, pure, Except.pure]
  exact ⟨_, rfl, rfl, rfl⟩

theorem subject_is_string (raw : JSON) (h : stringOrFalsy (field raw "subject") = true) :
    ∃ s, orElse (field raw "subject") (.str "") = .str s := by
  unfold orElse
  cases hf : field raw "subject" with
  | none => exact ⟨"", rfl⟩
  | some v =>
    rw [hf] at h
    cases v with
    | str s =>
      by_cases hs : truthy (JSON.str s) = true
      · exact ⟨s, by simp [hs]⟩
      · exact ⟨"", by simp [hs]⟩
    | null => exact ⟨"", by simp [truthy]⟩
    | bool bv => cases bv <;> simp_all [stringOrFalsy, truthy]
    | num q =>
      simp only [stringOrFalsy, Bool.not_eq_true'] at h
      exact ⟨"", by simp [h]⟩
    | arr xs => simp [stringOrFalsy, truthy] at h
    | obj kvs => simp [stringOrFalsy, truthy] at h

theorem findMessageWithSubject_total (conv : List Message)
    (h : ∀ m ∈ conv, ∃ s, m.subject = .str s) :
    ∃ r, findMessageWithSubject conv = .ok r := by
  induction conv with
  | nil => exact ⟨none, rfl⟩
  | cons m ms ih =>
    obtain ⟨s, hs⟩ := h m (List.mem_cons_self _ _)
    obtain ⟨r, hr⟩ := ih (fun x hx => h x (List.mem_cons_of_mem _ hx))
    unfold findMessageWithSubject
    rw [hs]
    simp only []
    split_ifs
    · exact ⟨_, rfl⟩
    · exact ⟨r, hr⟩

theorem ne_null_of_field (raw : JSON) (k : String) (v : JSON) (h : field raw k = some v) :
    raw ≠ .null := by
  intro h0
  rw [h0] at h
  simp [field] at h

/-- The conversation parsed from the blob of the scenario. -/
theorem scenario_conversation (b : Builtins) (nowISO : String) (lead : RawLead) (body : String)
    (m0 m1 : JSON) (t0 : ℤ) (hbody : lead.email_message_body = some body) (hne : body ≠ "")
    (hparse : b.jsonParse body = some (.arr [m0, m1])) (hmsgs : sentThenReply b t0 m0 m1) :
    ∃ a c, (transformLead b nowISO lead).conversation = [a, c] ∧
      a.type = .str "SENT" ∧ c.type = .str "REPLY" ∧
      a.content = rawContent m0 ∧ c.content = rawContent m1 ∧
      a.response_time = none ∧ c.response_time = some (JSNum.fin 2) ∧
      b.dateOf c.time = some (t0 + 2 * 3600000) := by
  obtain ⟨hty0, hty1, hti0, hti1, hd0, hd1, hb0, hb1, hs0, hs1⟩ := hmsgs
  have hn0 := ne_null_of_field m0 _ _ hty0
  have hn1 := ne_null_of_field m1 _ _ hty1
  obtain ⟨a, ha, hac, has⟩ := parseMessage_total b nowISO none m0 hn0 hb0
  obtain ⟨c, hc, hcc, hcs⟩ := parseMessage_total b nowISO (some m0) m1 hn1 hb1
  obtain ⟨hat, _, har⟩ := parseMessage_ok b nowISO none m0 a ha
  obtain ⟨hct, hctime, hcr⟩ := parseMessage_ok b nowISO (some m0) m1 c hc
  have hpm : parseMessages b nowISO none [m0, m1] = .ok [a, c] := by
    simp only [parseMessages, bind, Except.bind, ha, hc, pure, Except.pure]
  obtain ⟨sa, hsa⟩ := subject_is_string m0 hs0
  obtain ⟨sc, hsc⟩ := subject_is_string m1 hs1
  obtain ⟨r, hr⟩ := findMessageWithSubject_total [a, c] (by
    intro m hm
    simp only [List.mem_cons, List.mem_singleton, List.not_mem_nil, or_false] at hm
    rcases hm with hm | hm
    · exact ⟨sa, by rw [hm, has, hsa]⟩
    · exact ⟨sc, by rw [hm, hcs, hsc]⟩)
  have hst : statsIdStep [m0, m1] = .ok () := by
    simp only [statsIdStep, getProp_ok m0 _ hn0, bind, Except.bind, pure, Except.pure]
  have htry : tryParse b nowISO body = .ok ([a, c], r) := by
    unfold tryParse
    simp only [hparse, bind, Except.bind, hst, hpm, hr, pure, Except.pure]
  have hconv : (transformLead b nowISO lead).conversation = [a, c] := by
    show (parseConversation b nowISO lead).1 = [a, c]
    unfold parseConversation
    rw [hbody]
    simp only [hne, if_false, htry]
    cases r <;> rfl
  have hr0 : rawHasType (some m0) "SENT" = true := by
    simp [rawHasType, hty0, strictEqStr]
  have hr1 : rawHasType (some m1) "REPLY" = true := by
    simp [rawHasType, hty1, strictEqStr]
  refine ⟨a, c, hconv, ?_, ?_, hac, hcc, ?_, ?_, ?_⟩
  · rw [hat, hty0]; rfl
  · rw [hct, hty1]; rfl
  · rw [har]; simp [rawHasType]
  · rw [hcr, hr0, hr1, hd0, hd1]
    simp only [Bool.and_self, if_true, hoursBetween]
    congr 2
    push_cast
    ring
  · rw [hctime, dateOf_time_of_raw b nowISO m1 hti1, hd1]

/-- C11. For a raw blob of one SENT message at time `t0` followed by one
REPLY two hours later, whose combined lowercased bodies contain `interested`
and none of the other intent keywords, the assembled lead has a conversation
of length 2, average response time 2, engagement score 90 and intent 4, and
its urgency is `needs-response` while the reply is less than 2 days old and
`urgent-response` afterwards. -/
theorem end_to_end_scenario (b : Builtins) (nowISO : String) (lead : RawLead) (body : String)
    (m0 m1 : JSON) (t0 : ℤ) (hbody : lead.email_message_body = some body) (hne : body ≠ "")
    (hparse : b.jsonParse body = some (.arr [m0, m1])) (hmsgs : sentThenReply b t0 m0 m1)
    (htext : onlyInterested
      (joinWith " " [b.toLowerCase (rawContent m0), b.toLowerCase (rawContent m1)])) :
    (transformLead b nowISO lead).conversation.length = 2 ∧
    (transformLead b nowISO lead).response_time_avg = JSNum.fin 2 ∧
    (transformLead b nowISO lead).engagement_score = 90 ∧
    (transformLead b nowISO lead).intent = 4 ∧
    ∀ now : ℤ, getResponseUrgency b now (transformLead b nowISO lead) =
      if now - (t0 + 2 * 3600000) < 2 * 86400000 then "needs-response"
      else "urgent-response" := by
  obtain ⟨a, c, hconv, hat, hct, hac, hcc, har, hcr, hdate⟩ :=
    scenario_conversation b nowISO lead body m0 m1 t0 hbody hne hparse hmsgs
  obtain ⟨hint, hnone⟩ := htext
  have hscores := transformLead_scores b nowISO lead
  have hsent : countType "SENT" [a, c] = 1 := by
    simp [countType, hat, hct, strictEqStr]
  have hreply : countType "REPLY" [a, c] = 1 := by
    simp [countType, hat, hct, strictEqStr]
  have hmean : meanResponseTime [a, c] = JSNum.fin 2 := by
    simp [meanResponseTime, har, hcr, JSNum.sum, JSNum.add, JSNum.divNat]
  have hintent : intentScore b [a, c] = 4 := by
    unfold intentScore
    simp only [length_repliesOf, hreply, allText, List.map_cons, List.map_nil, hac, hcc]
    have hk : (positiveKeywords.filter (fun keyword =>
        includes (joinWith " " [b.toLowerCase (rawContent m0), b.toLowerCase (rawContent m1)])
          keyword)).length = 1 := by
      simp [positiveKeywords, List.filter_cons, hint, hnone]
    rw [hk]
    simp [hnone]
  refine ⟨by rw [hconv]; rfl, ?_, ?_, ?_, ?_⟩
  · rw [hscores.2.2, hconv, avgResponseTime_eq_mean, hmean]
  · rw [hscores.1, hconv, engagementScore_unfold _ (by rw [hsent]; decide), hsent, hreply, hmean]
    have hb : speedBonus (JSNum.fin 2) = 30 := by
      simp [speedBonus, JSNum.lt]; norm_num
    rw [hb]
    have e : min (100 : ℚ) (min (60 * ((1 : ℕ) : ℚ) / ((1 : ℕ) : ℚ)) 60 + 30)
        = ((90 : ℕ) : ℚ) := by norm_num
    rw [e, mathRound_natCast]
    rfl
  · rw [hscores.2.1, hconv, hintent]
  · intro now
    rw [getResponseUrgency_eq_rule]
    unfold urgencyRule
    have hi : (transformLead b nowISO lead).intent = 4 := by
      rw [hscores.2.1, hconv, hintent]
    have hlast : (transformLead b nowISO lead).conversation.getLast? = some c := by
      rw [hconv]; rfl
    simp only [hlast, hi, hct, strictEqStr, le_refl, decide_True, and_self, if_true,
      elapsedAtLeast, hdate]
    by_cases h2 : now - (t0 + 2 * 3600000) < 2 * 86400000
    · have h3 : ¬ ((2 : ℤ) * 86400000 ≤ now - (t0 + 2 * 3600000)) := by omega
      rw [if_pos h2]
      simp only [h3, decide_False, Bool.false_eq_true, if_false]
    · have h3 : (2 : ℤ) * 86400000 ≤ now - (t0 + 2 * 3600000) := by omega
      rw [if_neg h2]
      simp only [h3, decide_True, if_true]

theorem end_to_end_scenario_witness :
    (transformLead exampleBuiltins exampleNow (exampleLead (some blobSentReply))).engagement_score
      = 90 ∧
    (transformLead exampleBuiltins exampleNow (exampleLead (some blobSentReply))).intent = 4 ∧
    getResponseUrgency exampleBuiltins (7201000 + 86400000)
      (transformLead exampleBuiltins exampleNow (exampleLead (some blobSentReply)))
      = "needs-response" := by
  have hmsgs : sentThenReply exampleBuiltins 1000
      (.obj [("type", .str "SENT"), ("time", .num 1000)])
      (.obj [("type", .str "REPLY"), ("time", .num 7201000),
        ("email_body", .str "I am interested")]) := by
    refine ⟨rfl, rfl, by decide, by decide, by decide, by decide, rfl, rfl, rfl, rfl⟩
  have htext : onlyInterested (joinWith " "
      [exampleBuiltins.toLowerCase (rawContent (.obj [("type", .str "SENT"), ("time", .num 1000)])),
       exampleBuiltins.toLowerCase (rawContent (.obj [("type", .str "REPLY"),
         ("time", .num 7201000), ("email_body", .str "I am interested")]))]) := by
    refine ⟨by decide, by decide⟩
  have h := end_to_end_scenario exampleBuiltins exampleNow (exampleLead (some blobSentReply))
    blobSentReply _ _ 1000 rfl (by decide) rfl hmsgs htext
  refine ⟨h.2.2.1, h.2.2.2.1, ?_⟩
  rw [h.2.2.2.2]
  decide

/-! ## The snapshot of the analytics aggregator and its heatmap (C20) -/

theorem indicator_sum_range (n x : ℕ) :
    ((List.range n).map (fun i => if x = i then (1 : ℕ) else 0)).sum = if x < n then 1 else 0 := by
  induction n with
  | zero => simp
  | succ n ih =>
    rw [List.range_succ, List.map_append, List.sum_append, ih]
    simp only [List.map_cons, List.map_nil, List.sum_cons, List.sum_nil, add_zero]
    by_cases h1 : x < n
    · have h2 : x ≠ n := by omega
      have h3 : x < n + 1 := by omega
      simp [h1, h2, h3]
    · by_cases h2 : x = n
      · simp [h2]
      · have h3 : ¬ x < n + 1 := by omega
        simp [h1, h2, h3]

theorem heatmap_indicator_sum (rm : ReplyMessage) :
    ((List.range 7).map (fun day => ((List.range 24).map (fun hour =>
      if (decide (rm.dayOfWeek = some day) && decide (rm.hour = some hour)) = true
      then (1 : ℕ) else 0)).sum)).sum = if inGrid rm = true then 1 else 0 := by
  unfold inGrid
  cases hd : rm.dayOfWeek with
  | none => simp
  | some d =>
    cases hh : rm.hour with
    | none => simp
    | some h =>
      have hinner : ∀ day, ((List.range 24).map (fun hour =>
          if (decide (some d = some day) && decide (some h = some hour)) = true
          then (1 : ℕ) else 0)).sum = if d = day then (if h < 24 then 1 else 0) else 0 := by
        intro day
        by_cases hdd : d = day
        · simp only [hdd, decide_True, Bool.true_and, Option.some.injEq, decide_eq_true_eq,
            if_true]
          exact indicator_sum_range 24 h
        · simp [hdd]
      simp only [hinner]
      by_cases h24 : h < 24
      · simp only [h24, if_true, decide_True, Bool.and_true, decide_eq_true_eq]
        exact indicator_sum_range 7 d
      · simp [h24]

theorem grid_count_sum (ds hs : List ℕ) (rms : List ReplyMessage) (name : ℕ → String) :
    (((ds.map (fun day => hs.map (fun hour =>
      ({ day := day
         hour := hour
         count := (rms.filter (fun msg =>
           decide (msg.dayOfWeek = some day) && decide (msg.hour = some hour))).length
         dayName := name day } : HeatmapCell)))).flatten).map (fun cell => cell.count)).sum
      = (ds.map (fun day => (hs.map (fun hour =>
          rms.countP (fun msg =>
            decide (msg.dayOfWeek = some day) && decide (msg.hour = some hour)))).sum)).sum := by
  induction ds with
  | nil => rfl
  | cons d rest ih =>
    simp only [List.map_cons, List.flatten_cons, List.map_append, List.sum_append, List.sum_cons,
      ih, List.map_map, List.countP_eq_length_filter]
    rfl

theorem grid_length (ds hs : List ℕ) (cell : ℕ → ℕ → HeatmapCell) :
    ((ds.map (fun day => hs.map (fun hour => cell day hour))).flatten).length
      = ds.length * hs.length := by
  induction ds with
  | nil => simp
  | cons d rest ih =>
    simp only [List.map_cons, List.flatten_cons, List.length_append, List.length_map, ih,
      List.length_cons]
    ring

theorem heatmap_count_sum (rms : List ReplyMessage) :
    ((heatmapDataOf rms).map (fun cell => cell.count)).sum = rms.countP inGrid := by
  unfold heatmapDataOf
  rw [grid_count_sum (List.range 7) (List.range 24) rms (fun day => dayNames.getD day "")]
  induction rms with
  | nil => simp
  | cons rm rest ih =>
    simp only [List.countP_cons, List.sum_map_add, ih, heatmap_indicator_sum]

theorem heatmap_length (rms : List ReplyMessage) : (heatmapDataOf rms).length = 168 := by
  unfold heatmapDataOf
  rw [grid_length (List.range 7) (List.range 24), List.length_range, List.length_range]

theorem filteredLeads_eq (b : Builtins) (now : ℤ) (daysBack : ℕ) (leads : List Lead) :
    filteredLeads b now daysBack leads = leads.filter (createdInWindow b now daysBack) := by
  unfold filteredLeads
  apply List.filter_congr
  intro lead _
  unfold createdInWindow
  cases newDate b lead.created_at <;> simp

theorem foldl_replies_eq_sum (fl : List Lead) :
    ∀ start : ℕ, fl.foldl (fun sum lead =>
      sum + (lead.conversation.filter (fun msg => strictEqStr msg.type "REPLY")).length) start
      = start + (fl.map (fun lead => countType "REPLY" lead.conversation)).sum := by
  induction fl with
  | nil => intro start; simp
  | cons lead rest ih =>
    intro start
    rw [List.foldl_cons, ih]
    simp only [List.map_cons, List.sum_cons, countType, List.countP_eq_length_filter]
    omega

theorem getHours_lt (b : Builtins) (t : ℤ) : getHours b t < 24 := by
  unfold getHours
  have h1 := Int.emod_nonneg (localTime b t / 3600000) (by norm_num : (24 : ℤ) ≠ 0)
  have h2 := Int.emod_lt_of_pos (localTime b t / 3600000) (by norm_num : (0 : ℤ) < 24)
  omega

theorem getDay_lt (b : Builtins) (t : ℤ) : getDay b t < 7 := by
  unfold getDay
  have h1 := Int.emod_nonneg (localTime b t / 86400000 + 4) (by norm_num : (7 : ℤ) ≠ 0)
  have h2 := Int.emod_lt_of_pos (localTime b t / 86400000 + 4) (by norm_num : (0 : ℤ) < 7)
  omega

theorem countP_inGrid_replyMessages (b : Builtins) (fl : List Lead) :
    (replyMessagesOf b fl).countP inGrid
      = (fl.map (fun lead => datedReplies b lead.conversation)).sum := by
  unfold replyMessagesOf
  induction fl with
  | nil => rfl
  | cons lead rest ih =>
    rw [List.flatMap_cons, List.countP_append, ih, List.map_cons, List.sum_cons]
    congr 1
    unfold datedReplies
    rw [List.countP_map, List.countP_filter]
    apply List.countP_congr
    intro m _
    simp only [Function.comp, inGrid, Bool.and_eq_true]
    cases hd : b.dateOf m.time with
    | none => simp
    | some t =>
      simp [getHours_lt, getDay_lt]

theorem mem_replyMessagesOf (b : Builtins) (fl : List Lead) (rm : ReplyMessage)
    (h : rm ∈ replyMessagesOf b fl) :
    ∃ lead ∈ fl, rm.msg ∈ lead.conversation ∧ strictEqStr rm.msg.type "REPLY" = true := by
  unfold replyMessagesOf at h
  obtain ⟨lead, hlead, hrm⟩ := List.mem_flatMap.mp h
  obtain ⟨m, hm, hrm2⟩ := List.mem_map.mp hrm
  rw [List.mem_filter] at hm
  rw [← hrm2]
  exact ⟨lead, hlead, hm.1, hm.2⟩

/-- The snapshot computed on a non-empty collection of well typed leads. -/
theorem analyticsData_ok (b : Builtins) (now : ℤ) (daysBack : ℕ) (leads : List Lead)
    (hne : leads ≠ []) (htyped : ∀ lead ∈ leads, wellTypedLead b lead = true) :
    analyticsData b now daysBack leads = .ok (some
      { totalLeads := (filteredLeads b now daysBack leads).length
        leadsWithMultipleReplies := ((filteredLeads b now daysBack leads).filter (fun lead =>
          decide ((lead.conversation.filter
            (fun msg => strictEqStr msg.type "REPLY")).length ≥ 2))).length
        totalReplies := (filteredLeads b now daysBack leads).foldl (fun sum lead =>
          sum + (lead.conversation.filter (fun msg => strictEqStr msg.type "REPLY")).length) 0
        campaignStats := (campaignStatsOf b (filteredLeads b now daysBack leads)).take 10
        categoryStats := categoryStatsOf b (filteredLeads b now daysBack leads)
        heatmapData := heatmapDataOf (replyMessagesOf b (filteredLeads b now daysBack leads))
        dateRange := daysBack }) := by
  have hlen : ¬ leads.length = 0 := by
    intro h
    exact hne (List.length_eq_zero.mp h)
  have hsub : ∀ lead ∈ filteredLeads b now daysBack leads, wellTypedLead b lead = true := by
    intro lead hl
    unfold filteredLeads at hl
    exact htyped lead (List.mem_filter.mp hl).1
  have hcamp : campaignStep b (filteredLeads b now daysBack leads) = .ok () := by
    unfold campaignStep
    have : (filteredLeads b now daysBack leads).any
        (fun lead => decide (campaignKey b lead ∈ objectPrototypeKeys)) = false := by
      rw [List.any_eq_false]
      intro lead hl
      have h := hsub lead hl
      unfold wellTypedLead at h
      simp only [Bool.and_eq_true, Bool.not_eq_true'] at h
      simp only [h.1.1, Bool.false_eq_true, not_false_eq_true]
    rw [this]
    rfl
  have hcat : categoryStep (filteredLeads b now daysBack leads) = .ok () := by
    unfold categoryStep
    have : (filteredLeads b now daysBack leads).any (fun lead =>
        match categoryKey lead with
        | some k => decide (k ∈ objectPrototypeKeys)
        | none => false) = false := by
      rw [List.any_eq_false]
      intro lead hl
      have h := hsub lead hl
      unfold wellTypedLead at h
      simp only [Bool.and_eq_true] at h
      have h2 := h.1.2
      cases hk : categoryKey lead with
      | none => simp
      | some k =>
        rw [hk] at h2
        simp only [Bool.not_eq_true'] at h2
        simp only [h2, Bool.false_eq_true, not_false_eq_true]
    rw [this]
    rfl
  have htrend : trendsStep daysBack (replyMessagesOf b (filteredLeads b now daysBack leads))
      = .ok () := by
    unfold trendsStep
    have : (replyMessagesOf b (filteredLeads b now daysBack leads)).any (fun rm =>
        match rm.msg.time with
        | .str _ => false
        | _ => true) = false := by
      rw [List.any_eq_false]
      intro rm hrm
      obtain ⟨lead, hl, hmem, hreply⟩ := mem_replyMessagesOf b _ rm hrm
      have h := hsub lead hl
      unfold wellTypedLead at h
      simp only [Bool.and_eq_true, List.all_eq_true, Bool.or_eq_true, Bool.not_eq_true'] at h
      rcases h.2 rm.msg hmem with h3 | h3
      · rw [hreply] at h3; cases h3
      · cases ht : rm.msg.time <;> simp_all [isString]
    rw [this]
    simp
    rfl
  unfold analyticsData
  simp only [hlen, if_false, bind, Except.bind, hcamp, hcat, htrend, pure, Except.pure]

theorem grid_cells_map (rms : List ReplyMessage) (ds hs : List ℕ) :
    ((ds.map (fun day => hs.map (fun hour =>
      ({ day := day
         hour := hour
         count := (rms.filter (fun msg =>
           decide (msg.dayOfWeek = some day) && decide (msg.hour = some hour))).length
         dayName := dayNames.getD day "" } : HeatmapCell)))).flatten).map
        (fun cell => (cell.day, cell.hour))
      = (ds.map (fun day => hs.map (fun hour => (day, hour)))).flatten := by
  induction ds with
  | nil => rfl
  | cons d rest ih =>
    rw [List.map_cons, List.flatten_cons, List.map_append, ih, List.map_cons, List.flatten_cons,
      List.map_map]
    rfl

theorem heatmap_grid_cells (rms : List ReplyMessage) :
    (heatmapDataOf rms).map (fun cell => (cell.day, cell.hour)) = gridCells :=
  grid_cells_map rms (List.range 7) (List.range 24)

theorem mem_filteredLeads (b : Builtins) (now : ℤ) (d : ℕ) (leads : List Lead) (lead : Lead) :
    lead ∈ filteredLeads b now d leads ↔ lead ∈ leads ∧ createdInWindow b now d lead = true := by
  rw [filteredLeads_eq, List.mem_filter]

theorem exampleWindowLeads_typed :
    ∀ lead ∈ exampleWindowLeads, wellTypedLead exampleBuiltins lead = true := by
  decide

/-- The numbers of the window examples: of the two leads, one is in the window
of 30 days and both are in the window of 90 days. -/
theorem exampleWindowLeads_counts :
    exampleWindowLeads.countP (createdInWindow exampleBuiltins 1714564800000 30) = 1 ∧
    exampleWindowLeads.countP (createdInWindow exampleBuiltins 1714564800000 90) = 2 := by
  decide

theorem datedReplies_le (b : Builtins) (conversation : List Message) :
    datedReplies b conversation ≤ countType "REPLY" conversation := by
  unfold datedReplies countType
  apply List.countP_mono_left
  intro m _ h
  rw [Bool.and_eq_true] at h
  exact h.1

theorem datedReplies_eq (b : Builtins) (conversation : List Message)
    (h : ∀ m ∈ conversation, strictEqStr m.type "REPLY" = true → (b.dateOf m.time).isSome = true) :
    datedReplies b conversation = countType "REPLY" conversation := by
  unfold datedReplies countType
  apply List.countP_congr
  intro m hm
  constructor
  · intro h1
    rw [Bool.and_eq_true] at h1
    exact h1.1
  · intro h1
    rw [Bool.and_eq_true]
    exact ⟨h1, h m hm h1⟩

theorem sum_map_le (fl : List Lead) (f g : Lead → ℕ) (h : ∀ lead ∈ fl, f lead ≤ g lead) :
    (fl.map f).sum ≤ (fl.map g).sum := by
  induction fl with
  | nil => simp
  | cons lead rest ih =>
    rw [List.map_cons, List.map_cons, List.sum_cons, List.sum_cons]
    have h1 := h lead (List.mem_cons_self _ _)
    have h2 := ih (fun l hl => h l (List.mem_cons_of_mem _ hl))
    omega

theorem sum_map_eq (fl : List Lead) (f g : Lead → ℕ) (h : ∀ lead ∈ fl, f lead = g lead) :
    (fl.map f).sum = (fl.map g).sum := by
  rw [List.map_congr_left h]

/-- C20 (amended). On a non-empty collection of leads on which the aggregator
does not throw, `heatmapData` has exactly 168 cells, one for each of the 7 days
of the week and each of the 24 hours; `totalReplies` is the number of REPLY
messages of the leads in the window; the sum of the counts of the cells is the
number of those REPLY messages whose time is a valid date, hence at most
`totalReplies`, and equal to it when the time of every such message is a valid
date. -/
theorem heatmap_cells (b : Builtins) (now : ℤ) (d : ℕ) (leads : List Lead)
    (hne : leads ≠ []) (htyped : ∀ lead ∈ leads, wellTypedLead b lead = true) :
    ∃ a, analyticsData b now d leads = .ok (some a) ∧
      a.heatmapData.length = 168 ∧
      a.heatmapData.map (fun cell => (cell.day, cell.hour)) = gridCells ∧
      a.totalReplies = ((filteredLeads b now d leads).map
        (fun lead => countType "REPLY" lead.conversation)).sum ∧
      (a.heatmapData.map (fun cell => cell.count)).sum = ((filteredLeads b now d leads).map
        (fun lead => datedReplies b lead.conversation)).sum ∧
      (a.heatmapData.map (fun cell => cell.count)).sum ≤ a.totalReplies ∧
      ((∀ lead ∈ filteredLeads b now d leads, ∀ m ∈ lead.conversation,
          strictEqStr m.type "REPLY" = true → (b.dateOf m.time).isSome = true) →
        (a.heatmapData.map (fun cell => cell.count)).sum = a.totalReplies) := by
  have hsum : ((heatmapDataOf (replyMessagesOf b (filteredLeads b now d leads))).map
      (fun cell => cell.count)).sum
      = ((filteredLeads b now d leads).map (fun lead => datedReplies b lead.conversation)).sum := by
    rw [heatmap_count_sum, countP_inGrid_replyMessages]
  have htotal : (filteredLeads b now d leads).foldl (fun sum lead =>
      sum + (lead.conversation.filter (fun msg => strictEqStr msg.type "REPLY")).length) 0
      = ((filteredLeads b now d leads).map
        (fun lead => countType "REPLY" lead.conversation)).sum := by
    rw [foldl_replies_eq_sum, zero_add]
  refine ⟨_, analyticsData_ok b now d leads hne htyped, ?_, ?_, htotal, hsum, ?_, ?_⟩
  · exact heatmap_length _
  · exact heatmap_grid_cells _
  · show ((heatmapDataOf (replyMessagesOf b (filteredLeads b now d leads))).map
      (fun cell => cell.count)).sum ≤ (filteredLeads b now d leads).foldl _ 0
    rw [hsum, htotal]
    exact sum_map_le _ _ _ (fun lead _ => datedReplies_le b lead.conversation)
  · intro hdated
    show ((heatmapDataOf (replyMessagesOf b (filteredLeads b now d leads))).map
      (fun cell => cell.count)).sum = (filteredLeads b now d leads).foldl _ 0
    rw [hsum, htotal]
    exact sum_map_eq _ _ _ (fun lead hl => datedReplies_eq b lead.conversation (hdated lead hl))

theorem heatmap_cells_witness :
    exampleWindowLeads ≠ [] ∧
    (∀ lead ∈ exampleWindowLeads, wellTypedLead exampleBuiltins lead = true) ∧
    ((exampleWindowLeads.map (fun lead => countType "REPLY" lead.conversation)).sum = 1) ∧
    ∃ a, analyticsData exampleBuiltins 1714564800000 90 exampleWindowLeads = .ok (some a) ∧
      a.heatmapData.length = 168 ∧
      a.heatmapData.map (fun cell => (cell.day, cell.hour)) = gridCells ∧
      a.totalReplies = ((filteredLeads exampleBuiltins 1714564800000 90 exampleWindowLeads).map
        (fun lead => countType "REPLY" lead.conversation)).sum ∧
      (a.heatmapData.map (fun cell => cell.count)).sum
        = ((filteredLeads exampleBuiltins 1714564800000 90 exampleWindowLeads).map
          (fun lead => datedReplies exampleBuiltins lead.conversation)).sum ∧
      (a.heatmapData.map (fun cell => cell.count)).sum ≤ a.totalReplies ∧
      ((∀ lead ∈ filteredLeads exampleBuiltins 1714564800000 90 exampleWindowLeads,
          ∀ m ∈ lead.conversation, strictEqStr m.type "REPLY" = true →
            (exampleBuiltins.dateOf m.time).isSome = true) →
        (a.heatmapData.map (fun cell => cell.count)).sum = a.totalReplies) :=
  ⟨List.cons_ne_nil _ _, exampleWindowLeads_typed, by decide,
    heatmap_cells exampleBuiltins 1714564800000 90 exampleWindowLeads (List.cons_ne_nil _ _)
      exampleWindowLeads_typed⟩

theorem exampleUndatedLeads_typed :
    ∀ lead ∈ exampleUndatedLeads, wellTypedLead exampleBuiltins lead = true := by
  decide

theorem exampleUndatedLeads_window :
    filteredLeads exampleBuiltins 1714564800000 30 exampleUndatedLeads = exampleUndatedLeads := by
  rfl

/-- C20 fails as stated: for one lead in the window of 30 days whose only
message is a REPLY with the time `soon`, which is not a date, `analyticsData`
returns a snapshot with `totalReplies` 1 and a heatmap of 168 cells whose
counts sum to 0. -/
theorem heatmap_sum_counterexample :
    ∃ a, analyticsData exampleBuiltins 1714564800000 30 exampleUndatedLeads = .ok (some a) ∧
      a.heatmapData.length = 168 ∧
      a.totalReplies = 1 ∧
      (a.heatmapData.map (fun cell => cell.count)).sum = 0 := by
  refine ⟨_, analyticsData_ok exampleBuiltins 1714564800000 30 exampleUndatedLeads
    (List.cons_ne_nil _ _) exampleUndatedLeads_typed, heatmap_length _, ?_, ?_⟩
  · dsimp only
    rw [exampleUndatedLeads_window]
    rfl
  · dsimp only
    rw [heatmap_count_sum, countP_inGrid_replyMessages, exampleUndatedLeads_window]
    rfl

/-! ## Further properties of the scores (C26 to C28) -/

theorem joinWith_append_singleton (sep : String) (l : List String) (x : String) :
    joinWith sep (l ++ [x]) = if l = [] then x else joinWith sep l ++ sep ++ x := by
  induction l with
  | nil => rfl
  | cons a rest ih =>
    cases rest with
    | nil => simp [joinWith]
    | cons c rest2 =>
      have h : joinWith sep ((a :: c :: rest2) ++ [x])
          = a ++ sep ++ joinWith sep ((c :: rest2) ++ [x]) := rfl
      rw [h, ih]
      simp [joinWith, String.append_assoc]

theorem includes_append_right (s t k : String) (h : includes s k = true) :
    includes (s ++ t) k = true := by
  unfold includes at h ⊢
  simp only [decide_eq_true_eq] at h ⊢
  rw [String.data_append]
  exact h.trans (List.prefix_append _ _).isInfix

theorem includes_allText_append (b : Builtins) (c : List Message) (m : Message) (k : String)
    (h : includes (allText b c) k = true) : includes (allText b (c ++ [m])) k = true := by
  unfold allText at h ⊢
  rw [List.map_append, List.map_singleton, joinWith_append_singleton]
  by_cases hc : c.map (fun m => b.toLowerCase m.content) = []
  · rw [if_pos hc]
    rw [hc] at h
    exact includes_empty _ _ h
  · rw [if_neg hc, String.append_assoc]
    exact includes_append_right _ _ _ h

theorem intent_arith (r r2 k k2 : ℕ) (p p2 s s2 : Bool) (hr : r ≤ r2) (hk : k ≤ k2)
    (hp : p = true → p2 = true) (hs : s = true → s2 = true) :
    min (if s = true then (if p = true then 1 + min (r * 2) 6 + k + 1 else 1 + min (r * 2) 6 + k) + 1
      else (if p = true then 1 + min (r * 2) 6 + k + 1 else 1 + min (r * 2) 6 + k)) 10
    ≤ min (if s2 = true then
        (if p2 = true then 1 + min (r2 * 2) 6 + k2 + 1 else 1 + min (r2 * 2) 6 + k2) + 1
      else (if p2 = true then 1 + min (r2 * 2) 6 + k2 + 1 else 1 + min (r2 * 2) 6 + k2)) 10 := by
  cases p <;> cases p2 <;> cases s <;> cases s2 <;> simp at hp hs ⊢ <;> omega

/-- C28. The intent score of the lead transform is monotone under extending
a conversation: for every conversation `c` and every message `m`, the intent
computed for `c` with `m` appended at the end is at least the intent computed
for `c`. -/
theorem intent_score_monotone (b : Builtins) (c : List Message) (m : Message) :
    intentScore b c ≤ intentScore b (c ++ [m]) := by
  have hr : (repliesOf c).length ≤ (repliesOf (c ++ [m])).length := by
    unfold repliesOf
    rw [List.filter_append, List.length_append]
    omega
  have hinc := includes_allText_append b c m
  have hk : (positiveKeywords.filter (fun keyword => includes (allText b c) keyword)).length
      ≤ (positiveKeywords.filter
        (fun keyword => includes (allText b (c ++ [m])) keyword)).length := by
    rw [← List.countP_eq_length_filter, ← List.countP_eq_length_filter]
    exact List.countP_mono_left (fun k _ h => hinc k h)
  have hp : (includes (allText b c) "price" || includes (allText b c) "cost") = true →
      (includes (allText b (c ++ [m])) "price" || includes (allText b (c ++ [m])) "cost")
        = true := by
    simp only [Bool.or_eq_true]
    rintro (h | h)
    · exact Or.inl (hinc _ h)
    · exact Or.inr (hinc _ h)
  have hs : (includes (allText b c) "sample" || includes (allText b c) "example") = true →
      (includes (allText b (c ++ [m])) "sample" || includes (allText b (c ++ [m])) "example")
        = true := by
    simp only [Bool.or_eq_true]
    rintro (h | h)
    · exact Or.inl (hinc _ h)
    · exact Or.inr (hinc _ h)
  exact intent_arith _ _ _ _ _ _ _ _ hr hk hp hs

theorem mem_conversation_parsed (b : Builtins) (nowISO : String) (lead : RawLead) (m : Message)
    (hm : m ∈ (transformLead b nowISO lead).conversation) :
    ∃ prev raw, parseMessage b nowISO prev raw = .ok m := by
  have hconv : (transformLead b nowISO lead).conversation = (parseConversation b nowISO lead).1 := rfl
  rw [hconv] at hm
  rcases parseConversation_cases b nowISO lead with h | ⟨body, xs, _, _, _, hp⟩
  · rw [h] at hm
    cases hm
  · obtain ⟨i, hi⟩ := List.mem_iff_getElem?.mp hm
    obtain ⟨raw, _, hraw⟩ := (parseMessages_ok b nowISO xs none _ hp).2 i m hi
    exact ⟨_, raw, hraw⟩

theorem response_time_of_parsed (b : Builtins) (nowISO : String) (prev : Option JSON) (raw : JSON)
    (m : Message) (h : parseMessage b nowISO prev raw = .ok m)
    (hnot : strictEqStr m.type "REPLY" = false) : m.response_time = none := by
  obtain ⟨hty, _, hrt⟩ := parseMessage_ok b nowISO prev raw m h
  rw [hty, type_reply_iff] at hnot
  rw [hrt, hnot]
  rfl

theorem filterMap_response_time_nil (conversation : List Message)
    (h : ∀ m ∈ conversation, m.response_time = none) :
    conversation.filterMap (fun m => m.response_time) = [] := by
  induction conversation with
  | nil => rfl
  | cons m rest ih =>
    rw [List.filterMap_cons, h m (List.mem_cons_self _ _)]
    exact ih (fun x hx => h x (List.mem_cons_of_mem _ hx))

theorem engagementScore_no_reply (conversation : List Message)
    (hs : 0 < countType "SENT" conversation) (hr : countType "REPLY" conversation = 0)
    (hrt : ∀ m ∈ conversation, m.response_time = none) :
    engagementScore conversation = 40 ∧ avgResponseTime conversation = JSNum.fin 0 := by
  have hmean : meanResponseTime conversation = JSNum.fin 0 := by
    unfold meanResponseTime
    rw [filterMap_response_time_nil conversation hrt]
    rfl
  refine ⟨?_, by rw [avgResponseTime_eq_mean, hmean]⟩
  rw [engagementScore_unfold conversation hs, hr, hmean]
  have hb : speedBonus (JSNum.fin 0) = 40 := by
    simp [speedBonus, JSNum.lt]
  rw [hb]
  have e : min (100 : ℚ) (min (60 * ((0 : ℕ) : ℚ) / (countType "SENT" conversation : ℚ)) 60 + 40)
      = ((40 : ℕ) : ℚ) := by
    norm_num
  rw [e, mathRound_natCast]
  rfl

/-- C27. For every raw row whose parsed conversation has at least one SENT
message and no REPLY message, the lead transform stores the average response
time 0 and the engagement score 40: the bonus for an average under one hour is
awarded although nobody replied. -/
theorem no_reply_scores_forty (b : Builtins) (nowISO : String) (lead : RawLead)
    (hs : 0 < countType "SENT" (transformLead b nowISO lead).conversation)
    (hr : countType "REPLY" (transformLead b nowISO lead).conversation = 0) :
    (transformLead b nowISO lead).engagement_score = 40 ∧
    (transformLead b nowISO lead).response_time_avg = JSNum.fin 0 := by
  have hrt : ∀ m ∈ (transformLead b nowISO lead).conversation, m.response_time = none := by
    intro m hm
    obtain ⟨prev, raw, hp⟩ := mem_conversation_parsed b nowISO lead m hm
    apply response_time_of_parsed b nowISO prev raw m hp
    have h0 := List.countP_eq_zero.mp hr m hm
    simpa using h0
  exact engagementScore_no_reply _ hs hr hrt

theorem no_reply_scores_forty_witness :
    0 < countType "SENT"
      (transformLead exampleBuiltins exampleNow (exampleLead (some blobSentOnly))).conversation ∧
    countType "REPLY"
      (transformLead exampleBuiltins exampleNow (exampleLead (some blobSentOnly))).conversation = 0 ∧
    (transformLead exampleBuiltins exampleNow (exampleLead (some blobSentOnly))).engagement_score
      = 40 ∧
    (transformLead exampleBuiltins exampleNow (exampleLead (some blobSentOnly))).response_time_avg
      = JSNum.fin 0 :=
  ⟨by decide, by decide,
    no_reply_scores_forty exampleBuiltins exampleNow (exampleLead (some blobSentOnly))
      (by decide) (by decide)⟩

/-- The rate component and the bonus of `calculateEngagementScore`, before
capping and rounding. -/
theorem calculateEngagementScore_unfold (conversation : List Message)
    (h : 0 < countType "SENT" conversation) :
    calculateEngagementScore conversation =
      mathRound (min 100
        (min (60 * (countType "REPLY" conversation : ℚ) / (countType "SENT" conversation : ℚ)) 60
          + speedBonus (avgResponse conversation))) := by
  have hs : ¬ (conversation.filter (fun m => strictEqStr m.type "SENT")).length = 0 := by
    rw [← List.countP_eq_length_filter]
    exact Nat.pos_iff_ne_zero.mp h
  unfold calculateEngagementScore
  simp only [hs, if_false, zero_add]
  have hr : (((conversation.filter (fun m => strictEqStr m.type "REPLY")).length : ℚ) /
      ((conversation.filter (fun m => strictEqStr m.type "SENT")).length : ℚ)) * 60
      = 60 * (countType "REPLY" conversation : ℚ) / (countType "SENT" conversation : ℚ) := by
    simp only [countType, List.countP_eq_length_filter]
    ring
  rw [hr, min_comm _ (100 : ℚ)]
  unfold speedBonus
  split_ifs <;> simp

theorem foldl_truthy_response_times (conversation : List Message) :
    ∀ start : JSNum,
      (conversation.filter (fun m =>
          match m.response_time with
          | some t => t.truthy
          | none => false)).foldl
        (fun sum m => JSNum.add sum
          (match m.response_time with
            | some t => t
            | none => JSNum.nan)) start
      = ((conversation.filterMap (fun m => m.response_time)).filter JSNum.truthy).foldl
          JSNum.add start := by
  induction conversation with
  | nil => intro start; rfl
  | cons m rest ih =>
    intro start
    cases hrt : m.response_time with
    | none => simp [List.filter_cons, List.filterMap_cons, hrt, ih]
    | some t =>
      by_cases ht : t.truthy = true
      · simp [List.filter_cons, List.filterMap_cons, hrt, ht, ih]
      · simp [List.filter_cons, List.filterMap_cons, hrt, ht, ih]

/-- The value `avgResponse`, on the list of the defined response times. -/
theorem avgResponse_eq (conversation : List Message) :
    avgResponse conversation
      = (((conversation.filterMap (fun m => m.response_time)).filter JSNum.truthy).foldl
          JSNum.add (JSNum.fin 0)).divNat (max (countType "REPLY" conversation) 1) := by
  unfold avgResponse
  simp only [foldl_truthy_response_times, countType, List.countP_eq_length_filter]

theorem twoRepliesConversation_counts :
    countType "SENT" twoRepliesConversation = 1 ∧ countType "REPLY" twoRepliesConversation = 2 := by
  decide

theorem twoRepliesConversation_times :
    twoRepliesConversation.filterMap (fun m => m.response_time)
      = [hoursBetween (some 5401000) (some 1000)] := by
  rfl

theorem hoursBetween_example : hoursBetween (some 5401000) (some 1000) = JSNum.fin (3 / 2) := by
  simp only [hoursBetween]
  norm_num

theorem twoRepliesConversation_mean :
    meanResponseTime twoRepliesConversation = JSNum.fin (3 / 2) ∧
    avgResponse twoRepliesConversation = JSNum.fin (3 / 4) := by
  constructor
  · unfold meanResponseTime
    rw [twoRepliesConversation_times, hoursBetween_example]
    simp [JSNum.sum, JSNum.add, JSNum.divNat]
  · rw [avgResponse_eq, twoRepliesConversation_times, hoursBetween_example,
      twoRepliesConversation_counts.2]
    simp [JSNum.truthy, JSNum.add, JSNum.divNat]
    norm_num

/-- C26 fails: on the conversation parsed from a blob of one SENT message, a
REPLY 1.5 hours later and a second REPLY, the lead transform stores the
engagement score 90 (rate component 60, mean response time 1.5 hours, bonus
30), while `calculateEngagementScore` returns 100: it divides the sum of the
response times by the number of replies, 2, not by the number of response
times, 1, so its average is 0.75 hours and its bonus 40. -/
theorem calculate_engagement_score_differs :
    (transformLead exampleBuiltins exampleNow (exampleLead (some blobTwoReplies))).engagement_score
      = 90 ∧
    calculateEngagementScore
      (transformLead exampleBuiltins exampleNow (exampleLead (some blobTwoReplies))).conversation
      = 100 := by
  obtain ⟨hs, hr⟩ := twoRepliesConversation_counts
  obtain ⟨hm, ha⟩ := twoRepliesConversation_mean
  have hpos : 0 < countType "SENT" twoRepliesConversation := by rw [hs]; decide
  constructor
  · show engagementScore twoRepliesConversation = 90
    rw [engagementScore_unfold _ hpos, hs, hr, hm]
    have hb : speedBonus (JSNum.fin (3 / 2)) = 30 := by
      simp [speedBonus, JSNum.lt]; norm_num
    rw [hb]
    have e : min (100 : ℚ) (min (60 * ((2 : ℕ) : ℚ) / ((1 : ℕ) : ℚ)) 60 + 30) = ((90 : ℕ) : ℚ) := by
      norm_num
    rw [e, mathRound_natCast]
    rfl
  · show calculateEngagementScore twoRepliesConversation = 100
    rw [calculateEngagementScore_unfold _ hpos, hs, hr, ha]
    have hb : speedBonus (JSNum.fin (3 / 4)) = 40 := by
      simp [speedBonus, JSNum.lt]; norm_num
    rw [hb]
    have e : min (100 : ℚ) (min (60 * ((2 : ℕ) : ℚ) / ((1 : ℕ) : ℚ)) 60 + 40) = ((100 : ℕ) : ℚ) := by
      norm_num
    rw [e, mathRound_natCast]
    rfl

/-! ## Subject, tag and determinism of the lead transform (C22 to C24) -/

theorem trim_empty : trim "" = "" := rfl

theorem findMessageWithSubject_ok (conversation : List Message) :
    ∀ sub, findMessageWithSubject conversation = .ok sub → firstSubject conversation = sub := by
  induction conversation with
  | nil =>
    intro sub h
    simp only [findMessageWithSubject, pure, Except.pure, Except.ok.injEq] at h
    rw [← h]
    rfl
  | cons m rest ih =>
    intro sub h
    unfold findMessageWithSubject at h
    unfold firstSubject
    rw [List.findSome?_cons]
    cases hs : m.subject with
    | str s =>
      rw [hs] at h
      simp only [] at h ⊢
      by_cases hc : s ≠ "" ∧ trim s ≠ ""
      · rw [if_pos hc] at h
        simp only [pure, Except.pure, Except.ok.injEq] at h
        rw [if_pos hc.2, ← h]
      · rw [if_neg hc] at h
        have ht : ¬ trim s ≠ "" := by
          intro ht
          apply hc
          refine ⟨?_, ht⟩
          intro h0
          rw [h0] at ht
          exact ht trim_empty
        rw [if_neg ht]
        exact ih sub h
    | null =>
      rw [hs] at h
      simp only [truthy, Bool.false_eq_true, if_false] at h
      exact ih sub h
    | bool v =>
      rw [hs] at h
      cases v with
      | true => simp [truthy, throw, throwThe, MonadExceptOf.throw] at h
      | false =>
        simp only [truthy, Bool.false_eq_true, if_false] at h
        exact ih sub h
    | num q =>
      rw [hs] at h
      by_cases hq : truthy (.num q) = true
      · simp [hq, throw, throwThe, MonadExceptOf.throw] at h
      · simp only [hq, if_false] at h
        exact ih sub h
    | arr xs =>
      rw [hs] at h
      simp [truthy, throw, throwThe, MonadExceptOf.throw] at h
    | obj kvs =>
      rw [hs] at h
      simp [truthy, throw, throwThe, MonadExceptOf.throw] at h

theorem tryParse_ok (b : Builtins) (nowISO : String) (body : String) (conv : List Message)
    (sub : Option String) (h : tryParse b nowISO body = .ok (conv, sub)) :
    findMessageWithSubject conv = .ok sub := by
  unfold tryParse at h
  cases hj : b.jsonParse body with
  | none => simp [hj, throw, throwThe, MonadExceptOf.throw] at h
  | some v =>
    cases v with
    | arr xs =>
      simp only [hj, bind, Except.bind] at h
      cases hst : statsIdStep xs with
      | error e => simp [hst] at h
      | ok u =>
        cases hp : parseMessages b nowISO none xs with
        | error e => simp [hst, hp] at h
        | ok c =>
          cases hf : findMessageWithSubject c with
          | error e => simp [hst, hp, hf] at h
          | ok s =>
            simp only [hst, hp, hf, pure, Except.pure, Except.ok.injEq, Prod.mk.injEq] at h
            rw [← h.1, ← h.2]
            exact hf
    | null => simp [hj, throw, throwThe, MonadExceptOf.throw] at h
    | bool _ => simp [hj, throw, throwThe, MonadExceptOf.throw] at h
    | num _ => simp [hj, throw, throwThe, MonadExceptOf.throw] at h
    | str _ => simp [hj, throw, throwThe, MonadExceptOf.throw] at h
    | obj _ => simp [hj, throw, throwThe, MonadExceptOf.throw] at h

theorem parseConversation_subject (b : Builtins) (nowISO : String) (lead : RawLead) :
    (parseConversation b nowISO lead).2
      = (firstSubject (parseConversation b nowISO lead).1).getD
          ("Campaign for " ++ subjectName lead) := by
  unfold parseConversation subjectName
  cases hb : lead.email_message_body with
  | none => rfl
  | some body =>
    by_cases he : body = ""
    · simp only [he, if_true]
      rfl
    · simp only [he, if_false]
      cases ht : tryParse b nowISO body with
      | error e => rfl
      | ok r =>
        obtain ⟨conv, sub⟩ := r
        have hf := findMessageWithSubject_ok conv sub (tryParse_ok b nowISO body conv sub ht)
        cases sub with
        | none =>
          simp only []
          rw [hf]
          rfl
        | some s =>
          simp only []
          rw [hf]
          rfl

/-- C22 (amended). The subject of the assembled lead is the trimmed subject of
the first message of its conversation whose subject is a string that is not
empty after trimming; if there is none, it is `Campaign for ` followed by the
`first_name` column of the row, or by `Lead` when that column is absent or
empty. This name is the `first_name` of the assembled lead only when the
column is not empty: otherwise the assembled `first_name` is `Unknown`. -/
theorem subject_extraction (b : Builtins) (nowISO : String) (lead : RawLead) :
    (transformLead b nowISO lead).subject
      = (firstSubject (transformLead b nowISO lead).conversation).getD
          ("Campaign for " ++ subjectName lead) ∧
    (∀ n, lead.first_name = some n → n ≠ "" →
      subjectName lead = n ∧ (transformLead b nowISO lead).first_name = n) ∧
    (lead.first_name = none ∨ lead.first_name = some "" →
      subjectName lead = "Lead" ∧ (transformLead b nowISO lead).first_name = "Unknown") := by
  refine ⟨parseConversation_subject b nowISO lead, ?_, ?_⟩
  · intro n hn hne
    unfold subjectName transformLead
    simp only [hn, hne, ne_eq, not_false_eq_true, if_true, and_self]
  · intro h
    unfold subjectName transformLead
    rcases h with h | h
    · simp only [h, and_self]
    · simp only [h, ne_eq, not_true_eq_false, if_false, and_self]

/-- C22 fails as stated: for a row without a first name and without a
conversation the subject is `Campaign for Lead`, while the first name of the
assembled lead is `Unknown`. -/
theorem subject_extraction_counterexample :
    (transformLead exampleBuiltins exampleNow exampleNameless).subject = "Campaign for Lead" ∧
    (transformLead exampleBuiltins exampleNow exampleNameless).first_name = "Unknown" ∧
    (transformLead exampleBuiltins exampleNow exampleNameless).subject
      ≠ "Campaign for " ++ (transformLead exampleBuiltins exampleNow exampleNameless).first_name := by
  decide

/-- The subject found in the blob `blobSentOnly`, whose first message has a
blank subject and whose second message has the subject ` Pricing `. -/
theorem subject_extraction_example :
    (transformLead exampleBuiltins exampleNow (exampleLead (some blobSentOnly))).subject
      = "Pricing" := by
  decide

/-- The tag of an assembled lead, case by case. The `tags` of the lead has
exactly one element. It is the label of `leadCategoryMap` when the category of
the row is truthy and its property name is one of the nine keys `1` to `9`; it
is `Uncategorized` when the category is absent or falsy, and when its property
name is neither one of the nine keys nor the name of a property that
`leadCategoryMap` inherits from `Object.prototype`; for such an inherited name
the fallback `|| 'Uncategorized'` is not taken and the tag is the inherited
value, which is not a string. -/
theorem category_tag (b : Builtins) (nowISO : String) (lead : RawLead) :
    (transformLead b nowISO lead).tags.length = 1 ∧
    leadCategoryMap.map (fun entry => entry.1) = ["1", "2", "3", "4", "5", "6", "7", "8", "9"] ∧
    (∀ c label, lead.lead_category = some c → truthy c = true →
      leadCategoryMap.lookup (b.toStr c) = some label →
      (transformLead b nowISO lead).tags = [some label]) ∧
    (lead.lead_category = none ∨ (∃ c, lead.lead_category = some c ∧ truthy c = false) →
      (transformLead b nowISO lead).tags = [some "Uncategorized"]) ∧
    (∀ c, lead.lead_category = some c → truthy c = true →
      leadCategoryMap.lookup (b.toStr c) = none → b.toStr c ∉ objectPrototypeKeys →
      (transformLead b nowISO lead).tags = [some "Uncategorized"]) ∧
    (∀ c, lead.lead_category = some c → truthy c = true → b.toStr c ∈ objectPrototypeKeys →
      (transformLead b nowISO lead).tags = [none]) := by
  have htags : (transformLead b nowISO lead).tags = [categoryTag b lead.lead_category] := rfl
  refine ⟨by rw [htags]; rfl, rfl, ?_, ?_, ?_, ?_⟩
  · intro c label hc ht hl
    rw [htags, hc]
    simp only [categoryTag, ht, if_true, hl]
  · intro h
    rw [htags]
    rcases h with h | ⟨c, hc, ht⟩
    · rw [h]
      rfl
    · rw [hc]
      simp only [categoryTag, ht, Bool.false_eq_true, if_false]
  · intro c hc ht hl hp
    rw [htags, hc]
    simp only [categoryTag, ht, if_true, hl, hp, if_false]
  · intro c hc ht hp
    have hl : leadCategoryMap.lookup (b.toStr c) = none := by
      have hall : ∀ k ∈ objectPrototypeKeys, leadCategoryMap.lookup k = none := by decide
      exact hall _ hp
    rw [htags, hc]
    simp only [categoryTag, ht, if_true, hl, hp]

/-- C23. The code departs from the claim on a row whose category is the
string `constructor`, which is not one of the nine codes: the only tag is not
`Uncategorized`, it is the value that `leadCategoryMap` inherits under that
name, not a string. The fallback `|| 'Uncategorized'` of the lead transform,
written for the unknown codes, misses the names inherited from
`Object.prototype`. -/
theorem category_tag_inherited_name :
    leadCategoryMap.lookup "constructor" = none ∧
    (transformLead exampleBuiltins exampleNow exampleInheritedCategory).tags = [none] ∧
    (transformLead exampleBuiltins exampleNow exampleInheritedCategory).tags
      ≠ [some "Uncategorized"] := by
  decide

/-- The tags of the examples: the code 1 gives `Interested`, the code 12 and
an absent code give `Uncategorized`. -/
theorem category_tag_example :
    (transformLead exampleBuiltins exampleNow (exampleLead none)).tags = [some "Interested"] ∧
    (transformLead exampleBuiltins exampleNow
      { exampleLead none with lead_category := some (.num 12) }).tags = [some "Uncategorized"] ∧
    (transformLead exampleBuiltins exampleNow
      { exampleLead none with lead_category := none }).tags = [some "Uncategorized"] := by
  decide

/-- The message the parser builds from a raw message that is not `null`. -/
theorem parseMessage_eq (b : Builtins) (nowISO : String) (prev : Option JSON) (msg : JSON)
    (hn : msg ≠ .null) :
    parseMessage b nowISO prev msg =
      (contentOf (field msg "email_body")).map (fun content =>
        { from_ := orElse (field msg "from") (.str "")
          to_ := orElse (field msg "to") (.str "")
          cc := orElse (field msg "cc") .null
          type := orElse (field msg "type") (.str "SENT")
          time := orElse (field msg "time") (.str nowISO)
          content := content
          subject := orElse (field msg "subject") (.str "")
          opened := (b.toNumber (orElse (field msg "open_count") (.num 0))).gt 0
          clicked := (b.toNumber (orElse (field msg "click_count") (.num 0))).gt 0
          response_time :=
            (if rawHasType (some msg) "REPLY" && rawHasType prev "SENT"
              then some (hoursBetween (rawTime b (some msg)) (rawTime b prev))
              else none) }) := by
  unfold parseMessage
  simp only [responseTimeOf_ok b prev msg hn, getProp_ok msg _ hn, bind, Except.bind]
  cases contentOf (field msg "email_body") <;> rfl

theorem orElse_clock (v : Option JSON) (n1 n2 : String) :
    orElse v (.str n1) = orElse v (.str n2) ∨
    (orElse v (.str n1) = .str n1 ∧ orElse v (.str n2) = .str n2) := by
  unfold orElse
  cases v with
  | none => exact Or.inr ⟨rfl, rfl⟩
  | some x =>
    by_cases hx : truthy x = true
    · left; simp only [hx, if_true]
    · right; simp only [hx, Bool.false_eq_true, if_false, and_self]

theorem parseMessage_two_clocks (b : Builtins) (n1 n2 : String) (prev : Option JSON)
    (msg : JSON) :
    (∃ e1 e2, parseMessage b n1 prev msg = .error e1 ∧ parseMessage b n2 prev msg = .error e2) ∨
    (∃ m1 m2, parseMessage b n1 prev msg = .ok m1 ∧ parseMessage b n2 prev msg = .ok m2 ∧
      sameUpToClock n1 n2 m1 m2) := by
  by_cases hn : msg = .null
  · left
    rw [hn, parseMessage_null, parseMessage_null]
    exact ⟨_, _, rfl, rfl⟩
  · rw [parseMessage_eq b n1 prev msg hn, parseMessage_eq b n2 prev msg hn]
    cases contentOf (field msg "email_body") with
    | error e => left; exact ⟨e, e, rfl, rfl⟩
    | ok c =>
      right
      exact ⟨_, _, rfl, rfl, rfl, orElse_clock (field msg "time") n1 n2⟩

theorem parseMessages_two_clocks (b : Builtins) (n1 n2 : String) (xs : List JSON) :
    ∀ prev : Option JSON,
      (∃ e1 e2, parseMessages b n1 prev xs = .error e1 ∧ parseMessages b n2 prev xs = .error e2) ∨
      (∃ c1 c2, parseMessages b n1 prev xs = .ok c1 ∧ parseMessages b n2 prev xs = .ok c2 ∧
        List.Forall₂ (sameUpToClock n1 n2) c1 c2) := by
  induction xs with
  | nil =>
    intro prev
    right
    exact ⟨[], [], rfl, rfl, List.Forall₂.nil⟩
  | cons x rest ih =>
    intro prev
    simp only [parseMessages, bind, Except.bind]
    rcases parseMessage_two_clocks b n1 n2 prev x with ⟨e1, e2, h1, h2⟩ | ⟨m1, m2, h1, h2, hm⟩
    · left
      rw [h1, h2]
      exact ⟨_, _, rfl, rfl⟩
    · rw [h1, h2]
      rcases ih (some x) with ⟨e1, e2, h3, h4⟩ | ⟨c1, c2, h3, h4, hc⟩
      · left
        rw [h3, h4]
        exact ⟨_, _, rfl, rfl⟩
      · right
        rw [h3, h4]
        exact ⟨m1 :: c1, m2 :: c2, rfl, rfl, List.Forall₂.cons hm hc⟩

theorem findMessageWithSubject_two_clocks (n1 n2 : String) (c1 c2 : List Message)
    (h : List.Forall₂ (sameUpToClock n1 n2) c1 c2) :
    findMessageWithSubject c1 = findMessageWithSubject c2 := by
  induction h with
  | nil => rfl
  | @cons m1 m2 r1 r2 hm _ ih =>
    have hs : (eraseTime m1).subject = (eraseTime m2).subject := by rw [hm.1]
    have hs : m1.subject = m2.subject := hs
    unfold findMessageWithSubject
    rw [hs, ih]

theorem tryParse_two_clocks (b : Builtins) (n1 n2 : String) (body : String) :
    (∃ e1 e2, tryParse b n1 body = .error e1 ∧ tryParse b n2 body = .error e2) ∨
    (∃ c1 c2 sub, tryParse b n1 body = .ok (c1, sub) ∧ tryParse b n2 body = .ok (c2, sub) ∧
      List.Forall₂ (sameUpToClock n1 n2) c1 c2) := by
  unfold tryParse
  cases hj : b.jsonParse body with
  | none => left; exact ⟨_, _, rfl, rfl⟩
  | some v =>
    cases v with
    | arr xs =>
      simp only [bind, Except.bind]
      cases hst : statsIdStep xs with
      | error e => left; exact ⟨_, _, rfl, rfl⟩
      | ok u =>
        simp only []
        rcases parseMessages_two_clocks b n1 n2 xs none with ⟨e1, e2, h1, h2⟩ | ⟨c1, c2, h1, h2, hc⟩
        · left
          rw [h1, h2]
          exact ⟨_, _, rfl, rfl⟩
        · rw [h1, h2]
          simp only []
          rw [findMessageWithSubject_two_clocks n1 n2 c1 c2 hc]
          cases hf : findMessageWithSubject c2 with
          | error e => left; exact ⟨_, _, rfl, rfl⟩
          | ok sub => right; exact ⟨c1, c2, sub, rfl, rfl, hc⟩
    | null => left; exact ⟨_, _, rfl, rfl⟩
    | bool _ => left; exact ⟨_, _, rfl, rfl⟩
    | num _ => left; exact ⟨_, _, rfl, rfl⟩
    | str _ => left; exact ⟨_, _, rfl, rfl⟩
    | obj _ => left; exact ⟨_, _, rfl, rfl⟩

theorem parseConversation_two_clocks (b : Builtins) (n1 n2 : String) (lead : RawLead) :
    List.Forall₂ (sameUpToClock n1 n2) (parseConversation b n1 lead).1
      (parseConversation b n2 lead).1 ∧
    (parseConversation b n1 lead).2 = (parseConversation b n2 lead).2 := by
  unfold parseConversation
  cases hb : lead.email_message_body with
  | none => exact ⟨List.Forall₂.nil, rfl⟩
  | some body =>
    by_cases he : body = ""
    · dsimp only
      rw [if_pos he, if_pos he]
      exact ⟨List.Forall₂.nil, rfl⟩
    · dsimp only
      rw [if_neg he, if_neg he]
      rcases tryParse_two_clocks b n1 n2 body with ⟨e1, e2, h1, h2⟩ | ⟨c1, c2, sub, h1, h2, hc⟩
      · rw [h1, h2]
        exact ⟨List.Forall₂.nil, rfl⟩
      · rw [h1, h2]
        cases sub with
        | none => exact ⟨hc, rfl⟩
        | some s => exact ⟨hc, rfl⟩

theorem forall₂_eraseTime (n1 n2 : String) (c1 c2 : List Message)
    (h : List.Forall₂ (sameUpToClock n1 n2) c1 c2) : c1.map eraseTime = c2.map eraseTime := by
  induction h with
  | nil => rfl
  | cons hm _ ih => rw [List.map_cons, List.map_cons, hm.1, ih]

theorem forall₂_time (n1 n2 : String) (c1 c2 : List Message)
    (h : List.Forall₂ (sameUpToClock n1 n2) c1 c2) :
    ∀ (i : ℕ) (m1 m2 : Message), c1[i]? = some m1 → c2[i]? = some m2 →
      m1.time = m2.time ∨ (m1.time = .str n1 ∧ m2.time = .str n2) := by
  induction h with
  | nil =>
    intro i m1 m2 h1
    simp at h1
  | cons hm _ ih =>
    intro i m1 m2 h1 h2
    cases i with
    | zero =>
      simp only [List.getElem?_cons_zero, Option.some.injEq] at h1 h2
      rw [← h1, ← h2]
      exact hm.2
    | succ j =>
      simp only [List.getElem?_cons_succ] at h1 h2
      exact ih j m1 m2 h1 h2

theorem forall₂_same_clock (n : String) (c1 c2 : List Message)
    (h : List.Forall₂ (sameUpToClock n n) c1 c2) : c1 = c2 := by
  induction h with
  | nil => rfl
  | @cons m1 m2 r1 r2 hm _ ih =>
    have ht : m1.time = m2.time := by
      rcases hm.2 with h | ⟨h1, h2⟩
      · exact h
      · rw [h1, h2]
    have he := hm.1
    have hm12 : m1 = m2 := by
      cases m1
      cases m2
      simp only [eraseTime, Message.mk.injEq] at he
      simp only at ht
      simp only [Message.mk.injEq]
      tauto
    rw [hm12, ih]

/-- C24 (amended). Two runs of the parser of `fetchLeads` on the same row, at
the clock readings `n1` and `n2`, yield conversations of the same length whose
messages have the same `from`, `to`, `cc`, `type`, `content`, `subject`,
`opened`, `clicked` and `response_time`, and the same extracted subject; the
`time` of a message is the same in both runs, or it is in each run the clock
reading of that run (the default of a raw message without a time). With the
same clock reading the two conversations are equal. -/
theorem parsing_deterministic (b : Builtins) (n1 n2 : String) (lead : RawLead) :
    (transformLead b n1 lead).conversation.length = (transformLead b n2 lead).conversation.length ∧
    (transformLead b n1 lead).conversation.map eraseTime
      = (transformLead b n2 lead).conversation.map eraseTime ∧
    (∀ (i : ℕ) (m1 m2 : Message), (transformLead b n1 lead).conversation[i]? = some m1 →
      (transformLead b n2 lead).conversation[i]? = some m2 →
      m1.time = m2.time ∨ (m1.time = .str n1 ∧ m2.time = .str n2)) ∧
    (transformLead b n1 lead).subject = (transformLead b n2 lead).subject ∧
    (n1 = n2 → (transformLead b n1 lead).conversation = (transformLead b n2 lead).conversation) := by
  obtain ⟨hc, hs⟩ := parseConversation_two_clocks b n1 n2 lead
  refine ⟨hc.length_eq, forall₂_eraseTime n1 n2 _ _ hc, forall₂_time n1 n2 _ _ hc, hs, ?_⟩
  intro h
  rw [h]

/-- C24 fails as stated: the blob `[{"type":"SENT"},{"type":"REPLY","time":3600000}]`
parsed at two clock readings one second apart yields two conversations whose
first messages have different times, each the clock reading of its run. -/
theorem parsing_deterministic_counterexample :
    (transformLead exampleBuiltins "2024-05-01T12:00:00.000Z"
        (exampleLead (some blobUntimedSent))).conversation.map timeText
      = [some "2024-05-01T12:00:00.000Z", none] ∧
    (transformLead exampleBuiltins "2024-05-01T12:00:01.000Z"
        (exampleLead (some blobUntimedSent))).conversation.map timeText
      = [some "2024-05-01T12:00:01.000Z", none] := by
  decide

/-! ## Text extraction (C25, C29) -/

theorem extractChars_eq (html : List Char) :
    extractChars html =
      if (if utf16Length (methodTwo (cleanText html)) > 0 ∧
            utf16Length (methodTwo (cleanText html)) < utf16Length (methodOne (cleanText html))
          then methodTwo (cleanText html) else methodOne (cleanText html)).isEmpty
      then cleanText html
      else (if utf16Length (methodTwo (cleanText html)) > 0 ∧
            utf16Length (methodTwo (cleanText html)) < utf16Length (methodOne (cleanText html))
          then methodTwo (cleanText html) else methodOne (cleanText html)) := rfl

theorem dropWhile_head_not (p : Char → Bool) (l : List Char) :
    ∀ c rest, l.dropWhile p = c :: rest → p c = false := by
  induction l with
  | nil => intro c rest h; cases h
  | cons a as ih =>
    intro c rest h
    rw [List.dropWhile_cons] at h
    by_cases ha : p a = true
    · rw [if_pos ha] at h
      exact ih c rest h
    · rw [if_neg ha] at h
      cases h
      simpa using ha

theorem dropWhile_of_head_not (p : Char → Bool) (l : List Char)
    (h : ∀ c rest, l = c :: rest → p c = false) : l.dropWhile p = l := by
  cases l with
  | nil => rfl
  | cons a as =>
    rw [List.dropWhile_cons, if_neg]
    rw [h a as rfl]
    decide

theorem headNotWhite_of_isPrefix (p l : List Char) (h : headNotWhite l) (hp : p <+: l) :
    headNotWhite p := by
  intro c rest hc
  obtain ⟨t, ht⟩ := hp
  rw [hc] at ht
  exact h c (rest ++ t) ht.symm

theorem trimEnd_isPrefix (l : List Char) : (l.reverse.dropWhile isWhiteSpace).reverse <+: l := by
  have h := List.dropWhile_suffix isWhiteSpace (l := l.reverse)
  have h2 := List.reverse_prefix.mpr h
  rwa [List.reverse_reverse] at h2

theorem headNotWhite_dropWhile (l : List Char) : headNotWhite (l.dropWhile isWhiteSpace) :=
  dropWhile_head_not isWhiteSpace l

theorem trimChars_isPrefix (l : List Char) : trimChars l <+: l.dropWhile isWhiteSpace :=
  trimEnd_isPrefix _

theorem headNotWhite_trimChars (l : List Char) : headNotWhite (trimChars l) :=
  headNotWhite_of_isPrefix _ _ (headNotWhite_dropWhile l) (trimChars_isPrefix l)

theorem headNotWhite_reverse_trimChars (l : List Char) : headNotWhite (trimChars l).reverse := by
  unfold trimChars
  rw [List.reverse_reverse]
  exact dropWhile_head_not isWhiteSpace _

theorem trimChars_of_trimmed (l : List Char) (h1 : headNotWhite l) (h2 : headNotWhite l.reverse) :
    trimChars l = l := by
  unfold trimChars
  rw [dropWhile_of_head_not isWhiteSpace l h1, dropWhile_of_head_not isWhiteSpace l.reverse h2,
    List.reverse_reverse]

theorem trimChars_idem (l : List Char) : trimChars (trimChars l) = trimChars l :=
  trimChars_of_trimmed _ (headNotWhite_trimChars l) (headNotWhite_reverse_trimChars l)

theorem trimChars_take_isPrefix (t : List Char) (h : headNotWhite t) (k : ℕ) :
    trimChars (t.take k) <+: t := by
  have h1 : headNotWhite (t.take k) := headNotWhite_of_isPrefix _ _ h (List.take_prefix k t)
  have h2 : trimChars (t.take k) <+: t.take k := by
    have := trimChars_isPrefix (t.take k)
    rwa [dropWhile_of_head_not isWhiteSpace _ h1] at this
  exact h2.trans (List.take_prefix k t)

theorem mem_trimChars (l : List Char) (c : Char) (h : c ∈ trimChars l) : c ∈ l :=
  (List.dropWhile_suffix isWhiteSpace).subset ((trimChars_isPrefix l).subset h)

theorem collapse_white (l : List Char) :
    ∀ (prev : Bool) (c : Char), c ∈ collapseWhiteSpaceAux prev l → isWhiteSpace c = true →
      c = ' ' := by
  induction l with
  | nil => intro prev c h; cases prev <;> simp [collapseWhiteSpaceAux] at h
  | cons a as ih =>
    intro prev c h hw
    unfold collapseWhiteSpaceAux at h
    by_cases ha : isWhiteSpace a = true
    · rw [if_pos ha] at h
      cases prev with
      | true =>
        simp only [if_true] at h
        exact ih true c h hw
      | false =>
        simp only [Bool.false_eq_true, if_false, List.mem_cons] at h
        rcases h with h | h
        · exact h
        · exact ih true c h hw
    · rw [if_neg ha, List.mem_cons] at h
      rcases h with h | h
      · rw [h] at hw
        exact absurd hw ha
      · exact ih false c h hw

theorem newline_not_mem_cleanText (html : List Char) : '\n' ∉ cleanText html := by
  intro h
  unfold cleanText at h
  have h1 := mem_trimChars _ _ h
  have h2 := collapse_white _ false '\n' h1 (by decide)
  exact absurd h2 (by decide)

theorem cleanText_trimmed (html : List Char) : trimChars (cleanText html) = cleanText html := by
  unfold cleanText
  exact trimChars_idem _

theorem headNotWhite_cleanText (html : List Char) : headNotWhite (cleanText html) := by
  unfold cleanText
  exact headNotWhite_trimChars _

theorem splitLines_of_no_newline (l : List Char) (h : '\n' ∉ l) : splitLines l = [l] := by
  induction l with
  | nil => rfl
  | cons c cs ih =>
    have hc : c ≠ '\n' := fun e => h (e ▸ List.mem_cons_self _ _)
    have hcs : '\n' ∉ cs := fun e => h (List.mem_cons_of_mem _ e)
    unfold splitLines
    rw [ih hcs]
    simp only [hc, if_false]

theorem methodTwo_cases (html : List Char) :
    (keptLine (cleanText html) = true ∧ methodTwo (cleanText html) = cleanText html) ∨
    (keptLine (cleanText html) = false ∧ methodTwo (cleanText html) = []) := by
  have hlines : newReplyLines (cleanText html) = [cleanText html].takeWhile keptLine := by
    unfold newReplyLines
    rw [splitLines_of_no_newline _ (newline_not_mem_cleanText html), List.map_singleton,
      cleanText_trimmed]
    rfl
  unfold methodTwo
  rw [hlines]
  cases hk : keptLine (cleanText html) with
  | true =>
    left
    refine ⟨rfl, ?_⟩
    rw [List.takeWhile_cons, if_pos hk, List.takeWhile_nil]
    exact cleanText_trimmed html
  | false =>
    right
    refine ⟨rfl, ?_⟩
    rw [List.takeWhile_cons, if_neg (by rw [hk]; decide)]
    rfl

theorem cutoffIndex_eq_foldl (text : List Char) :
    cutoffIndex text = replyIndicators.foldl (cutoffStep text) text.length := rfl

theorem foldl_cutoffStep_zero (text : List Char) (pats : List String) :
    pats.foldl (cutoffStep text) 0 = 0 := by
  induction pats with
  | nil => rfl
  | cons p rest ih =>
    rw [List.foldl_cons]
    have : cutoffStep text 0 p = 0 := by
      unfold cutoffStep
      cases indexOf p.data text with
      | none => rfl
      | some i => simp
    rw [this, ih]

theorem foldl_cutoffStep_start (c : Char) (cs : List Char) (pats : List String) :
    ∀ init, (∃ p ∈ pats, p.data.isPrefixOf (c :: cs) = true) →
      pats.foldl (cutoffStep (c :: cs)) init = 0 := by
  induction pats with
  | nil =>
    intro init h
    obtain ⟨p, hp, _⟩ := h
    cases hp
  | cons q rest ih =>
    intro init h
    rw [List.foldl_cons]
    by_cases hq : q.data.isPrefixOf (c :: cs) = true
    · have : cutoffStep (c :: cs) init q = 0 := by
        unfold cutoffStep indexOf
        rw [if_pos hq]
        simp only []
        split_ifs with h0
        · rfl
        · omega
      rw [this, foldl_cutoffStep_zero]
    · apply ih
      obtain ⟨p, hp, hpre⟩ := h
      rcases List.mem_cons.mp hp with h1 | h1
      · rw [h1] at hpre
        exact absurd hpre hq
      · exact ⟨p, h1, hpre⟩

theorem foldl_cutoffStep_shift (c : Char) (cs : List Char) (pats : List String) :
    ∀ init, (∀ p ∈ pats, p.data.isPrefixOf (c :: cs) = false) →
      pats.foldl (cutoffStep (c :: cs)) (init + 1) = pats.foldl (cutoffStep cs) init + 1 := by
  induction pats with
  | nil => intro init _; rfl
  | cons q rest ih =>
    intro init h
    rw [List.foldl_cons, List.foldl_cons]
    have hq := h q (List.mem_cons_self _ _)
    have hstep : cutoffStep (c :: cs) (init + 1) q = cutoffStep cs init q + 1 := by
      unfold cutoffStep
      have hidx : indexOf q.data (c :: cs) = (indexOf q.data cs).map (· + 1) := by
        show (if q.data.isPrefixOf (c :: cs) = true then some 0
          else (indexOf q.data cs).map (· + 1)) = _
        rw [if_neg (by rw [hq]; decide)]
      rw [hidx]
      cases indexOf q.data cs with
      | none => rfl
      | some i =>
        simp only [Option.map_some']
        split_ifs <;> omega
    rw [hstep]
    exact ih _ (fun p hp => h p (List.mem_cons_of_mem _ hp))

/-- The index computed by the loop over the indicators is the index of the
earliest occurrence of an indicator. -/
theorem cutoffIndex_eq_earliest (text : List Char) : cutoffIndex text = earliestIndicator text := by
  rw [cutoffIndex_eq_foldl]
  induction text with
  | nil => exact foldl_cutoffStep_zero [] replyIndicators
  | cons c cs ih =>
    unfold earliestIndicator
    by_cases h : replyIndicators.any (fun indicator => indicator.data.isPrefixOf (c :: cs)) = true
    · rw [if_pos h]
      apply foldl_cutoffStep_start
      simpa using h
    · rw [if_neg h, List.length_cons, foldl_cutoffStep_shift c cs replyIndicators cs.length, ih]
      intro p hp
      cases hpre : p.data.isPrefixOf (c :: cs) with
      | false => rfl
      | true =>
        exfalso
        apply h
        rw [List.any_eq_true]
        exact ⟨p, hp, hpre⟩

theorem earliestIndicator_le (text : List Char) : earliestIndicator text ≤ text.length := by
  induction text with
  | nil => exact Nat.le_refl 0
  | cons c cs ih =>
    unfold earliestIndicator
    split_ifs
    · exact Nat.zero_le _
    · simpa using ih

theorem earliestIndicator_of_none (text : List Char)
    (h : ∀ p ∈ replyIndicators, ¬ p.data <:+: text) : earliestIndicator text = text.length := by
  induction text with
  | nil => rfl
  | cons c cs ih =>
    unfold earliestIndicator
    have hno : ¬ replyIndicators.any (fun indicator => indicator.data.isPrefixOf (c :: cs)) = true := by
      rw [List.any_eq_true]
      rintro ⟨p, hp, hpre⟩
      exact h p hp (List.isPrefixOf_iff_prefix.mp hpre).isInfix
    rw [if_neg hno, ih, List.length_cons]
    intro p hp hin
    exact h p hp (hin.trans (List.suffix_cons c cs).isInfix)

/-- The position returned by `earliestIndicator`, when it is inside the text,
is the first one at which an indicator starts. -/
theorem earliestIndicator_spec (text : List Char) :
    (earliestIndicator text < text.length →
      ∃ p ∈ replyIndicators, p.data <+: text.drop (earliestIndicator text)) ∧
    (∀ j, j < earliestIndicator text → ∀ p ∈ replyIndicators, ¬ p.data <+: text.drop j) := by
  induction text with
  | nil =>
    constructor
    · intro h; cases h
    · intro j h; cases h
  | cons c cs ih =>
    unfold earliestIndicator
    by_cases h : replyIndicators.any (fun indicator => indicator.data.isPrefixOf (c :: cs)) = true
    · rw [if_pos h]
      constructor
      · intro _
        rw [List.any_eq_true] at h
        obtain ⟨p, hp, hpre⟩ := h
        exact ⟨p, hp, List.isPrefixOf_iff_prefix.mp hpre⟩
      · intro j hj; cases hj
    · rw [if_neg h]
      constructor
      · intro hlt
        rw [List.length_cons] at hlt
        obtain ⟨p, hp, hpre⟩ := ih.1 (by omega)
        exact ⟨p, hp, by simpa using hpre⟩
      · intro j hj p hp hpre
        cases j with
        | zero =>
          apply h
          rw [List.any_eq_true]
          exact ⟨p, hp, List.isPrefixOf_iff_prefix.mpr (by simpa using hpre)⟩
        | succ i =>
          exact ih.2 i (by omega) p hp (by simpa using hpre)

theorem methodOne_of_kept (html : List Char) (h : keptLine (cleanText html) = true) :
    methodOne (cleanText html) = cleanText html := by
  have hno : ∀ p ∈ replyIndicators, ¬ p.data <:+: cleanText html := by
    intro p hp hin
    unfold keptLine at h
    rw [Bool.and_eq_true] at h
    have h2 := h.2
    simp only [Bool.not_eq_true', List.any_eq_false] at h2
    exact h2 p hp (by simpa using hin)
  unfold methodOne
  rw [cutoffIndex_eq_earliest, earliestIndicator_of_none _ hno, List.take_length]
  exact cleanText_trimmed html

theorem utf16Length_pos (l : List Char) (h : l ≠ []) : 0 < utf16Length l := by
  cases l with
  | nil => exact absurd rfl h
  | cons c cs =>
    unfold utf16Length
    rw [List.map_cons, List.sum_cons]
    split_ifs <;> omega

theorem utf16Length_nil : utf16Length [] = 0 := rfl

/-- The result of `extractTextFromHTML` on the characters of the input: the
marker truncation when it is not empty, the cleaned text otherwise. -/
theorem extractChars_methodOne (html : List Char) :
    extractChars html =
      if methodOne (cleanText html) = [] then cleanText html else methodOne (cleanText html) := by
  rw [extractChars_eq]
  have hcond : ¬ (utf16Length (methodTwo (cleanText html)) > 0 ∧
      utf16Length (methodTwo (cleanText html)) < utf16Length (methodOne (cleanText html))) := by
    rintro ⟨h1, h2⟩
    rcases methodTwo_cases html with ⟨hk, h⟩ | ⟨_, h⟩
    · rw [h, methodOne_of_kept html hk] at h2
      omega
    · rw [h, utf16Length_nil] at h1
      omega
  rw [if_neg hcond]
  cases hm : methodOne (cleanText html) with
  | nil => simp
  | cons c cs => simp

theorem extractTextFromHTML_data (html : String) :
    (extractTextFromHTML html).data = extractChars html.data := by
  unfold extractTextFromHTML
  by_cases h : html = ""
  · rw [if_pos h, h]
    rfl
  · rw [if_neg h]

theorem methodTwo_eq (html : List Char) :
    methodTwo (cleanText html) = [] ∨ methodTwo (cleanText html) = methodOne (cleanText html) := by
  rcases methodTwo_cases html with ⟨hk, h⟩ | ⟨_, h⟩
  · right
    rw [h, methodOne_of_kept html hk]
  · left
    exact h

theorem extractChars_choice (html : List Char) :
    extractChars html
      = chooseResult (methodOne (cleanText html)) (methodTwo (cleanText html)) (cleanText html) := by
  rw [extractChars_methodOne]
  unfold chooseResult
  rcases methodTwo_eq html with h | h
  · rw [h]
    by_cases h1 : methodOne (cleanText html) = []
    · simp [h1]
    · simp [h1]
  · rw [h]
    by_cases h1 : methodOne (cleanText html) = []
    · simp [h1]
    · simp [h1]

/-- C25. For every input, the empty one included, `extractTextFromHTML` returns
the result chosen between the marker truncation (`methodOne`) and the line scan
(`methodTwo`) of the cleaned text as the specification says: whichever is not
empty and strictly shorter; if only one is not empty, that one; if both are
empty, the full cleaned text. When the line scan is not empty it equals the
marker truncation, so that the choice at equal lengths does not matter. -/
theorem extract_choice (html : String) :
    (extractTextFromHTML html).data =
      chooseResult (methodOne (cleanText html.data)) (methodTwo (cleanText html.data))
        (cleanText html.data) ∧
    (methodTwo (cleanText html.data) ≠ [] →
      methodTwo (cleanText html.data) = methodOne (cleanText html.data)) := by
  refine ⟨?_, ?_⟩
  · rw [extractTextFromHTML_data, extractChars_choice]
  · intro h
    rcases methodTwo_eq html.data with h0 | h0
    · exact absurd h0 h
    · exact h0

/-- C29. The cleaned text has no line break, and the line scan never changes
the outcome: it is empty or equal to the marker truncation. For every input
`extractTextFromHTML` returns the cleaned text truncated at the earliest
occurrence of a reply indicator and trimmed, when that is not empty, and the
full cleaned text otherwise. The index of the truncation computed by the code
is the first position at which an indicator starts, the length of the text
when there is none. The result is a prefix of the cleaned text and is not
empty when the cleaned text is not empty. -/
theorem line_scan_never_matters (html : String) :
    '\n' ∉ cleanText html.data ∧
    (methodTwo (cleanText html.data) = [] ∨
      methodTwo (cleanText html.data) = methodOne (cleanText html.data)) ∧
    (extractTextFromHTML html).data =
      (if trimChars ((cleanText html.data).take (earliestIndicator (cleanText html.data))) = []
        then cleanText html.data
        else trimChars ((cleanText html.data).take (earliestIndicator (cleanText html.data)))) ∧
    cutoffIndex (cleanText html.data) = earliestIndicator (cleanText html.data) ∧
    (earliestIndicator (cleanText html.data) < (cleanText html.data).length →
      ∃ p ∈ replyIndicators,
        p.data <+: (cleanText html.data).drop (earliestIndicator (cleanText html.data))) ∧
    (∀ j, j < earliestIndicator (cleanText html.data) →
      ∀ p ∈ replyIndicators, ¬ p.data <+: (cleanText html.data).drop j) ∧
    ((∀ p ∈ replyIndicators, ¬ p.data <:+: cleanText html.data) →
      earliestIndicator (cleanText html.data) = (cleanText html.data).length) ∧
    (extractTextFromHTML html).data <+: cleanText html.data ∧
    (cleanText html.data ≠ [] → (extractTextFromHTML html).data ≠ []) := by
  have hres : (extractTextFromHTML html).data =
      (if trimChars ((cleanText html.data).take (earliestIndicator (cleanText html.data))) = []
        then cleanText html.data
        else trimChars ((cleanText html.data).take (earliestIndicator (cleanText html.data)))) := by
    rw [extractTextFromHTML_data, extractChars_methodOne]
    unfold methodOne
    rw [cutoffIndex_eq_earliest]
  refine ⟨newline_not_mem_cleanText _, methodTwo_eq _, hres, cutoffIndex_eq_earliest _,
    (earliestIndicator_spec _).1, (earliestIndicator_spec _).2, earliestIndicator_of_none _, ?_, ?_⟩
  · rw [hres]
    split_ifs
    · exact List.prefix_refl _
    · exact trimChars_take_isPrefix _ (headNotWhite_cleanText _) _
  · intro hne
    rw [hres]
    split_ifs with h
    · exact hne
    · exact h

/-- The function on two replies of the examples: a quoted message after the
marker `On ` is cut, and a text that starts with a marker is kept whole. -/
theorem extractTextFromHTML_example :
    extractTextFromHTML "<p>Thanks,&nbsp;I am in!</p>\n\nOn Monday Bob wrote: hello" = "Thanks, I am in!" ∧
    extractTextFromHTML "On Monday we meet" = "On Monday we meet" := by
  decide

/-! ## The API keys (C30) -/

theorem base64Value_char : ∀ n, n < 64 → base64Value (base64Char n) = some n := by
  decide

theorem base64Char_not_equals : ∀ n, n < 64 → base64Char n ≠ '=' := by
  decide

theorem base64Char_not_white : ∀ n, n < 64 → isAsciiWhitespace (base64Char n) = false := by
  decide

theorem encrypt_example :
    encryptApiKey "sk-1" = "c2stMUluYm94TWFuYWdlcl8yMDI0X1NhbHRfS2V5" ∧
    encryptApiKey "sk-12" = "c2stMTJJbmJveE1hbmFnZXJfMjAyNF9TYWx0X0tleQ==" ∧
    encryptApiKey "sk-123" = "c2stMTIzSW5ib3hNYW5hZ2VyXzIwMjRfU2FsdF9LZXk=" ∧
    decryptApiKey "c2stMTJJbmJveE1hbmFnZXJfMjAyNF9TYWx0X0tleQ==" = "sk-12" := by
  decide

theorem three_step_induction (P : List Nat → Prop) (h0 : P []) (h1 : ∀ a, P [a])
    (h2 : ∀ a b, P [a, b]) (h3 : ∀ a b c rest, P rest → P (a :: b :: c :: rest)) :
    ∀ l, P l
  | [] => h0
  | [a] => h1 a
  | [a, b] => h2 a b
  | a :: b :: c :: rest => h3 a b c rest (three_step_induction P h0 h1 h2 h3 rest)

theorem encodeBody_length (bytes : List Nat) :
    (encodeBody bytes ++ base64Padding bytes.length).length % 4 = 0 ∧
    (encodeBody bytes).length % 4 ≠ 1 := by
  induction bytes using three_step_induction with
  | h0 => decide
  | h1 a =>
    refine ⟨by simp [encodeBody, base64Padding], ?_⟩
    show (2 : ℕ) % 4 ≠ 1
    decide
  | h2 a b =>
    refine ⟨by simp [encodeBody, base64Padding], ?_⟩
    show (3 : ℕ) % 4 ≠ 1
    decide
  | h3 a b c rest ih =>
    have hp : base64Padding (a :: b :: c :: rest).length = base64Padding rest.length := by
      unfold base64Padding
      simp only [List.length_cons]
      have : (rest.length + 1 + 1 + 1) % 3 = rest.length % 3 := by omega
      simp only [this]
    rw [hp]
    simp only [encodeBody, List.cons_append, List.length_cons]
    omega

theorem encodeBody_digits (bytes : List Nat) (h : ∀ x ∈ bytes, x < 256) :
    ∀ ch ∈ encodeBody bytes, ch ≠ '=' ∧ isAsciiWhitespace ch = false := by
  induction bytes using three_step_induction with
  | h0 => intro ch hc; cases hc
  | h1 a =>
    have ha := h a (by simp)
    intro ch hc
    simp only [encodeBody, List.mem_cons, List.mem_singleton, List.not_mem_nil, or_false] at hc
    rcases hc with hc | hc <;> rw [hc] <;>
      exact ⟨base64Char_not_equals _ (by omega), base64Char_not_white _ (by omega)⟩
  | h2 a b =>
    have ha := h a (by simp)
    have hb := h b (by simp)
    intro ch hc
    simp only [encodeBody, List.mem_cons, List.mem_singleton, List.not_mem_nil, or_false] at hc
    rcases hc with hc | hc | hc <;> rw [hc] <;>
      exact ⟨base64Char_not_equals _ (by omega), base64Char_not_white _ (by omega)⟩
  | h3 a b c rest ih =>
    have ha := h a (by simp)
    have hb := h b (by simp)
    have hc3 := h c (by simp)
    intro ch hc
    simp only [encodeBody, List.mem_cons] at hc
    rcases hc with hc | hc | hc | hc | hc
    · rw [hc]; exact ⟨base64Char_not_equals _ (by omega), base64Char_not_white _ (by omega)⟩
    · rw [hc]; exact ⟨base64Char_not_equals _ (by omega), base64Char_not_white _ (by omega)⟩
    · rw [hc]; exact ⟨base64Char_not_equals _ (by omega), base64Char_not_white _ (by omega)⟩
    · rw [hc]; exact ⟨base64Char_not_equals _ (by omega), base64Char_not_white _ (by omega)⟩
    · exact ih (fun x hx => h x (by simp [hx])) ch hc

theorem decode_encodeBody (bytes : List Nat) (h : ∀ x ∈ bytes, x < 256) :
    ∃ sextets, sextetsOf (encodeBody bytes) = some sextets ∧ decodeSextets sextets = bytes := by
  induction bytes using three_step_induction with
  | h0 => exact ⟨[], rfl, rfl⟩
  | h1 a =>
    have ha := h a (by simp)
    refine ⟨[a / 4, a % 4 * 16], ?_, ?_⟩
    · simp only [encodeBody, sextetsOf, base64Value_char _ (show a / 4 < 64 by omega),
        base64Value_char _ (show a % 4 * 16 < 64 by omega)]
    · simp only [decodeSextets, List.cons.injEq, and_true]
      omega
  | h2 a b =>
    have ha := h a (by simp)
    have hb := h b (by simp)
    refine ⟨[a / 4, a % 4 * 16 + b / 16, b % 16 * 4], ?_, ?_⟩
    · simp only [encodeBody, sextetsOf, base64Value_char _ (show a / 4 < 64 by omega),
        base64Value_char _ (show a % 4 * 16 + b / 16 < 64 by omega),
        base64Value_char _ (show b % 16 * 4 < 64 by omega)]
    · simp only [decodeSextets, List.cons.injEq, and_true]
      omega
  | h3 a b c rest ih =>
    have ha := h a (by simp)
    have hb := h b (by simp)
    have hc := h c (by simp)
    obtain ⟨vs, hvs, hdec⟩ := ih (fun x hx => h x (by simp [hx]))
    refine ⟨a / 4 :: (a % 4 * 16 + b / 16) :: (b % 16 * 4 + c / 64) :: c % 64 :: vs, ?_, ?_⟩
    · simp only [encodeBody, sextetsOf, base64Value_char _ (show a / 4 < 64 by omega),
        base64Value_char _ (show a % 4 * 16 + b / 16 < 64 by omega),
        base64Value_char _ (show b % 16 * 4 + c / 64 < 64 by omega),
        base64Value_char _ (show c % 64 < 64 by omega), hvs]
    · simp only [decodeSextets, hdec, List.cons.injEq, and_true]
      omega

theorem dropEquals_of_not_mem (l : List Char) (h : '=' ∉ l) : dropEquals l = l := by
  cases l with
  | nil => rfl
  | cons c cs =>
    show (if c = '=' then cs else c :: cs) = c :: cs
    rw [if_neg]
    intro hc
    exact h (hc ▸ List.mem_cons_self _ _)

theorem dropEquals_cons (l : List Char) : dropEquals ('=' :: l) = l := rfl

theorem stripPadding_encode (body : List Char) (n : ℕ) (h : '=' ∉ body)
    (hlen : (body ++ base64Padding n).length % 4 = 0) :
    stripPadding (body ++ base64Padding n) = body := by
  have hrev : '=' ∉ body.reverse := by rwa [List.mem_reverse]
  unfold stripPadding
  rw [if_pos hlen]
  unfold base64Padding
  split_ifs
  · rw [List.reverse_append]
    show (dropEquals (dropEquals ('=' :: '=' :: body.reverse))).reverse = body
    rw [dropEquals_cons, dropEquals_cons, List.reverse_reverse]
  · rw [List.reverse_append]
    show (dropEquals (dropEquals ('=' :: body.reverse))).reverse = body
    rw [dropEquals_cons, dropEquals_of_not_mem _ hrev, List.reverse_reverse]
  · rw [List.append_nil, dropEquals_of_not_mem _ hrev, dropEquals_of_not_mem _ hrev,
      List.reverse_reverse]

theorem filter_of_all (l : List Char) (p : Char → Bool) (h : ∀ c ∈ l, p c = true) :
    l.filter p = l :=
  List.filter_eq_self.mpr h

theorem map_ofNat_toNat (l : List Char) : (l.map Char.toNat).map Char.ofNat = l := by
  induction l with
  | nil => rfl
  | cons c cs ih =>
    rw [List.map_cons, List.map_cons, ih, Char.ofNat_toNat]

/-- The function `atob` undoes `btoa` on the strings of characters up to
U+00FF. -/
theorem atob_btoa (s : String) (h : ∀ c ∈ s.data, c.toNat ≤ 255) :
    ∃ encoded, btoa s = some encoded ∧ atob encoded = some s ∧ (s ≠ "" → encoded ≠ "") := by
  have hall : s.data.all (fun c => decide (c.toNat ≤ 255)) = true := by
    rw [List.all_eq_true]
    intro c hc
    exact decide_eq_true (h c hc)
  have hbytes : ∀ x ∈ s.data.map Char.toNat, x < 256 := by
    intro x hx
    obtain ⟨c, hc, hcx⟩ := List.mem_map.mp hx
    have := h c hc
    omega
  refine ⟨⟨encodeBody (s.data.map Char.toNat) ++ base64Padding s.data.length⟩, ?_, ?_, ?_⟩
  · unfold btoa
    rw [if_pos hall]
  · have hdig := encodeBody_digits _ hbytes
    have hnoeq : '=' ∉ encodeBody (s.data.map Char.toNat) := fun hm => (hdig _ hm).1 rfl
    have hlen := encodeBody_length (s.data.map Char.toNat)
    rw [List.length_map] at hlen
    have hfilter : (encodeBody (s.data.map Char.toNat) ++ base64Padding s.data.length).filter
        (fun c => !isAsciiWhitespace c)
        = encodeBody (s.data.map Char.toNat) ++ base64Padding s.data.length := by
      apply filter_of_all
      intro c hc
      rcases List.mem_append.mp hc with h1 | h1
      · rw [(hdig c h1).2]
        rfl
      · have : c = '=' := by
          unfold base64Padding at h1
          split_ifs at h1 <;> simp at h1 <;> exact h1
        rw [this]
        decide
    obtain ⟨vs, hvs, hdec⟩ := decode_encodeBody _ hbytes
    unfold atob
    simp only [hfilter, stripPadding_encode _ _ hnoeq hlen.1, if_neg hlen.2, hvs, hdec,
      map_ofNat_toNat]
  · intro hne heq
    have hd : (encodeBody (s.data.map Char.toNat) ++ base64Padding s.data.length) = [] :=
      congrArg String.data heq
    have hb : encodeBody (s.data.map Char.toNat) = [] := (List.append_eq_nil.mp hd).1
    apply hne
    cases hs : s.data with
    | nil =>
      apply String.ext
      rw [hs]
    | cons c cs =>
      rw [hs] at hb
      cases cs with
      | nil => simp [encodeBody] at hb
      | cons c2 cs2 =>
        cases cs2 with
        | nil => simp [encodeBody] at hb
        | cons c3 cs3 => simp [encodeBody] at hb

theorem salt_overlap : ∀ j, j < 26 → 0 < j →
    ¬ ENCRYPTION_SALT.data <+: ENCRYPTION_SALT.data.take j ++ ENCRYPTION_SALT.data := by
  decide

theorem salt_length : ENCRYPTION_SALT.data.length = 26 := rfl

theorem salt_latin : ∀ c ∈ ENCRYPTION_SALT.data, c.toNat ≤ 255 := by
  decide

/-- The salt has no proper overlap with itself: it starts in a text that ends
with it only at the end, or inside the part before it. -/
theorem salt_prefix_of_append (key : List Char)
    (h : ENCRYPTION_SALT.data <+: key ++ ENCRYPTION_SALT.data) :
    key = [] ∨ ENCRYPTION_SALT.data <:+: key := by
  by_cases hlen : ENCRYPTION_SALT.data.length ≤ key.length
  · right
    exact (List.prefix_of_prefix_length_le h (List.prefix_append _ _) hlen).isInfix
  · have hk : key <+: ENCRYPTION_SALT.data :=
      List.prefix_of_prefix_length_le (List.prefix_append _ _) h (by omega)
    have hkey : ENCRYPTION_SALT.data.take key.length = key := (List.prefix_iff_eq_take.mp hk).symm
    by_cases h0 : key.length = 0
    · left
      exact List.length_eq_zero.mp h0
    · exfalso
      have hno := salt_overlap key.length (by rw [salt_length] at hlen; omega) (by omega)
      rw [hkey] at hno
      exact hno h

theorem replaceFirst_salt (key : List Char) (h : ¬ ENCRYPTION_SALT.data <:+: key) :
    replaceFirst ENCRYPTION_SALT.data [] (key ++ ENCRYPTION_SALT.data) = key := by
  induction key with
  | nil => decide
  | cons c cs ih =>
    have hnp : ¬ ENCRYPTION_SALT.data.isPrefixOf (c :: (cs ++ ENCRYPTION_SALT.data)) = true := by
      intro hp
      rcases salt_prefix_of_append (c :: cs) (List.isPrefixOf_iff_prefix.mp hp) with h1 | h1
      · cases h1
      · exact h h1
    show (if ENCRYPTION_SALT.data.isPrefixOf (c :: (cs ++ ENCRYPTION_SALT.data)) = true
      then [] ++ (c :: (cs ++ ENCRYPTION_SALT.data)).drop ENCRYPTION_SALT.data.length
      else c :: replaceFirst ENCRYPTION_SALT.data [] (cs ++ ENCRYPTION_SALT.data)) = c :: cs
    rw [if_neg hnp, ih]
    intro hin
    exact h (hin.trans (List.suffix_cons c cs).isInfix)

/-- C30. For every key made of characters up to U+00FF that does not contain
the salt `InboxManager_2024_Salt_Key` as a substring, the empty key included,
`decryptApiKey(encryptApiKey(key))` is `key`. -/
theorem decrypt_encrypt (key : String) (hlatin : ∀ c ∈ key.data, c.toNat ≤ 255)
    (hsalt : includes key ENCRYPTION_SALT = false) :
    decryptApiKey (encryptApiKey key) = key := by
  by_cases hk : key = ""
  · rw [hk]
    rfl
  · have hno : ¬ ENCRYPTION_SALT.data <:+: key.data := by
      intro hin
      unfold includes at hsalt
      rw [decide_eq_false_iff_not] at hsalt
      exact hsalt hin
    have hl : ∀ c ∈ (key ++ ENCRYPTION_SALT).data, c.toNat ≤ 255 := by
      rw [String.data_append]
      intro c hc
      rcases List.mem_append.mp hc with h | h
      · exact hlatin c h
      · exact salt_latin c h
    obtain ⟨encoded, hb, ha, hne⟩ := atob_btoa (key ++ ENCRYPTION_SALT) hl
    have hne2 : encoded ≠ "" := by
      apply hne
      intro h0
      have hd : key.data ++ ENCRYPTION_SALT.data = [] := by
        rw [← String.data_append, h0]
      apply hk
      apply String.ext
      exact (List.append_eq_nil.mp hd).1
    unfold encryptApiKey
    rw [if_neg hk, hb]
    simp only []
    unfold decryptApiKey
    rw [if_neg hne2, ha]
    simp only []
    apply String.ext
    show replaceFirst ENCRYPTION_SALT.data [] (key ++ ENCRYPTION_SALT).data = key.data
    rw [String.data_append, replaceFirst_salt _ hno]

theorem decrypt_encrypt_witness :
    (∀ c ∈ "sk-live-123".data, c.toNat ≤ 255) ∧
    includes "sk-live-123" ENCRYPTION_SALT = false ∧
    decryptApiKey (encryptApiKey "sk-live-123") = "sk-live-123" :=
  ⟨by decide, by decide, decrypt_encrypt "sk-live-123" (by decide) (by decide)⟩

set_option maxRecDepth 4000 in

/-- The condition on the salt is needed: a key that contains the salt loses
that occurrence, not the one appended. -/
theorem decrypt_encrypt_salted_key :
    decryptApiKey (encryptApiKey "aInboxManager_2024_Salt_Keyb") = "abInboxManager_2024_Salt_Key" := by
  decide

/-! ## The groups of the campaign and category rollups -/

theorem lookup_isNone_iff {κ α : Type} [DecidableEq κ] (acc : List (κ × α)) (k : κ) :
    (acc.lookup k).isNone = true ↔ k ∉ acc.map (fun entry => entry.1) := by
  induction acc with
  | nil => simp
  | cons e rest ih =>
    obtain ⟨k2, v⟩ := e
    by_cases h : k = k2
    · subst h
      simp [List.lookup]
    · have hb : (k == k2) = false := by simpa using h
      simp only [List.lookup, hb, List.map_cons, List.mem_cons, h, false_or]
      exact ih

theorem map_update_keys {κ α : Type} [DecidableEq κ] (acc : List (κ × α)) (k : κ) (f : α → α) :
    (acc.map (fun entry => if entry.1 = k then (entry.1, f entry.2) else entry)).map
        (fun entry => entry.1)
      = acc.map (fun entry => entry.1) := by
  rw [List.map_map]
  apply List.map_congr_left
  intro e _
  simp only [Function.comp]
  split_ifs <;> rfl

theorem groupStep_keys {κ α : Type} [DecidableEq κ] (key : Lead → κ) (init : κ → α)
    (add : Lead → α → α) (acc : List (κ × α)) (lead : Lead) :
    (groupStep key init add acc lead).map (fun entry => entry.1)
      = if key lead ∈ acc.map (fun entry => entry.1) then acc.map (fun entry => entry.1)
        else acc.map (fun entry => entry.1) ++ [key lead] := by
  unfold groupStep
  simp only []
  rw [map_update_keys]
  by_cases h : key lead ∈ acc.map (fun entry => entry.1)
  · have hn : ¬ (acc.lookup (key lead)).isNone = true := by
      rw [lookup_isNone_iff]
      exact fun hc => hc h
    rw [if_neg hn, if_pos h]
  · have hn : (acc.lookup (key lead)).isNone = true := (lookup_isNone_iff acc _).mpr h
    rw [if_pos hn, if_neg h, List.map_append]
    rfl

theorem groupValue_append {κ α : Type} [DecidableEq κ] (key : Lead → κ) (init : κ → α)
    (add : Lead → α → α) (k : κ) (leads : List Lead) (x : Lead) :
    groupValue key init add k (leads ++ [x])
      = if key x = k then add x (groupValue key init add k leads)
        else groupValue key init add k leads := by
  unfold groupValue
  rw [List.filter_append, List.foldl_append]
  by_cases h : key x = k
  · simp [h]
  · simp [h]

theorem groupValue_of_no_lead {κ α : Type} [DecidableEq κ] (key : Lead → κ) (init : κ → α)
    (add : Lead → α → α) (k : κ) (leads : List Lead) (h : ∀ lead ∈ leads, key lead ≠ k) :
    groupValue key init add k leads = init k := by
  unfold groupValue
  have : leads.filter (fun lead => decide (key lead = k)) = [] := by
    rw [List.filter_eq_nil_iff]
    intro lead hl
    simpa using h lead hl
  rw [this]
  rfl

theorem mem_groupStep {κ α : Type} [DecidableEq κ] (key : Lead → κ) (init : κ → α)
    (add : Lead → α → α) (acc : List (κ × α)) (lead : Lead) (entry : κ × α) :
    entry ∈ groupStep key init add acc lead ↔
      ∃ e0 ∈ (if (acc.lookup (key lead)).isNone = true then acc ++ [(key lead, init (key lead))]
          else acc),
        (if e0.1 = key lead then (e0.1, add lead e0.2) else e0) = entry := by
  unfold groupStep
  simp only [List.mem_map]

/-- The accumulator of a reduction by `groupStep`: one entry for each key of a
lead, holding the value of the key. -/
theorem foldl_groupStep {κ α : Type} [DecidableEq κ] (key : Lead → κ) (init : κ → α)
    (add : Lead → α → α) (leads : List Lead) :
    ((leads.foldl (groupStep key init add) []).map (fun entry => entry.1)).Nodup ∧
    (∀ k, k ∈ (leads.foldl (groupStep key init add) []).map (fun entry => entry.1) ↔
      ∃ lead ∈ leads, key lead = k) ∧
    (∀ entry ∈ leads.foldl (groupStep key init add) [],
      entry.2 = groupValue key init add entry.1 leads) := by
  induction leads using List.reverseRecOn with
  | nil =>
    refine ⟨List.nodup_nil, ?_, ?_⟩
    · intro k
      simp
    · intro entry h
      cases h
  | append_singleton l x ih =>
    obtain ⟨hnd, hmem, hval⟩ := ih
    rw [List.foldl_append, List.foldl_cons, List.foldl_nil]
    have hkeys := groupStep_keys key init add (l.foldl (groupStep key init add) []) x
    refine ⟨?_, ?_, ?_⟩
    · rw [hkeys]
      split_ifs with h
      · exact hnd
      · rw [List.nodup_append]
        refine ⟨hnd, List.nodup_singleton _, ?_⟩
        intro a ha hb
        rw [List.mem_singleton] at hb
        rw [hb] at ha
        exact h ha
    · intro k
      rw [hkeys]
      split_ifs with h
      · rw [hmem]
        constructor
        · rintro ⟨lead, hl, hk⟩
          exact ⟨lead, List.mem_append_left _ hl, hk⟩
        · rintro ⟨lead, hl, hk⟩
          rcases List.mem_append.mp hl with h1 | h1
          · exact ⟨lead, h1, hk⟩
          · rw [List.mem_singleton] at h1
            rw [h1] at hk
            rw [← hk]
            exact (hmem _).mp h
      · rw [List.mem_append, hmem, List.mem_singleton]
        constructor
        · rintro (⟨lead, hl, hk⟩ | hk)
          · exact ⟨lead, List.mem_append_left _ hl, hk⟩
          · exact ⟨x, List.mem_append_right _ (List.mem_singleton_self x), hk.symm⟩
        · rintro ⟨lead, hl, hk⟩
          rcases List.mem_append.mp hl with h1 | h1
          · exact Or.inl ⟨lead, h1, hk⟩
          · rw [List.mem_singleton] at h1
            rw [h1] at hk
            exact Or.inr hk.symm
    · intro entry he
      rw [mem_groupStep] at he
      obtain ⟨e0, he0, heq⟩ := he
      have hold : e0.2 = groupValue key init add e0.1 l := by
        by_cases hn : ((l.foldl (groupStep key init add) []).lookup (key x)).isNone = true
        · rw [if_pos hn, List.mem_append, List.mem_singleton] at he0
          rcases he0 with h1 | h1
          · exact hval e0 h1
          · rw [h1]
            have hnot := (lookup_isNone_iff _ _).mp hn
            rw [hmem] at hnot
            symm
            apply groupValue_of_no_lead
            intro lead hl hk
            exact hnot ⟨lead, hl, hk⟩
        · rw [if_neg hn] at he0
          exact hval e0 he0
      rw [groupValue_append]
      by_cases hk : e0.1 = key x
      · rw [if_pos hk] at heq
        rw [← heq]
        simp only []
        rw [if_pos hk.symm, hold]
      · rw [if_neg hk] at heq
        rw [← heq, if_neg (fun h => hk h.symm), hold]

theorem filterMap_index_snd {κ α : Type} (index : κ → Option Nat) (acc : List (κ × α)) :
    (acc.filterMap (fun entry => (index entry.1).map (fun i => (i, entry)))).map (fun x => x.2)
      = acc.filter (fun entry => (index entry.1).isSome) := by
  induction acc with
  | nil => rfl
  | cons e rest ih =>
    cases h : index e.1 with
    | none => simp [List.filterMap_cons, List.filter_cons, h, ih]
    | some i => simp [List.filterMap_cons, List.filter_cons, h, ih]

theorem ownEntries_perm {κ α : Type} (index : κ → Option Nat) (acc : List (κ × α)) :
    (ownEntries index acc).Perm acc := by
  unfold ownEntries
  have h1 := (List.perm_insertionSort (fun (x y : ℕ × κ × α) => x.1 ≤ y.1)
    (acc.filterMap (fun entry => (index entry.1).map (fun i => (i, entry))))).map (fun x => x.2)
  rw [filterMap_index_snd] at h1
  have h2 : (acc.filter (fun entry => (index entry.1).isSome)
      ++ acc.filter (fun entry => (index entry.1).isNone)).Perm acc := by
    have h3 := List.filter_append_perm (fun entry : κ × α => (index entry.1).isSome) acc
    have h4 : acc.filter (fun entry => (index entry.1).isNone)
        = acc.filter (fun x => !(fun entry : κ × α => (index entry.1).isSome) x) := by
      apply List.filter_congr
      intro e _
      cases h : index e.1 <;> simp [h]
    rw [h4]
    exact h3
  exact (h1.append_right _).trans h2

theorem campaignStatsOf_perm (b : Builtins) (fl : List Lead) :
    (campaignStatsOf b fl).Perm ((campaignPerformance b fl).map (fun entry => campaignStatOf entry.2)) := by
  unfold campaignStatsOf
  exact (List.perm_insertionSort _ _).trans ((ownEntries_perm _ _).map _)

theorem categoryStatsOf_perm (b : Builtins) (fl : List Lead) :
    (categoryStatsOf b fl).Perm ((categoryPerformance b fl).map categoryStatOf) := by
  unfold categoryStatsOf
  exact (List.perm_insertionSort _ _).trans ((ownEntries_perm _ _).map _)

theorem campaignStatsOf_sorted (b : Builtins) (fl : List Lead) :
    (campaignStatsOf b fl).Pairwise (fun x y => x.avgEngagement ≥ y.avgEngagement) := by
  haveI : IsTotal CampaignStat (fun x y => x.avgEngagement ≥ y.avgEngagement) :=
    ⟨fun x y => le_total y.avgEngagement x.avgEngagement⟩
  haveI : IsTrans CampaignStat (fun x y => x.avgEngagement ≥ y.avgEngagement) :=
    ⟨fun _ _ _ h1 h2 => le_trans h2 h1⟩
  unfold campaignStatsOf
  exact List.sorted_insertionSort _ _

theorem categoryStatsOf_sorted (b : Builtins) (fl : List Lead) :
    (categoryStatsOf b fl).Pairwise (fun x y => x.avgEngagement ≥ y.avgEngagement) := by
  haveI : IsTotal CategoryStat (fun x y => x.avgEngagement ≥ y.avgEngagement) :=
    ⟨fun x y => le_total y.avgEngagement x.avgEngagement⟩
  haveI : IsTrans CategoryStat (fun x y => x.avgEngagement ≥ y.avgEngagement) :=
    ⟨fun _ _ _ h1 h2 => le_trans h2 h1⟩
  unfold categoryStatsOf
  exact List.sorted_insertionSort _ _

theorem foldl_campaignAdd (ls : List Lead) :
    ∀ start : CampaignGroup,
      (ls.foldl (fun g lead => campaignAdd lead g) start).name = start.name ∧
      (ls.foldl (fun g lead => campaignAdd lead g) start).totalLeads
        = start.totalLeads + ls.length ∧
      (ls.foldl (fun g lead => campaignAdd lead g) start).totalEngagement
        = start.totalEngagement + (ls.map (fun lead => lead.engagement_score)).sum := by
  induction ls with
  | nil => intro start; simp
  | cons x rest ih =>
    intro start
    rw [List.foldl_cons]
    obtain ⟨h1, h2, h3⟩ := ih (campaignAdd x start)
    rw [h1, h2, h3]
    simp only [campaignAdd, List.length_cons, List.map_cons, List.sum_cons]
    refine ⟨trivial, by omega, by ring⟩

theorem foldl_categoryAdd (ls : List Lead) :
    ∀ start : CategoryGroup,
      (ls.foldl (fun g lead => categoryAdd lead g) start).totalLeads
        = start.totalLeads + ls.length ∧
      (ls.foldl (fun g lead => categoryAdd lead g) start).totalEngagement
        = start.totalEngagement + (ls.map (fun lead => lead.engagement_score)).sum := by
  induction ls with
  | nil => intro start; simp
  | cons x rest ih =>
    intro start
    rw [List.foldl_cons]
    obtain ⟨h2, h3⟩ := ih (categoryAdd x start)
    rw [h2, h3]
    simp only [categoryAdd, List.length_cons, List.map_cons, List.sum_cons]
    refine ⟨by omega, by ring⟩

/-- The statistics of a campaign group: its name, the number of its leads and
the mean of their engagement scores. -/
theorem campaignStat_of_entry (b : Builtins) (fl : List Lead) (entry : String × CampaignGroup)
    (he : entry ∈ campaignPerformance b fl) :
    (∃ lead ∈ fl, campaignKey b lead = entry.1) ∧
    (campaignStatOf entry.2).name = "Campaign " ++ entry.1 ∧
    (campaignStatOf entry.2).totalLeads = (leadsOfCampaign b entry.1 fl).length ∧
    (campaignStatOf entry.2).avgEngagement
      = roundDouble (meanEngagement (leadsOfCampaign b entry.1 fl)) := by
  obtain ⟨_, hmem, hval⟩ := foldl_groupStep (campaignKey b) campaignInit campaignAdd fl
  have hk : ∃ lead ∈ fl, campaignKey b lead = entry.1 :=
    (hmem entry.1).mp (List.mem_map.mpr ⟨entry, he, rfl⟩)
  have hv := hval entry he
  obtain ⟨h1, h2, h3⟩ := foldl_campaignAdd (leadsOfCampaign b entry.1 fl) (campaignInit entry.1)
  have hpos : 0 < (leadsOfCampaign b entry.1 fl).length := by
    obtain ⟨lead, hl, hkey⟩ := hk
    apply List.length_pos_of_mem (a := lead)
    unfold leadsOfCampaign
    rw [List.mem_filter]
    exact ⟨hl, by simpa using hkey⟩
  have hname : entry.2.name = "Campaign " ++ entry.1 := by
    rw [hv]
    exact h1
  have hleads : entry.2.totalLeads = (leadsOfCampaign b entry.1 fl).length := by
    rw [hv]
    unfold groupValue
    show (List.foldl (fun g lead => campaignAdd lead g) (campaignInit entry.1)
      (leadsOfCampaign b entry.1 fl)).totalLeads = _
    rw [h2]
    simp [campaignInit]
  have heng : entry.2.totalEngagement
      = ((leadsOfCampaign b entry.1 fl).map (fun lead => lead.engagement_score)).sum := by
    rw [hv]
    unfold groupValue
    show (List.foldl (fun g lead => campaignAdd lead g) (campaignInit entry.1)
      (leadsOfCampaign b entry.1 fl)).totalEngagement = _
    rw [h3]
    simp [campaignInit]
  refine ⟨hk, hname, hleads, ?_⟩
  unfold campaignStatOf meanEngagement
  simp only []
  rw [hleads, heng, if_pos hpos]

theorem categoryStat_of_entry (b : Builtins) (fl : List Lead)
    (entry : CategoryName × CategoryGroup) (he : entry ∈ categoryPerformance b fl) :
    (categoryStatOf entry).category = entry.1 ∧
    (categoryStatOf entry).totalLeads = (leadsOfCategory b entry.1 fl).length ∧
    (categoryStatOf entry).avgEngagement
      = roundDouble (meanEngagement (leadsOfCategory b entry.1 fl)) := by
  obtain ⟨_, hmem, hval⟩ := foldl_groupStep (categoryName b) (fun _ => categoryInit) categoryAdd fl
  have hk : ∃ lead ∈ fl, categoryName b lead = entry.1 :=
    (hmem entry.1).mp (List.mem_map.mpr ⟨entry, he, rfl⟩)
  have hv := hval entry he
  obtain ⟨h2, h3⟩ := foldl_categoryAdd (leadsOfCategory b entry.1 fl) categoryInit
  have hpos : 0 < (leadsOfCategory b entry.1 fl).length := by
    obtain ⟨lead, hl, hkey⟩ := hk
    apply List.length_pos_of_mem (a := lead)
    unfold leadsOfCategory
    rw [List.mem_filter]
    exact ⟨hl, by simpa using hkey⟩
  have hleads : entry.2.totalLeads = (leadsOfCategory b entry.1 fl).length := by
    rw [hv]
    unfold groupValue
    show (List.foldl (fun g lead => categoryAdd lead g) categoryInit
      (leadsOfCategory b entry.1 fl)).totalLeads = _
    rw [h2]
    simp [categoryInit]
  have heng : entry.2.totalEngagement
      = ((leadsOfCategory b entry.1 fl).map (fun lead => lead.engagement_score)).sum := by
    rw [hv]
    unfold groupValue
    show (List.foldl (fun g lead => categoryAdd lead g) categoryInit
      (leadsOfCategory b entry.1 fl)).totalEngagement = _
    rw [h3]
    simp [categoryInit]
  refine ⟨rfl, hleads, ?_⟩
  unfold categoryStatOf meanEngagement
  simp only []
  rw [hleads, heng, if_pos hpos]

theorem campaign_name_injective (k1 k2 : String) (h : "Campaign " ++ k1 = "Campaign " ++ k2) :
    k1 = k2 := by
  have hd := congrArg String.data h
  rw [String.data_append, String.data_append] at hd
  exact String.ext (List.append_cancel_left hd)

theorem campaignStatsOf_names (b : Builtins) (fl : List Lead) :
    ((campaignStatsOf b fl).map (fun s => s.name)).Perm
      (((campaignPerformance b fl).map (fun entry => entry.1)).map (fun k => "Campaign " ++ k)) := by
  have h1 := (campaignStatsOf_perm b fl).map (fun s => s.name)
  rw [List.map_map] at h1
  have h2 : (campaignPerformance b fl).map ((fun s => s.name) ∘ fun entry => campaignStatOf entry.2)
      = ((campaignPerformance b fl).map (fun entry => entry.1)).map (fun k => "Campaign " ++ k) := by
    rw [List.map_map]
    apply List.map_congr_left
    intro entry he
    exact (campaignStat_of_entry b fl entry he).2.1
  rw [h2] at h1
  exact h1

theorem categoryStatsOf_categories (b : Builtins) (fl : List Lead) :
    ((categoryStatsOf b fl).map (fun s => s.category)).Perm
      ((categoryPerformance b fl).map (fun entry => entry.1)) := by
  have h1 := (categoryStatsOf_perm b fl).map (fun s => s.category)
  rw [List.map_map] at h1
  exact h1

/-! ## The theorems on the lead transform and on the text extraction, on the examples -/

theorem subject_extraction_witness :
    (transformLead exampleBuiltins exampleNow (exampleLead (some blobSentOnly))).subject = "Pricing" ∧
    subjectName (exampleLead (some blobSentOnly)) = "Ann" ∧
    (transformLead exampleBuiltins exampleNow (exampleLead (some blobSentOnly))).first_name = "Ann" :=
  ⟨(subject_extraction exampleBuiltins exampleNow (exampleLead (some blobSentOnly))).1.trans
      (by decide),
    (subject_extraction exampleBuiltins exampleNow (exampleLead (some blobSentOnly))).2.1
      "Ann" rfl (by decide)⟩

theorem category_tag_witness :
    (transformLead exampleBuiltins exampleNow (exampleLead none)).tags = [some "Interested"] ∧
    (transformLead exampleBuiltins exampleNow exampleInheritedCategory).tags = [none] :=
  ⟨(category_tag exampleBuiltins exampleNow (exampleLead none)).2.2.1
      (.num 1) "Interested" rfl (by decide) (by decide),
    (category_tag exampleBuiltins exampleNow exampleInheritedCategory).2.2.2.2.2
      (.str "constructor") rfl (by decide) (by decide)⟩

theorem parsing_deterministic_witness :
    (transformLead exampleBuiltins "2024-05-01T12:00:00.000Z"
        (exampleLead (some blobUntimedSent))).conversation.map eraseTime
      = (transformLead exampleBuiltins "2024-05-01T12:00:01.000Z"
        (exampleLead (some blobUntimedSent))).conversation.map eraseTime ∧
    (transformLead exampleBuiltins exampleNow (exampleLead (some blobUntimedSent))).conversation
      = (transformLead exampleBuiltins exampleNow (exampleLead (some blobUntimedSent))).conversation :=
  ⟨(parsing_deterministic exampleBuiltins "2024-05-01T12:00:00.000Z" "2024-05-01T12:00:01.000Z"
      (exampleLead (some blobUntimedSent))).2.1,
    (parsing_deterministic exampleBuiltins exampleNow exampleNow
      (exampleLead (some blobUntimedSent))).2.2.2.2 rfl⟩

theorem extract_choice_witness :
    chooseResult (methodOne (cleanText "<p>Thanks!</p> On Monday Bob wrote: hello".data))
        (methodTwo (cleanText "<p>Thanks!</p> On Monday Bob wrote: hello".data))
        (cleanText "<p>Thanks!</p> On Monday Bob wrote: hello".data) = "Thanks!".data ∧
    (extractTextFromHTML "<p>Thanks!</p> On Monday Bob wrote: hello").data = "Thanks!".data :=
  ⟨by decide,
    (extract_choice "<p>Thanks!</p> On Monday Bob wrote: hello").1.trans (by decide)⟩

theorem line_scan_never_matters_witness :
    cleanText "<p>Thanks!</p> On Monday Bob wrote: hello".data
      = "Thanks! On Monday Bob wrote: hello".data ∧
    earliestIndicator (cleanText "<p>Thanks!</p> On Monday Bob wrote: hello".data) = 8 ∧
    (extractTextFromHTML "<p>Thanks!</p> On Monday Bob wrote: hello").data = "Thanks!".data ∧
    (extractTextFromHTML "<p>Thanks!</p> On Monday Bob wrote: hello").data
      <+: cleanText "<p>Thanks!</p> On Monday Bob wrote: hello".data :=
  ⟨by decide, by decide,
    (line_scan_never_matters "<p>Thanks!</p> On Monday Bob wrote: hello").2.2.1.trans (by decide),
    (line_scan_never_matters "<p>Thanks!</p> On Monday Bob wrote: hello").2.2.2.2.2.2.2.1⟩

/-! ## The window of the analytics aggregator (C19) -/

theorem campaignStep_eq (b : Builtins) (fl : List Lead) :
    campaignStep b fl
      = if fl.all (fun lead => !decide (campaignKey b lead ∈ objectPrototypeKeys)) = true
        then .ok () else .error .typeError := by
  unfold campaignStep
  by_cases h : fl.any (fun lead => decide (campaignKey b lead ∈ objectPrototypeKeys)) = true
  · have h2 : ¬ fl.all (fun lead => !decide (campaignKey b lead ∈ objectPrototypeKeys)) = true := by
      intro hall
      obtain ⟨lead, hl, hk⟩ := List.any_eq_true.mp h
      have := List.all_eq_true.mp hall lead hl
      rw [hk] at this
      cases this
    rw [if_pos h, if_neg h2]
    rfl
  · have h2 : fl.all (fun lead => !decide (campaignKey b lead ∈ objectPrototypeKeys)) = true := by
      rw [List.all_eq_true]
      intro lead hl
      cases hk : decide (campaignKey b lead ∈ objectPrototypeKeys) with
      | false => rfl
      | true => exact absurd (List.any_eq_true.mpr ⟨lead, hl, hk⟩) h
    rw [if_neg h, if_pos h2]
    rfl

theorem categoryStep_eq (fl : List Lead) :
    categoryStep fl
      = if fl.all (fun lead =>
          match categoryKey lead with
          | some k => !decide (k ∈ objectPrototypeKeys)
          | none => true) = true
        then .ok () else .error .typeError := by
  unfold categoryStep
  by_cases h : fl.any (fun lead =>
      match categoryKey lead with
      | some k => decide (k ∈ objectPrototypeKeys)
      | none => false) = true
  · have h2 : ¬ fl.all (fun lead =>
        match categoryKey lead with
        | some k => !decide (k ∈ objectPrototypeKeys)
        | none => true) = true := by
      intro hall
      obtain ⟨lead, hl, hk⟩ := List.any_eq_true.mp h
      have := List.all_eq_true.mp hall lead hl
      cases hc : categoryKey lead with
      | none => rw [hc] at hk; cases hk
      | some k =>
        rw [hc] at hk this
        simp only [] at hk this
        rw [hk] at this
        cases this
    rw [if_pos h, if_neg h2]
    rfl
  · have h2 : fl.all (fun lead =>
        match categoryKey lead with
        | some k => !decide (k ∈ objectPrototypeKeys)
        | none => true) = true := by
      rw [List.all_eq_true]
      intro lead hl
      cases hc : categoryKey lead with
      | none => rfl
      | some k =>
        simp only []
        cases hk : decide (k ∈ objectPrototypeKeys) with
        | false => rfl
        | true =>
          refine absurd (List.any_eq_true.mpr ⟨lead, hl, ?_⟩) h
          rw [hc]
          exact hk
    rw [if_neg h, if_pos h2]
    rfl

theorem trendsStep_eq (b : Builtins) (daysBack : ℕ) (fl : List Lead) :
    trendsStep daysBack (replyMessagesOf b fl)
      = if (decide (min daysBack 30 = 0) ||
          fl.all (fun lead =>
            lead.conversation.all (fun m => !strictEqStr m.type "REPLY" || isString m.time))) = true
        then .ok () else .error .typeError := by
  have hany : (replyMessagesOf b fl).any (fun rm =>
      match rm.msg.time with
      | .str _ => false
      | _ => true) = true ↔
      ¬ fl.all (fun lead =>
        lead.conversation.all (fun m => !strictEqStr m.type "REPLY" || isString m.time)) = true := by
    rw [List.any_eq_true, List.all_eq_true]
    constructor
    · rintro ⟨rm, hrm, ht⟩ hall
      obtain ⟨lead, hl, hmem, hreply⟩ := mem_replyMessagesOf b fl rm hrm
      have h1 := List.all_eq_true.mp (hall lead hl) rm.msg hmem
      rw [hreply] at h1
      cases hm : rm.msg.time <;> rw [hm] at ht h1 <;> simp [isString] at ht h1
    · intro hnot
      by_contra hno
      apply hnot
      intro lead hl
      rw [List.all_eq_true]
      intro m hm
      cases hr : strictEqStr m.type "REPLY" with
      | false => rfl
      | true =>
        cases ht : isString m.time with
        | true => rfl
        | false =>
          exfalso
          apply hno
          refine ⟨{ msg := m, hour := (b.dateOf m.time).map (getHours b),
                    dayOfWeek := (b.dateOf m.time).map (getDay b) }, ?_, ?_⟩
          · unfold replyMessagesOf
            rw [List.mem_flatMap]
            refine ⟨lead, hl, ?_⟩
            rw [List.mem_map]
            exact ⟨m, List.mem_filter.mpr ⟨hm, hr⟩, rfl⟩
          · cases hmt : m.time <;> simp [hmt, isString] at ht ⊢
  unfold trendsStep
  by_cases hd : min daysBack 30 = 0
  · have h1 : ¬ (min daysBack 30 > 0 ∧ (replyMessagesOf b fl).any (fun rm =>
        match rm.msg.time with
        | .str _ => false
        | _ => true) = true) := by
      rintro ⟨h, _⟩
      omega
    rw [if_neg h1]
    simp only [hd, decide_True, Bool.true_or, if_true]
    rfl
  · by_cases hall : fl.all (fun lead =>
        lead.conversation.all (fun m => !strictEqStr m.type "REPLY" || isString m.time)) = true
    · have h1 : ¬ (min daysBack 30 > 0 ∧ (replyMessagesOf b fl).any (fun rm =>
          match rm.msg.time with
          | .str _ => false
          | _ => true) = true) := by
        rintro ⟨_, h⟩
        exact hany.mp h hall
      rw [if_neg h1]
      simp only [hall, Bool.or_true, if_true]
      rfl
    · have h1 : min daysBack 30 > 0 ∧ (replyMessagesOf b fl).any (fun rm =>
          match rm.msg.time with
          | .str _ => false
          | _ => true) = true := ⟨by omega, hany.mpr hall⟩
      rw [if_pos h1]
      have h2 : ¬ (decide (min daysBack 30 = 0) || fl.all (fun lead =>
          lead.conversation.all (fun m => !strictEqStr m.type "REPLY" || isString m.time))) = true := by
        simp only [Bool.or_eq_true, decide_eq_true_eq]
        rintro (h | h)
        · exact hd h
        · exact hall h
      rw [if_neg h2]
      rfl

/-- The result of `analyticsData` on a non-empty collection: the snapshot of
the leads of the window when the aggregator does not throw on them, a
`TypeError` otherwise. -/
theorem analyticsData_window (b : Builtins) (now : ℤ) (daysBack : ℕ) (leads : List Lead)
    (hne : leads ≠ []) :
    analyticsData b now daysBack leads
      = if typedWindow b daysBack (filteredLeads b now daysBack leads) = true then
          .ok (some
            { totalLeads := (filteredLeads b now daysBack leads).length
              leadsWithMultipleReplies := ((filteredLeads b now daysBack leads).filter (fun lead =>
                decide ((lead.conversation.filter
                  (fun msg => strictEqStr msg.type "REPLY")).length ≥ 2))).length
              totalReplies := (filteredLeads b now daysBack leads).foldl (fun sum lead =>
                sum + (lead.conversation.filter (fun msg => strictEqStr msg.type "REPLY")).length) 0
              campaignStats := (campaignStatsOf b (filteredLeads b now daysBack leads)).take 10
              categoryStats := categoryStatsOf b (filteredLeads b now daysBack leads)
              heatmapData := heatmapDataOf (replyMessagesOf b (filteredLeads b now daysBack leads))
              dateRange := daysBack })
        else .error .typeError := by
  have hlen : ¬ leads.length = 0 := by
    intro h
    exact hne (List.length_eq_zero.mp h)
  unfold analyticsData typedWindow
  simp only [hlen, if_false, bind, Except.bind, pure, Except.pure]
  rw [campaignStep_eq, categoryStep_eq, trendsStep_eq]
  by_cases h1 : (filteredLeads b now daysBack leads).all
      (fun lead => !decide (campaignKey b lead ∈ objectPrototypeKeys)) = true
  · by_cases h2 : (filteredLeads b now daysBack leads).all (fun lead =>
        match categoryKey lead with
        | some k => !decide (k ∈ objectPrototypeKeys)
        | none => true) = true
    · by_cases h3 : (decide (min daysBack 30 = 0) ||
          (filteredLeads b now daysBack leads).all (fun lead =>
            lead.conversation.all
              (fun m => !strictEqStr m.type "REPLY" || isString m.time))) = true
      · simp only [h1, h2, h3, if_true, Bool.and_self]
      · simp only [h1, h2, h3, if_true, if_false, Bool.true_and, Bool.false_eq_true]
    · simp only [h1, h2, if_true, if_false, Bool.true_and, Bool.false_and, Bool.false_eq_true]
  · simp only [h1, if_false, Bool.false_and, Bool.false_eq_true]

theorem cutoffDate_bounded (b : Builtins) (hz : timeZoneBounded b) (now : ℤ) (d : ℕ) :
    now - d * 86400000 - 2 * 86400000 ≤ cutoffDate b now d ∧
    cutoffDate b now d ≤ now - d * 86400000 + 2 * 86400000 := by
  have h1 := abs_le.mp (hz.1 (localTime b now - d * 86400000))
  have h2 := abs_le.mp (hz.2 now)
  unfold cutoffDate
  unfold localTime at h1 ⊢
  constructor <;> linarith [h1.1, h1.2, h2.1, h2.2]

theorem timeZoneBounded_example : timeZoneBounded exampleBuiltins := by
  constructor
  · intro t
    show |t - t| ≤ 86400000
    rw [sub_self]
    norm_num
  · intro t
    show |(0 : ℤ)| ≤ 86400000
    norm_num

theorem timeZoneBounded_dst : timeZoneBounded dstBuiltins := by
  constructor
  · intro t
    show |(if t < 1714478400000 + 3600000 then t else t - 3600000) - t| ≤ 86400000
    split_ifs
    · rw [sub_self]
      norm_num
    · rw [abs_le]
      constructor <;> omega
  · intro t
    show |(if t < 1714478400000 then (0 : ℤ) else 3600000)| ≤ 86400000
    split_ifs <;> norm_num

theorem exampleWindowLeads_window :
    typedWindow dstBuiltins 30
      (exampleWindowLeads.filter (createdInWindow dstBuiltins 1714564800000 30)) = true := by
  decide

/-- C19 (amended). On a non-empty collection of leads, when the aggregator
does not throw on the leads of the window, `analyticsData` returns a snapshot
computed over exactly the leads whose `created_at` is a valid date not before
the cutoff: `totalLeads` is their number, the reply statistics and the heatmap
are those of these leads, and every collection with the same leads in the
window gives the same result. The cutoff is the time value of the local time
of `now` moved back by `d` days: it is `now - d` days when it has that local
time and the offset from UTC of `now`, and in every time zone it is within two
days of it, so a lead created 40 days before `now` is out of the window of 30
days and in the window of 90 days. -/
theorem analytics_window (b : Builtins) (now : ℤ) (d : ℕ) (leads : List Lead)
    (hne : leads ≠ [])
    (htyped : typedWindow b d (leads.filter (createdInWindow b now d)) = true) :
    (∃ a, analyticsData b now d leads = .ok (some a) ∧
      a.totalLeads = leads.countP (createdInWindow b now d) ∧
      a.totalReplies = ((leads.filter (createdInWindow b now d)).map
        (fun lead => countType "REPLY" lead.conversation)).sum ∧
      a.leadsWithMultipleReplies = (leads.filter (createdInWindow b now d)).countP
        (fun lead => decide (2 ≤ countType "REPLY" lead.conversation)) ∧
      a.heatmapData
        = heatmapDataOf (replyMessagesOf b (leads.filter (createdInWindow b now d)))) ∧
    (∀ others, others ≠ [] →
      others.filter (createdInWindow b now d) = leads.filter (createdInWindow b now d) →
      analyticsData b now d others = analyticsData b now d leads) ∧
    (cutoffDate b now d + b.localOffset (cutoffDate b now d)
        = now + b.localOffset now - d * 86400000 →
      b.localOffset (cutoffDate b now d) = b.localOffset now →
      cutoffDate b now d = now - d * 86400000) ∧
    (timeZoneBounded b →
      ∀ lead, newDate b lead.created_at = some (now - 40 * 86400000) →
        createdInWindow b now 30 lead = false ∧ createdInWindow b now 90 lead = true) := by
  have hw : typedWindow b d (filteredLeads b now d leads) = true := by
    rw [filteredLeads_eq]
    exact htyped
  have hok := analyticsData_window b now d leads hne
  rw [if_pos hw] at hok
  refine ⟨⟨_, hok, ?_, ?_, ?_, ?_⟩, ?_, ?_, ?_⟩
  · show (filteredLeads b now d leads).length = _
    rw [filteredLeads_eq, List.countP_eq_length_filter]
  · show (filteredLeads b now d leads).foldl _ 0 = _
    rw [foldl_replies_eq_sum, filteredLeads_eq, zero_add]
  · show ((filteredLeads b now d leads).filter _).length = _
    rw [filteredLeads_eq, List.countP_eq_length_filter]
    simp only [countType, List.countP_eq_length_filter]
  · show heatmapDataOf (replyMessagesOf b (filteredLeads b now d leads)) = _
    rw [filteredLeads_eq]
  · intro others hne2 heq
    rw [analyticsData_window b now d others hne2, analyticsData_window b now d leads hne,
      filteredLeads_eq, filteredLeads_eq, heq]
  · intro hlocal hoff
    rw [hoff] at hlocal
    linarith
  · intro hz lead hdate
    have h30 := cutoffDate_bounded b hz now 30
    have h90 := cutoffDate_bounded b hz now 90
    unfold createdInWindow
    rw [hdate]
    simp only [decide_eq_true_eq, decide_eq_false_iff_not]
    push_cast at h30 h90
    refine ⟨?_, ?_⟩
    · intro h
      linarith [h30.1]
    · linarith [h90.2]

theorem analytics_window_witness :
    exampleWindowLeads ≠ [] ∧
    typedWindow dstBuiltins 30
      (exampleWindowLeads.filter (createdInWindow dstBuiltins 1714564800000 30)) = true ∧
    timeZoneBounded dstBuiltins ∧
    newDate dstBuiltins (exampleCreated "lead-old" "2024-03-22T12:00:00.000Z" []).created_at
      = some (1714564800000 - 40 * 86400000) ∧
    exampleWindowLeads.countP (createdInWindow dstBuiltins 1714564800000 30) = 1 ∧
    ((∃ a, analyticsData dstBuiltins 1714564800000 30 exampleWindowLeads = .ok (some a) ∧
      a.totalLeads = exampleWindowLeads.countP (createdInWindow dstBuiltins 1714564800000 30) ∧
      a.totalReplies = ((exampleWindowLeads.filter
        (createdInWindow dstBuiltins 1714564800000 30)).map
        (fun lead => countType "REPLY" lead.conversation)).sum ∧
      a.leadsWithMultipleReplies = (exampleWindowLeads.filter
        (createdInWindow dstBuiltins 1714564800000 30)).countP
        (fun lead => decide (2 ≤ countType "REPLY" lead.conversation)) ∧
      a.heatmapData = heatmapDataOf (replyMessagesOf dstBuiltins
        (exampleWindowLeads.filter (createdInWindow dstBuiltins 1714564800000 30)))) ∧
    (∀ others, others ≠ [] →
      others.filter (createdInWindow dstBuiltins 1714564800000 30)
        = exampleWindowLeads.filter (createdInWindow dstBuiltins 1714564800000 30) →
      analyticsData dstBuiltins 1714564800000 30 others
        = analyticsData dstBuiltins 1714564800000 30 exampleWindowLeads) ∧
    (cutoffDate dstBuiltins 1714564800000 30
          + dstBuiltins.localOffset (cutoffDate dstBuiltins 1714564800000 30)
        = 1714564800000 + dstBuiltins.localOffset 1714564800000 - ((30 : ℕ) : ℤ) * 86400000 →
      dstBuiltins.localOffset (cutoffDate dstBuiltins 1714564800000 30)
        = dstBuiltins.localOffset 1714564800000 →
      cutoffDate dstBuiltins 1714564800000 30
        = 1714564800000 - ((30 : ℕ) : ℤ) * 86400000) ∧
    (timeZoneBounded dstBuiltins →
      ∀ lead, newDate dstBuiltins lead.created_at = some (1714564800000 - 40 * 86400000) →
        createdInWindow dstBuiltins 1714564800000 30 lead = false ∧
        createdInWindow dstBuiltins 1714564800000 90 lead = true)) :=
  ⟨List.cons_ne_nil _ _, exampleWindowLeads_window, timeZoneBounded_dst, by decide, by decide,
    analytics_window dstBuiltins 1714564800000 30 exampleWindowLeads (List.cons_ne_nil _ _)
      exampleWindowLeads_window⟩

theorem exampleNumericTimeLead_window :
    [exampleNumericTimeLead].filter (createdInWindow exampleBuiltins 1714564800000 30)
      = [exampleNumericTimeLead] ∧
    typedWindow exampleBuiltins 30 [exampleNumericTimeLead] = false ∧
    exampleNumericTimeLead.conversation.map (fun m => (m.type, m.time))
      = [(.str "SENT", .num 1000), (.str "REPLY", .num 7201000)] := by
  refine ⟨?_, ?_, ?_⟩
  · rfl
  · decide
  · rfl

theorem exampleDstLead_window :
    filteredLeads dstBuiltins 1714564800000 30 [exampleDstLead] = [] ∧
    typedWindow dstBuiltins 30 [] = true := by
  exact ⟨rfl, rfl⟩

/-- C19 fails as stated, in two ways. The lead that the transform builds from
a blob with numeric times is created in the window of 30 days, and on the
collection of this lead `analyticsData` throws a `TypeError` instead of
returning statistics. In a time zone that moved its clocks forward by one hour
the day before `now`, the cutoff of 30 days is one hour after `now - 30` days,
and a lead created 29 days, 23 hours and 30 minutes before `now` is not
counted: `totalLeads` is 0. -/
theorem analytics_window_counterexample :
    (createdInWindow exampleBuiltins 1714564800000 30 exampleNumericTimeLead = true ∧
      analyticsData exampleBuiltins 1714564800000 30 [exampleNumericTimeLead]
        = .error .typeError) ∧
    (newDate dstBuiltins exampleDstLead.created_at
        = some (1714564800000 - 30 * 86400000 + 1800000) ∧
      cutoffDate dstBuiltins 1714564800000 30 = 1714564800000 - 30 * 86400000 + 3600000 ∧
      ∃ a, analyticsData dstBuiltins 1714564800000 30 [exampleDstLead] = .ok (some a) ∧
        a.totalLeads = 0) := by
  refine ⟨⟨by decide, ?_⟩, by decide, by decide, ?_⟩
  · rw [analyticsData_window _ _ _ _ (List.cons_ne_nil _ _), filteredLeads_eq,
      exampleNumericTimeLead_window.1, exampleNumericTimeLead_window.2.1]
    rfl
  · have hok := analyticsData_window dstBuiltins 1714564800000 30 [exampleDstLead]
      (List.cons_ne_nil _ _)
    rw [exampleDstLead_window.1, if_pos exampleDstLead_window.2] at hok
    exact ⟨_, hok, rfl⟩

/-! ## The campaign and category rollups (C21) -/

theorem exampleRollupLeads_rows :
    campaignRows (analyticsData exampleBuiltins 1714564800000 30 exampleRollupLeads)
      = [("Campaign 10", 1, 100), ("Campaign 9", 1, 90), ("Campaign 8", 1, 80),
         ("Campaign 7", 1, 70), ("Campaign 12", 2, 125 / 2), ("Campaign 6", 1, 60),
         ("Campaign Unknown Campaign", 1, 55), ("Campaign 5", 1, 50), ("Campaign 4", 1, 40),
         ("Campaign 3", 1, 30)] := by
  decide!

theorem exampleRollupLeads_categories :
    categoryRows (analyticsData exampleBuiltins 1714564800000 30 exampleRollupLeads)
      = [(.inherited "constructor", 2, 60), (.inherited "toString", 1, 60),
         (.tag "Interested", 6, roundDouble (355 / 6)), (.tag "Meeting Request", 2, 50),
         (.tag "Uncategorized", 2, 95 / 2), (.tag "Not Interested", 3, roundDouble (50 / 3))] := by
  decide!

theorem exampleRollupLeads_window :
    typedWindow exampleBuiltins 30
      (exampleRollupLeads.filter (createdInWindow exampleBuiltins 1714564800000 30)) = true := by
  decide

theorem exampleRollupLeads_counts :
    exampleRollupLeads.length = 17 ∧
    (exampleRollupLeads.filter (createdInWindow exampleBuiltins 1714564800000 30)).length = 16 ∧
    (((exampleRollupLeads.filter (createdInWindow exampleBuiltins 1714564800000 30)).map
      (campaignOf exampleBuiltins)).dedup).length = 13 ∧
    (((exampleRollupLeads.filter (createdInWindow exampleBuiltins 1714564800000 30)).map
      (categoryOf exampleBuiltins)).dedup).length = 6 := by
  decide!

theorem campaignKey_eq_campaignOf (b : Builtins) (lead : Lead) :
    campaignKey b lead = campaignOf b lead := by
  unfold campaignKey campaignOf orElse
  rfl

theorem categoryName_eq_categoryOf (b : Builtins) (lead : Lead) :
    categoryName b lead = categoryOf b lead := by
  unfold categoryName categoryOf
  cases ht : lead.tags with
  | nil => rfl
  | cons t rest =>
    cases t with
    | none =>
      cases lead.lead_category <;> rfl
    | some t =>
      simp only [List.head?_cons]
      by_cases h : t = ""
      · simp [h]
      · simp [h]

theorem leadsOfCampaign_eq (b : Builtins) (k : String) (leads : List Lead) :
    leadsOfCampaign b k leads = campaignLeads b k leads := by
  unfold leadsOfCampaign campaignLeads
  simp only [campaignKey_eq_campaignOf]

theorem leadsOfCategory_eq (b : Builtins) (k : CategoryName) (leads : List Lead) :
    leadsOfCategory b k leads = categoryLeads b k leads := by
  unfold leadsOfCategory categoryLeads
  simp only [categoryName_eq_categoryOf]

/-- The keys of a reduction by `groupStep` are the distinct keys of the
leads. -/
theorem groupKeys_perm_dedup {κ α : Type} [DecidableEq κ] (key : Lead → κ) (init : κ → α)
    (add : Lead → α → α) (leads : List Lead) :
    ((leads.foldl (groupStep key init add) []).map (fun entry => entry.1)).Perm
      (leads.map key).dedup := by
  obtain ⟨hnd, hmem, _⟩ := foldl_groupStep key init add leads
  rw [List.perm_ext_iff_of_nodup hnd (List.nodup_dedup _)]
  intro k
  rw [hmem, List.mem_dedup, List.mem_map]

theorem campaignStatsOf_length (b : Builtins) (fl : List Lead) :
    (campaignStatsOf b fl).length = ((fl.map (campaignOf b)).dedup).length := by
  rw [(campaignStatsOf_perm b fl).length_eq, List.length_map]
  have h := (groupKeys_perm_dedup (campaignKey b) campaignInit campaignAdd fl).length_eq
  rw [List.length_map] at h
  have hk : fl.map (campaignKey b) = fl.map (campaignOf b) :=
    List.map_congr_left (fun lead _ => campaignKey_eq_campaignOf b lead)
  rw [hk] at h
  exact h

theorem categoryStatsOf_length (b : Builtins) (fl : List Lead) :
    (categoryStatsOf b fl).length = ((fl.map (categoryOf b)).dedup).length := by
  rw [(categoryStatsOf_perm b fl).length_eq, List.length_map]
  have h := (groupKeys_perm_dedup (categoryName b) (fun _ => categoryInit) categoryAdd fl).length_eq
  rw [List.length_map] at h
  have hk : fl.map (categoryName b) = fl.map (categoryOf b) :=
    List.map_congr_left (fun lead _ => categoryName_eq_categoryOf b lead)
  rw [hk] at h
  exact h

/-- A snapshot is returned only for a non-empty collection on whose window
the aggregator does not throw; its rollups are those of the leads of the
window. -/
theorem analyticsData_some (b : Builtins) (now : ℤ) (d : ℕ) (leads : List Lead) (a : Analytics)
    (h : analyticsData b now d leads = .ok (some a)) :
    leads ≠ [] ∧ typedWindow b d (filteredLeads b now d leads) = true ∧
    a.campaignStats = (campaignStatsOf b (filteredLeads b now d leads)).take 10 ∧
    a.categoryStats = categoryStatsOf b (filteredLeads b now d leads) := by
  have hne : leads ≠ [] := by
    intro he
    rw [he] at h
    unfold analyticsData at h
    simp only [List.length_nil, if_true, pure, Except.pure] at h
    cases h
  have hw := analyticsData_window b now d leads hne
  by_cases ht : typedWindow b d (filteredLeads b now d leads) = true
  · rw [if_pos ht, h] at hw
    have ha := Option.some.inj (Except.ok.inj hw)
    refine ⟨hne, ht, ?_, ?_⟩
    · rw [ha]
    · rw [ha]
  · rw [if_neg ht, h] at hw
    cases hw

/-- The campaign groups of the leads of a window: sorted, one for each
campaign, with the number of the leads of the campaign and the rounded mean of
their engagement scores. -/
theorem campaignStatsOf_groups (b : Builtins) (fl : List Lead) :
    (campaignStatsOf b fl).Pairwise (fun x y => x.avgEngagement ≥ y.avgEngagement) ∧
    ((campaignStatsOf b fl).map (fun s => s.name)).Nodup ∧
    (campaignStatsOf b fl).length = ((fl.map (campaignOf b)).dedup).length ∧
    (∀ k, "Campaign " ++ k ∈ (campaignStatsOf b fl).map (fun s => s.name) ↔
      ∃ lead ∈ fl, campaignOf b lead = k) ∧
    (∀ s ∈ campaignStatsOf b fl, ∃ k,
      s.name = "Campaign " ++ k ∧
      s.totalLeads = (campaignLeads b k fl).length ∧
      0 < s.totalLeads ∧
      s.avgEngagement = roundDouble (meanEngagement (campaignLeads b k fl))) := by
  obtain ⟨hcnd, hcmem, _⟩ := foldl_groupStep (campaignKey b) campaignInit campaignAdd fl
  have hnames := campaignStatsOf_names b fl
  refine ⟨campaignStatsOf_sorted b fl, ?_, campaignStatsOf_length b fl, ?_, ?_⟩
  · rw [hnames.nodup_iff]
    exact List.Nodup.map (fun k1 k2 h => campaign_name_injective k1 k2 h) hcnd
  · intro k
    rw [hnames.mem_iff, List.mem_map]
    constructor
    · rintro ⟨k2, hk2, heq⟩
      rw [← campaign_name_injective k2 k heq]
      obtain ⟨lead, hl, hk⟩ := (hcmem k2).mp hk2
      exact ⟨lead, hl, by rw [← campaignKey_eq_campaignOf, hk]⟩
    · rintro ⟨lead, hl, hk⟩
      exact ⟨k, (hcmem k).mpr ⟨lead, hl, by rw [campaignKey_eq_campaignOf, hk]⟩, rfl⟩
  · intro s hs
    obtain ⟨entry, he, hse⟩ := List.mem_map.mp ((campaignStatsOf_perm b _).mem_iff.mp hs)
    obtain ⟨⟨lead, hl, hk⟩, h1, h2, h3⟩ := campaignStat_of_entry b _ entry he
    rw [leadsOfCampaign_eq] at h2 h3
    rw [← hse]
    refine ⟨entry.1, h1, h2, ?_, h3⟩
    rw [h2]
    apply List.length_pos_of_mem (a := lead)
    unfold campaignLeads
    rw [List.mem_filter]
    exact ⟨hl, by simpa [← campaignKey_eq_campaignOf] using hk⟩

/-- The category entries of the leads of a window: sorted, one for each
category tag, with the number of the leads of the tag and the rounded mean of
their engagement scores. -/
theorem categoryStatsOf_groups (b : Builtins) (fl : List Lead) :
    (categoryStatsOf b fl).Pairwise (fun x y => x.avgEngagement ≥ y.avgEngagement) ∧
    ((categoryStatsOf b fl).map (fun s => s.category)).Nodup ∧
    (categoryStatsOf b fl).length = ((fl.map (categoryOf b)).dedup).length ∧
    (∀ k, k ∈ (categoryStatsOf b fl).map (fun s => s.category) ↔
      ∃ lead ∈ fl, categoryOf b lead = k) ∧
    (∀ s ∈ categoryStatsOf b fl,
      s.totalLeads = (categoryLeads b s.category fl).length ∧
      0 < s.totalLeads ∧
      s.avgEngagement = roundDouble (meanEngagement (categoryLeads b s.category fl))) := by
  obtain ⟨hgnd, hgmem, _⟩ := foldl_groupStep (categoryName b) (fun _ => categoryInit)
    categoryAdd fl
  have hcats := categoryStatsOf_categories b fl
  refine ⟨categoryStatsOf_sorted b fl, ?_, categoryStatsOf_length b fl, ?_, ?_⟩
  · rw [hcats.nodup_iff]
    exact hgnd
  · intro k
    rw [hcats.mem_iff]
    constructor
    · intro hk
      obtain ⟨lead, hl, hkey⟩ := (hgmem k).mp hk
      exact ⟨lead, hl, by rw [← categoryName_eq_categoryOf, hkey]⟩
    · rintro ⟨lead, hl, hkey⟩
      exact (hgmem k).mpr ⟨lead, hl, by rw [categoryName_eq_categoryOf, hkey]⟩
  · intro s hs
    obtain ⟨entry, he, hse⟩ := List.mem_map.mp ((categoryStatsOf_perm b _).mem_iff.mp hs)
    obtain ⟨h1, h2, h3⟩ := categoryStat_of_entry b _ entry he
    have hk : entry.1 ∈ (categoryPerformance b fl).map (fun e => e.1) :=
      List.mem_map.mpr ⟨entry, he, rfl⟩
    obtain ⟨lead, hl, hkey⟩ := (hgmem entry.1).mp hk
    rw [leadsOfCategory_eq] at h2 h3
    rw [← hse, h1]
    refine ⟨h2, ?_, h3⟩
    rw [h2]
    apply List.length_pos_of_mem (a := lead)
    unfold categoryLeads
    rw [List.mem_filter]
    exact ⟨hl, by simpa [← categoryName_eq_categoryOf] using hkey⟩

/-- C21. For every lead collection and window, `analyticsData` returns a
snapshot exactly when the collection is not empty and the aggregator does not
throw on the leads of the window, and in every snapshot returned:
`campaignStats` is the first ten elements of a list of campaign groups sorted
by non-increasing `avgEngagement`, so it has at most 10 entries, it is sorted,
and every group left out has an `avgEngagement` no greater than that of every
entry returned; there is exactly one group for each campaign of a lead in the
window, with the number of its leads and the rounded mean of their engagement
scores as `avgEngagement`; and `categoryStats` is sorted by non-increasing
`avgEngagement` and has exactly one entry for each category tag of a lead in
the window, none being cut, with the number of the leads of the tag and the
rounded mean of their engagement scores. -/
theorem rollups_sorted (b : Builtins) (now : ℤ) (d : ℕ) (leads : List Lead) :
    ((∃ a, analyticsData b now d leads = .ok (some a)) ↔
      leads ≠ [] ∧ typedWindow b d (leads.filter (createdInWindow b now d)) = true) ∧
    ∀ a, analyticsData b now d leads = .ok (some a) →
      (∃ groups : List CampaignStat,
        a.campaignStats = groups.take 10 ∧
        groups.Pairwise (fun x y => x.avgEngagement ≥ y.avgEngagement) ∧
        (groups.map (fun s => s.name)).Nodup ∧
        groups.length
          = (((leads.filter (createdInWindow b now d)).map (campaignOf b)).dedup).length ∧
        (∀ k, "Campaign " ++ k ∈ groups.map (fun s => s.name) ↔
          ∃ lead ∈ leads.filter (createdInWindow b now d), campaignOf b lead = k) ∧
        (∀ s ∈ groups, ∃ k,
          s.name = "Campaign " ++ k ∧
          s.totalLeads = (campaignLeads b k (leads.filter (createdInWindow b now d))).length ∧
          0 < s.totalLeads ∧
          s.avgEngagement = roundDouble
            (meanEngagement (campaignLeads b k (leads.filter (createdInWindow b now d))))) ∧
        (∀ omitted ∈ groups.drop 10, ∀ kept ∈ a.campaignStats,
          omitted.avgEngagement ≤ kept.avgEngagement)) ∧
      a.campaignStats.length
        = min 10 (((leads.filter (createdInWindow b now d)).map (campaignOf b)).dedup).length ∧
      a.campaignStats.length ≤ 10 ∧
      a.campaignStats.Pairwise (fun x y => x.avgEngagement ≥ y.avgEngagement) ∧
      a.categoryStats.Pairwise (fun x y => x.avgEngagement ≥ y.avgEngagement) ∧
      (a.categoryStats.map (fun s => s.category)).Nodup ∧
      a.categoryStats.length
        = (((leads.filter (createdInWindow b now d)).map (categoryOf b)).dedup).length ∧
      (∀ k, k ∈ a.categoryStats.map (fun s => s.category) ↔
        ∃ lead ∈ leads.filter (createdInWindow b now d), categoryOf b lead = k) ∧
      (∀ lead ∈ leads.filter (createdInWindow b now d), ∀ t, lead.tags = [some t] → t ≠ "" →
        CategoryName.tag t ∈ a.categoryStats.map (fun s => s.category)) ∧
      (∀ s ∈ a.categoryStats,
        s.totalLeads
          = (categoryLeads b s.category (leads.filter (createdInWindow b now d))).length ∧
        0 < s.totalLeads ∧
        s.avgEngagement = roundDouble (meanEngagement
          (categoryLeads b s.category (leads.filter (createdInWindow b now d))))) := by
  constructor
  · constructor
    · rintro ⟨a, ha⟩
      obtain ⟨hne, ht, _, _⟩ := analyticsData_some b now d leads a ha
      rw [filteredLeads_eq] at ht
      exact ⟨hne, ht⟩
    · rintro ⟨hne, ht⟩
      rw [← filteredLeads_eq] at ht
      have hw := analyticsData_window b now d leads hne
      rw [if_pos ht] at hw
      exact ⟨_, hw⟩
  · intro a ha
    obtain ⟨_, _, hcamp, hcat⟩ := analyticsData_some b now d leads a ha
    rw [filteredLeads_eq] at hcamp hcat
    obtain ⟨hs, hnd, hlen, hmem, hval⟩ :=
      campaignStatsOf_groups b (leads.filter (createdInWindow b now d))
    obtain ⟨gs, gnd, glen, gmem, gval⟩ :=
      categoryStatsOf_groups b (leads.filter (createdInWindow b now d))
    refine ⟨⟨_, hcamp, hs, hnd, hlen, hmem, hval, ?_⟩, ?_, ?_, ?_, ?_, ?_, ?_, ?_, ?_, ?_⟩
    · intro omitted ho kept hk
      rw [hcamp] at hk
      have hsplit := List.take_append_drop 10
        (campaignStatsOf b (leads.filter (createdInWindow b now d)))
      rw [← hsplit] at hs
      exact (List.pairwise_append.mp hs).2.2 kept hk omitted ho
    · rw [hcamp, List.length_take, hlen]
    · rw [hcamp, List.length_take]
      exact Nat.min_le_left _ _
    · rw [hcamp]
      exact hs.sublist (List.take_sublist _ _)
    · rw [hcat]
      exact gs
    · rw [hcat]
      exact gnd
    · rw [hcat]
      exact glen
    · intro k
      rw [hcat]
      exact gmem k
    · intro lead hl t htags ht
      rw [hcat, gmem]
      refine ⟨lead, hl, ?_⟩
      unfold categoryOf
      rw [htags]
      simp [ht]
    · intro s hsm
      rw [hcat] at hsm
      exact gval s hsm

theorem rollups_sorted_witness :
    exampleRollupLeads ≠ [] ∧
    typedWindow exampleBuiltins 30
      (exampleRollupLeads.filter (createdInWindow exampleBuiltins 1714564800000 30)) = true ∧
    ∃ a, analyticsData exampleBuiltins 1714564800000 30 exampleRollupLeads = .ok (some a) ∧
      a.campaignStats.length = 10 ∧
      a.campaignStats.map (fun s => (s.name, s.totalLeads, s.avgEngagement))
        = [("Campaign 10", 1, 100), ("Campaign 9", 1, 90), ("Campaign 8", 1, 80),
           ("Campaign 7", 1, 70), ("Campaign 12", 2, 125 / 2), ("Campaign 6", 1, 60),
           ("Campaign Unknown Campaign", 1, 55), ("Campaign 5", 1, 50), ("Campaign 4", 1, 40),
           ("Campaign 3", 1, 30)] ∧
      (∃ groups : List CampaignStat, a.campaignStats = groups.take 10 ∧ groups.length = 13 ∧
        ∀ omitted ∈ groups.drop 10, ∀ kept ∈ a.campaignStats,
          omitted.avgEngagement ≤ kept.avgEngagement) ∧
      a.categoryStats.length = 6 ∧
      a.categoryStats.map (fun s => (s.category, s.totalLeads, s.avgEngagement))
        = [(.inherited "constructor", 2, 60), (.inherited "toString", 1, 60),
           (.tag "Interested", 6, roundDouble (355 / 6)), (.tag "Meeting Request", 2, 50),
           (.tag "Uncategorized", 2, 95 / 2),
           (.tag "Not Interested", 3, roundDouble (50 / 3))] := by
  refine ⟨List.cons_ne_nil _ _, exampleRollupLeads_window, ?_⟩
  obtain ⟨a, ha⟩ := (rollups_sorted exampleBuiltins 1714564800000 30 exampleRollupLeads).1.mpr
    ⟨List.cons_ne_nil _ _, exampleRollupLeads_window⟩
  obtain ⟨⟨groups, hg, _, _, hglen, _, _, homit⟩, hlen, _, _, _, _, hclen, _⟩ :=
    (rollups_sorted exampleBuiltins 1714564800000 30 exampleRollupLeads).2 a ha
  have hrows := exampleRollupLeads_rows
  have hcats := exampleRollupLeads_categories
  rw [ha] at hrows hcats
  rw [exampleRollupLeads_counts.2.2.1] at hlen hglen
  rw [exampleRollupLeads_counts.2.2.2] at hclen
  exact ⟨a, ha, hlen, hrows, ⟨groups, hg, hglen, homit⟩, hclen, hcats⟩

/-! ## The engagement score in double arithmetic (C1) -/

theorem pow2_pos (k : ℤ) : 0 < pow2 k := by
  unfold pow2
  split_ifs
  · positivity
  · positivity

theorem roundHalfEven_nonneg (x : ℚ) (h : 0 ≤ x) : 0 ≤ roundHalfEven x := by
  have hf : 0 ≤ ⌊x⌋ := Int.floor_nonneg.mpr h
  unfold roundHalfEven
  simp only []
  split_ifs <;> omega

theorem roundDouble_nonneg (x : ℚ) (h : 0 ≤ x) : 0 ≤ roundDouble x := by
  unfold roundDouble
  split_ifs with h0
  · exact le_refl 0
  · simp only []
    have hq := pow2_pos (max (binaryExponent x) (-1022) - 52)
    have hr := roundHalfEven_nonneg (x / pow2 (max (binaryExponent x) (-1022) - 52))
      (div_nonneg h hq.le)
    have hc : (0 : ℚ) ≤ (roundHalfEven (x / pow2 (max (binaryExponent x) (-1022) - 52)) : ℚ) := by
      exact_mod_cast hr
    exact mul_nonneg hc hq.le

theorem avgResponseTimeDouble_eq_mean (conversation : List Message) :
    avgResponseTimeDouble conversation = doubleMean (storedResponseTimes conversation) := by
  unfold avgResponseTimeDouble doubleMean storedResponseTimes
  rw [responseTimes_eq_filterMap]
  cases h : (conversation.filterMap (fun m => m.response_time)).map storedResponseTime with
  | nil => simp
  | cons t ts => simp

theorem doubleRate_nonneg (replies sent : ℕ) : 0 ≤ doubleRate replies sent := by
  unfold doubleRate
  apply le_min _ (by norm_num)
  apply roundDouble_nonneg
  apply mul_nonneg _ (by norm_num)
  apply roundDouble_nonneg
  positivity

theorem doubleBonus_nonneg (avg : Double) : 0 ≤ doubleBonus avg := by
  unfold doubleBonus
  split_ifs <;> norm_num

theorem doubleTotal_nonneg (rate bonus : ℚ) (hr : 0 ≤ rate) (hb : 0 ≤ bonus) :
    0 ≤ doubleTotal rate bonus := by
  unfold doubleTotal
  split_ifs
  · exact hr
  · exact roundDouble_nonneg _ (add_nonneg hr hb)

/-- The rate component and the bonus in double arithmetic, before capping and
rounding to an integer. -/
theorem engagementScoreDouble_unfold (conversation : List Message)
    (h : 0 < countType "SENT" conversation) :
    engagementScoreDouble conversation =
      mathRound (min 100 (doubleTotal
        (doubleRate (countType "REPLY" conversation) (countType "SENT" conversation))
        (doubleBonus (doubleMean (storedResponseTimes conversation))))) := by
  have hs : (sentOf conversation).length > 0 := by rw [length_sentOf]; exact h
  unfold engagementScoreDouble
  simp only [hs, if_true, avgResponseTimeDouble_eq_mean, length_repliesOf, length_sentOf, zero_add]
  rw [min_comm _ (100 : ℚ)]
  unfold doubleBonus doubleTotal doubleRate
  split_ifs <;> simp_all

theorem fourRepliesConversation_counts :
    countType "SENT" fourRepliesConversation = 4 ∧
    countType "REPLY" fourRepliesConversation = 4 ∧
    fourRepliesConversation.filterMap (fun m => m.response_time)
      = [JSNum.fin (149 / 60), JSNum.fin (11 / 60), JSNum.fin (57 / 60), JSNum.fin (23 / 60)] := by
  decide!

theorem fourRepliesConversation_stored :
    storedResponseTimes fourRepliesConversation
      = [Double.fin (2795984768659183 / 1125899906842624),
         Double.fin (6605279453476727 / 36028797018963968),
         Double.fin (4278419646001971 / 4503599627370496),
         Double.fin (6905519428634761 / 18014398509481984)] := by
  decide!

theorem fourRepliesConversation_means :
    meanResponseTime fourRepliesConversation = JSNum.fin 1 ∧
    exactMean (storedResponseTimes fourRepliesConversation)
      = 144115188075855873 / 144115188075855872 ∧
    doubleMean (storedResponseTimes fourRepliesConversation)
      = Double.fin (9007199254740991 / 9007199254740992) := by
  decide!

theorem fourRepliesConversation_scores :
    engagementScore fourRepliesConversation = 90 ∧
    engagementScoreDouble fourRepliesConversation = 100 := by
  decide!

theorem exampleConversation_double :
    countType "SENT" exampleConversation = 1 ∧
    engagementScoreDouble exampleConversation = 90 := by
  decide!

/-- C1 (amended). For every conversation with at least one SENT message, the
engagement score that the lead transform computes in double arithmetic equals
`round(min(100, total))`: the rate component is `min(r * 60, 60)` with `r` the
rounded quotient of the numbers of REPLY and SENT messages and the product
rounded, the bonus is the speed bonus of the average that the runtime
computes, the rounded quotient by their number of the left-to-right rounded
sum of the stored response times (`0` if there are none), and the total is the
rounded sum of the two. The score lies between 0 and 100. It is the value of
the formula in exact arithmetic whenever the roundings leave the quotient, the
product and the sum unchanged and the computed average earns the bonus of the
exact mean. -/
theorem engagement_score_formula (conversation : List Message)
    (h : 0 < countType "SENT" conversation) :
    engagementScoreDouble conversation =
      mathRound (min 100 (doubleTotal
        (doubleRate (countType "REPLY" conversation) (countType "SENT" conversation))
        (doubleBonus (doubleMean (storedResponseTimes conversation))))) ∧
    (0 ≤ engagementScoreDouble conversation ∧ engagementScoreDouble conversation ≤ 100) ∧
    (roundDouble ((countType "REPLY" conversation : ℚ) / (countType "SENT" conversation : ℚ))
        = (countType "REPLY" conversation : ℚ) / (countType "SENT" conversation : ℚ) →
      roundDouble ((countType "REPLY" conversation : ℚ) / (countType "SENT" conversation : ℚ) * 60)
        = (countType "REPLY" conversation : ℚ) / (countType "SENT" conversation : ℚ) * 60 →
      doubleBonus (doubleMean (storedResponseTimes conversation))
        = speedBonus (meanResponseTime conversation) →
      roundDouble
          (min (60 * (countType "REPLY" conversation : ℚ) / (countType "SENT" conversation : ℚ)) 60
            + speedBonus (meanResponseTime conversation))
        = min (60 * (countType "REPLY" conversation : ℚ) / (countType "SENT" conversation : ℚ)) 60
            + speedBonus (meanResponseTime conversation) →
      engagementScoreDouble conversation =
        mathRound (min 100
          (min (60 * (countType "REPLY" conversation : ℚ) / (countType "SENT" conversation : ℚ)) 60
            + speedBonus (meanResponseTime conversation)))) := by
  have hu := engagementScoreDouble_unfold conversation h
  refine ⟨hu, ?_, ?_⟩
  · rw [hu, min_comm]
    exact mathRound_capped _ (doubleTotal_nonneg _ _ (doubleRate_nonneg _ _)
      (doubleBonus_nonneg _))
  · intro h1 h2 h3 h4
    rw [hu, h3]
    have hrate : doubleRate (countType "REPLY" conversation) (countType "SENT" conversation)
        = min (60 * (countType "REPLY" conversation : ℚ) / (countType "SENT" conversation : ℚ))
            60 := by
      unfold doubleRate
      rw [h1, h2]
      congr 1
      ring
    rw [hrate]
    unfold doubleTotal
    split_ifs with hb
    · rw [hb, add_zero]
    · rw [h4]

theorem engagement_score_formula_witness :
    0 < countType "SENT" exampleConversation ∧
    engagementScoreDouble exampleConversation = 90 ∧
    mathRound (min 100 (doubleTotal
      (doubleRate (countType "REPLY" exampleConversation) (countType "SENT" exampleConversation))
      (doubleBonus (doubleMean (storedResponseTimes exampleConversation))))) = 90 ∧
    0 ≤ engagementScoreDouble exampleConversation ∧
    engagementScoreDouble exampleConversation ≤ 100 :=
  ⟨by decide, exampleConversation_double.2,
    (engagement_score_formula exampleConversation (by decide)).1.symm.trans
      exampleConversation_double.2,
    (engagement_score_formula exampleConversation (by decide)).2.1⟩

/-- C1 fails as stated. In the conversation parsed from `blobFourReplies`,
four sent messages are answered after 149, 11, 57 and 23 minutes. The mean of
the four response times is exactly one hour, and the exact mean of the four
doubles that the parser stores is above one hour, so the formula of the claim
gives the bonus 30 and the score 90. The runtime adds the four doubles with
rounding and obtains the average `1 - 2 ^ (-53)`, below one hour: the bonus is
40 and the score stored is 100. -/
theorem engagement_score_formula_counterexample :
    0 < countType "SENT" fourRepliesConversation ∧
    countType "SENT" fourRepliesConversation = 4 ∧
    countType "REPLY" fourRepliesConversation = 4 ∧
    fourRepliesConversation.filterMap (fun m => m.response_time)
      = [JSNum.fin (149 / 60), JSNum.fin (11 / 60), JSNum.fin (57 / 60), JSNum.fin (23 / 60)] ∧
    meanResponseTime fourRepliesConversation = JSNum.fin 1 ∧
    1 ≤ exactMean (storedResponseTimes fourRepliesConversation) ∧
    mathRound (min 100 (min (60 * (4 : ℚ) / 4) 60 + speedBonus (JSNum.fin 1))) = 90 ∧
    mathRound (min 100 (min (60 * (4 : ℚ) / 4) 60
      + speedBonus (JSNum.fin (exactMean (storedResponseTimes fourRepliesConversation))))) = 90 ∧
    doubleMean (storedResponseTimes fourRepliesConversation)
      = Double.fin (9007199254740991 / 9007199254740992) ∧
    engagementScoreDouble fourRepliesConversation = 100 := by
  refine ⟨?_, fourRepliesConversation_counts.1, fourRepliesConversation_counts.2.1,
    fourRepliesConversation_counts.2.2, fourRepliesConversation_means.1, ?_, ?_, ?_,
    fourRepliesConversation_means.2.2, fourRepliesConversation_scores.2⟩
  · rw [fourRepliesConversation_counts.1]
    decide
  · rw [fourRepliesConversation_means.2.1]
    norm_num
  · decide!
  · rw [fourRepliesConversation_means.2.1]
    decide!

end InboxManager
